import Mathlib

/-!
# Tarmak orchestration engine: a shallow embedding

The Go code of `pkg/terraform/terraform.go` drives an external tool through
subprocesses, prompts and a control RPC listener.  Every interaction with the
outside world is modelled by an oracle that is consulted with the history of
events so far, and every interaction that matters is recorded in that history
(newest event first).  The session fields of the `Terraform` struct are carried
in an explicit state.
-/

namespace Tarmak

/-- A Go `error` value.  `errorString` is what `errors.New` and `fmt.Errorf`
build; `exitError` and `signaled` are the two shapes of `*exec.ExitError`
(child exited with a status, child killed by a signal); `foreign` is any other
error type handed back by a collaborator. -/
inductive GoError where
  | errorString (msg : String)
  | exitError (status : Nat)
  | signaled (sig : String)
  | foreign (msg : String)
  deriving DecidableEq, Repr

/-- The `Error()` method. -/
def GoError.Error : GoError → String
  | .errorString msg => msg
  | .exitError status => "exit status " ++ toString status
  | .signaled sig => "signal: " ++ sig
  | .foreign msg => msg

namespace plan

/-- Modelled from the spec: package `pkg/terraform/plan` is not part of the
sources at hand.  The spec gives the decision surface of a parsed plan as
`{legacyArtifactStale: bool, volumesToDestroy: ordered sequence of volume
identifiers}`. -/
structure Plan where
  legacyArtifactStale : Bool
  volumesToDestroy : List String
  deriving DecidableEq, Repr

/-- Modelled from the spec: whether the legacy configuration-bundle resource
needs tainting. -/
def Plan.UpdatingPuppet (p : Plan) : Bool := p.legacyArtifactStale

/-- Modelled from the spec: a diff with destroy entries for `["vol-a","vol-b"]`
yields `(true, ["vol-a","vol-b"])`, one with none yields `(false, [])`. -/
def Plan.IsDestroyingEBSVolume (p : Plan) : Bool × List String :=
  (!p.volumesToDestroy.isEmpty, p.volumesToDestroy)

end plan

/-- Everything the engine does to the outside world, as recorded in the
history. -/
inductive Event where
  | tempFile (name : String)
  | generateCode
  | preparePlugins
  | log (level : String) (msg : String)
  | rpcListen (socketPath : String)
  | rpcStop
  | rpcWait
  | childStart (binaryPath : String) (args : List String) (dir : String) (env : List String)
  | childSignal (sig : String)
  | childExit (err : Option GoError)
  | shellRun (shell : String) (dir : String) (env : List String)
  | shellExit (err : Option GoError)
  | planRead (path : String) (tfPlan : plan.Plan)
  | planReadFailed (path : String)
  | prompt (query : String) (answer : Option Bool)
  | removeAll (path : String)
  deriving DecidableEq, Repr

/-- Flags under `ClusterFlags().Apply`. -/
structure ApplyFlags where
  PlanFileLocation : String
  AutoApprove : Bool
  AutoApproveDeletingData : Bool

/-- Flags under `ClusterFlags().Plan`. -/
structure PlanFlags where
  PlanFileStore : String

/-- The value of `tarmak.ClusterFlags()`. -/
structure ClusterFlags where
  Apply : ApplyFlags
  Plan : PlanFlags

/-- The `interfaces.Cluster` collaborator, as far as the engine uses it. -/
structure Cluster where
  ConfigPath : String
  LegacyPuppetTFName : String
  /-- The call `Environment().Provider().Environment()`. -/
  ProviderEnvironment : List Event → Except GoError (List String)

/-- What waiting on a child process gives: the error of `cmd.Wait()` and the
lines the child wrote to its standard error. -/
structure WaitResult where
  err : Option GoError
  stderr : List String

/-- The collaborators and the operating system.  Every oracle that stands for
an effect receives the history so far. -/
structure Env where
  flags : ClusterFlags
  /-- The constant `consts.DefaultPlanLocationPlaceholder`. -/
  DefaultPlanLocationPlaceholder : String
  /-- The constant `consts.TerraformPlanFile`. -/
  TerraformPlanFile : String
  /-- The library function `filepath.Join` on two elements. -/
  pathJoin : String → String → String
  /-- The helper `utils.Expand`. -/
  Expand : String → Except GoError String
  /-- The recorded terminal error of the cancellation context. -/
  ctxErr : GoError
  /-- The recorded signal of the cancellation context. -/
  ctxSignal : String
  /-- Whether the cancellation context fires no later than this point. -/
  fires : List Event → Bool
  /-- The call `ioutil.TempFile(os.TempDir(), "tarmak.sock")`, by the name of
  the file it creates. -/
  tempFile : List Event → Except GoError String
  /-- The method `GenerateCode`, which lives in another file of the package. -/
  generateCode : List Event → Option GoError
  /-- The method `preparePlugins`: its work on the file system (`MkdirAll`,
  `Lstat`, `Readlink`, `Remove`, `Symlink`) is kept as one step with an error
  result. -/
  preparePlugins : List Event → Option GoError
  /-- The call `os.Getenv`. -/
  getenv : List Event → String → String
  /-- The call `os.Environ`. -/
  environ : List Event → List String
  /-- The call `osext.Executable`. -/
  executable : List Event → Except GoError String
  /-- The call `cmd.StdoutPipe`. -/
  stdoutPipe : List Event → Option GoError
  /-- The call `cmd.StderrPipe`. -/
  stderrPipe : List Event → Option GoError
  /-- The call `cmd.Start`. -/
  start : List Event → Option GoError
  /-- The call `os.RemoveAll`. -/
  removeAll : List Event → String → Option GoError
  /-- The call `cmd.Run()` on the debug shell: the error of starting the shell
  or of its exit. -/
  run : List Event → Option GoError
  /-- In the `select` of `command`: whether the `Done()` case is the one
  taken, that is, cancellation is seen before the child has completed. -/
  selectDone : List Event → Bool
  /-- The call `cmd.Wait`, with what the child wrote to standard error. -/
  wait : List Event → WaitResult
  /-- The call `plan.New(path)`. -/
  planNew : List Event → String → Except GoError plan.Plan
  /-- The call `input.New(os.Stdin, os.Stdout).AskYesNo`. -/
  askYesNo : List Event → String → Except GoError Bool

/-- The mutable fields of the `Terraform` struct, the fired state of the
cancellation context, and the history (newest first). -/
structure St where
  socketPath : String
  prepared : Bool
  cancelled : Bool
  trace : List Event

/-- Record an event. -/
def St.emit (s : St) (e : Event) : St := { s with trace := e :: s.trace }

namespace Terraform

def debugShell : String := "debug-shell"

def remoteStateError : String :=
  "Error locking destination state: Error acquiring the state lock: ConditionalCheckFailedException: The conditional request failed"

/-- The constructor `New`: the session fields start at their zero values. -/
def New : St := { socketPath := "", prepared := false, cancelled := false, trace := [] }

/-- Whether `<-ctx.Done()` is ready at this point. -/
def ctxDone (env : Env) (s : St) : Bool := s.cancelled || env.fires s.trace

/-- The code path `filepath.Join(c.ConfigPath(), "terraform")`. -/
def codePath (env : Env) (c : Cluster) : String := env.pathJoin c.ConfigPath "terraform"

/-- The method `checkDone`. -/
def checkDone (env : Env) (s : St) : Option GoError × St :=
  if ctxDone env s then (some env.ctxErr, { s with cancelled := true }) else (none, s)

/-- The method `envVars`, with its two results `([]string, error)`. -/
def envVars (env : Env) (cluster : Cluster) (s : St) : List String × Option GoError :=
  match cluster.ProviderEnvironment s.trace with
  | .error err =>
      ([], some (.errorString ("error getting environment secrets from provider: " ++ err.Error)))
  | .ok environmentProvider =>
      (["TF_IN_AUTOMATION=1"] ++ environmentProvider ++ ["TF_LOG=" ++ env.getenv s.trace "TF_LOG"],
        none)

/-- The method `command`.  `stdout` and `stderr` say whether the caller passed
a sink (`true`) or `nil` (`false`).  Besides the returned error the model hands
back the lines the child wrote to standard error, which is what a caller's
sink receives. -/
def command (env : Env) (cluster : Cluster) (s : St) (args : List String)
    (stdout stderr : Bool) : (Option GoError × List String) × St :=
  match envVars env cluster s with
  | (_, some err) => ((some err, []), s)
  | (ev, none) =>
    match env.executable s.trace with
    | .error err =>
        ((some (.errorString ("error finding tarmak executable: " ++ err.Error)), []), s)
    | .ok binaryPath =>
      match (if stdout then none else env.stdoutPipe s.trace) with
      | some err => ((some err, []), s)
      | none =>
        match (if stderr then none else env.stderrPipe s.trace) with
        | some err => ((some err, []), s)
        | none =>
          match env.start s.trace with
          | some err => ((some err, []), s)
          | none =>
            let s1 := s.emit (.childStart binaryPath args (codePath env cluster) ev)
            if env.selectDone s1.trace then
              let s2 := { s1.emit (.childSignal env.ctxSignal) with cancelled := true }
              let r := env.wait s2.trace
              ((r.err, r.stderr), s2.emit (.childExit r.err))
            else
              let r := env.wait s1.trace
              ((r.err, r.stderr), s1.emit (.childExit r.err))

/-- The test `strings.Contains(s, substr)`. -/
def stringsContains (s substr : String) : Bool := decide (substr.data <:+: s.data)

/-- One entry of the `setupCommand` table of `Prepare`. -/
structure setupCommand where
  log : String
  name : String
  args : List String

/-- The two set-up steps `Prepare` loops over. -/
def setupCommands : List setupCommand :=
  [ { log := "initialising terraform", name := "init",
      args := ["terraform", "init", "-get-plugins=false", "-input=false"] },
    { log := "validating terraform code", name := "validate",
      args := ["terraform", "validate"] } ]

/-- What the scanner goroutine of `Prepare` does with the lines of standard
error: every line that contains `remoteStateError` appends the hint to
`furtherErrorContext`. -/
def scanStderr (furtherErrorContext : String) : List String → String
  | [] => furtherErrorContext
  | line :: rest =>
      scanStderr
        (if stringsContains line remoteStateError then
          furtherErrorContext ++
            "\nthis error is often caused due to the remote state being destroyed and can be fixed by manually syncing both local and remote states"
         else furtherErrorContext)
        rest

/-- The `for _, c := range []setupCommand{...}` loop of `Prepare`. -/
def prepareLoop (env : Env) (cluster : Cluster) :
    List setupCommand → String → St → Option GoError × St
  | [], _, s => (none, s)
  | c :: rest, furtherErrorContext, s =>
    let s1 := s.emit (.log "info" c.log)
    match command env cluster s1 c.args false true with
    | ((some err, lines), s2) =>
        (some (.errorString ("error running terraform " ++ c.name ++ ": " ++ err.Error ++
            scanStderr furtherErrorContext lines)), s2)
    | ((none, lines), s2) =>
      match checkDone env s2 with
      | (some err, s3) => (some err, s3)
      | (none, s3) => prepareLoop env cluster rest (scanStderr furtherErrorContext lines) s3

/-- The method `Prepare`.  Code generation and the placing of the plugin
symlinks are collaborators' work on the file system: each is one event and an
error result. -/
def Prepare (env : Env) (cluster : Cluster) (s : St) : Option GoError × St :=
  match checkDone env s with
  | (some err, s1) => (some err, s1)
  | (none, s1) =>
    match env.generateCode s1.trace with
    | some err =>
        (some (.errorString ("failed to generate code: " ++ err.Error)), s1.emit .generateCode)
    | none =>
      match checkDone env (s1.emit .generateCode) with
      | (some err, s2) => (some err, s2)
      | (none, s2) =>
        match env.preparePlugins s2.trace with
        | some err =>
            (some (.errorString ("failed to prepare plugins: " ++ err.Error)),
              s2.emit .preparePlugins)
        | none =>
          match checkDone env (s2.emit .preparePlugins) with
          | (some err, s3) => (some err, s3)
          | (none, s3) => prepareLoop env cluster setupCommands "" s3

/-- The method `ResetTerraformWrapper`. -/
def ResetTerraformWrapper (s : St) : St := { s with socketPath := "", prepared := false }

/-- Lines 189-195 of `terraformWrapper`: create the socket file lazily. -/
def ensureSocketPath (env : Env) (s : St) : Option GoError × St :=
  if s.socketPath = "" then
    match env.tempFile s.trace with
    | .error err => (some (.errorString ("failed to create socket file: " ++ err.Error)), s)
    | .ok name => (none, { s.emit (.tempFile name) with socketPath := name })
  else (none, s)

/-- Lines 197-203 of `terraformWrapper`: prepare once per session. -/
def ensurePrepared (env : Env) (cluster : Cluster) (s : St) : Option GoError × St :=
  if !s.prepared then
    match Prepare env cluster s with
    | (some err, s1) =>
        (some (.errorString ("failed to prepare terraform: " ++ err.Error)), s1)
    | (none, s1) => (none, { s1 with prepared := true })
  else (none, s)

/-- The last two statements of `terraformWrapper`: `close(stopRpcCh)` and
`wg.Wait()`. -/
def stopRpc (s : St) : St := (s.emit .rpcStop).emit .rpcWait

/-- Lines 205-267 of `terraformWrapper`: start the RPC listener goroutine, run
the debug shell or the terraform subcommand, stop the listener. -/
def runWrapped (env : Env) (cluster : Cluster) (s : St) (cmd : String) (args : List String) :
    Option GoError × St :=
  let s1 := (s.emit (.rpcListen s.socketPath)).emit (.log "info" ("running " ++ cmd))
  if cmd = debugShell then
    let dir := codePath env cluster
    match envVars env cluster s1 with
    | (_, some err) => (some err, s1)
    | (ev, none) =>
      let shell := env.getenv s1.trace "SHELL"
      let s2 :=
        if shell = "" then
          s1.emit (.shellRun "/bin/sh" dir (env.environ s1.trace ++ (ev ++ ["PS1=[" ++ dir ++ "]$ "])))
        else
          s1.emit (.shellRun shell dir (env.environ s1.trace ++ ev))
      let s3 := s2.emit (.shellExit (env.run s2.trace))
      (none, stopRpc s3)
  else if cmd ≠ "" then
    match command env cluster s1 ("terraform" :: cmd :: args) false false with
    | ((some err, _), s2) => (some err, s2)
    | ((none, _), s2) => (none, stopRpc s2)
  else (none, stopRpc s1)

/-- The method `terraformWrapper`. -/
def terraformWrapper (env : Env) (cluster : Cluster) (s : St) (cmd : String)
    (args : List String) : Option GoError × St :=
  match ensureSocketPath env s with
  | (some err, s1) => (some err, s1)
  | (none, s1) =>
    match ensurePrepared env cluster s1 with
    | (some err, s2) => (some err, s2)
    | (none, s2) => runWrapped env cluster s2 cmd args

/-- The function `errIsTerraformPlanChangesNeeded`: the error is an
`*exec.ExitError` whose exit status is 2. -/
def errIsTerraformPlanChangesNeeded : Option GoError → Bool
  | some (.exitError status) => status == 2
  | _ => false

/-- Lines 508-513 of `planWrapper`: read the plan file that was written. -/
def readPlan (env : Env) (s : St) (planPath : String) (changesNeeded : Bool) :
    (Bool × Except GoError plan.Plan) × St :=
  match env.planNew s.trace planPath with
  | .error e =>
      ((changesNeeded,
        .error (.errorString ("error while trying to read plan file: " ++ e.Error))),
        s.emit (.planReadFailed planPath))
  | .ok tfPlan => ((changesNeeded, .ok tfPlan), s.emit (.planRead planPath tfPlan))

/-- The method `planWrapper`.  The Go pair `(tfPlan, err)`, of which exactly
one is non-nil on return, is an `Except`. -/
def planWrapper (env : Env) (cluster : Cluster) (s : St) (planPath : String) :
    (Bool × Except GoError plan.Plan) × St :=
  match terraformWrapper env cluster s "plan"
      ["-detailed-exitcode", "-input=false", "-out=" ++ planPath] with
  | (none, s1) => readPlan env s1 planPath false
  | (some err, s1) =>
    if errIsTerraformPlanChangesNeeded (some err) then readPlan env s1 planPath true
    else ((false, .error err), s1)

/-- The method `defaultPlanPath`. -/
def defaultPlanPath (env : Env) (cluster : Cluster) : String :=
  env.pathJoin (codePath env cluster) env.TerraformPlanFile

/-- The method `planFileStore`. -/
def planFileStore (env : Env) (cluster : Cluster) : Except GoError String :=
  if env.flags.Plan.PlanFileStore = env.DefaultPlanLocationPlaceholder then
    .ok (defaultPlanPath env cluster)
  else env.Expand env.flags.Plan.PlanFileStore

/-- The method `planFileLocation`. -/
def planFileLocation (env : Env) (cluster : Cluster) : Except GoError String :=
  if env.flags.Apply.PlanFileLocation = env.DefaultPlanLocationPlaceholder then
    .ok (defaultPlanPath env cluster)
  else env.Expand env.flags.Apply.PlanFileLocation

/-- Lines 389-413 of `Plan`: run a plan, or read the caller's plan file.  Gives
the plan path in use and the parsed plan. -/
def planFirst (env : Env) (cluster : Cluster) (s : St) (preApply : Bool) :
    (Bool × Except GoError (String × plan.Plan)) × St :=
  let planPath := env.flags.Apply.PlanFileLocation
  let customPlanFile := decide (planPath ≠ env.DefaultPlanLocationPlaceholder)
  if !preApply || !customPlanFile then
    match planFileStore env cluster with
    | .error err => ((true, .error err), s)
    | .ok storePath =>
      match planWrapper env cluster s storePath with
      | ((changesNeeded, .error err), s1) => ((changesNeeded, .error err), s1)
      | ((changesNeeded, .ok tfPlan), s1) => ((changesNeeded, .ok (storePath, tfPlan)), s1)
  else
    let s1 := s.emit (.log "info" ("using custom plan file " ++ planPath))
    match env.planNew s1.trace planPath with
    | .error e =>
        ((true, .error (.errorString ("error while trying to read plan file: " ++ e.Error))),
          s1.emit (.planReadFailed planPath))
    | .ok tfPlan => ((true, .ok (planPath, tfPlan)), s1.emit (.planRead planPath tfPlan))

/-- Lines 415-431 of `Plan`: taint the legacy resource and plan again when the
parsed plan says the legacy artifact is stale. -/
def planRetaint (env : Env) (cluster : Cluster) (s : St) (planPath : String)
    (changesNeeded : Bool) (tfPlan : plan.Plan) : (Bool × Except GoError plan.Plan) × St :=
  if tfPlan.UpdatingPuppet then
    let s1 := s.emit (.log "info" "tainting legacy s3 puppet module object to force update")
    match terraformWrapper env cluster s1 "taint"
        ["-allow-missing", "-module=kubernetes", cluster.LegacyPuppetTFName] with
    | (some err, s2) => ((changesNeeded, .error err), s2)
    | (none, s2) =>
      planWrapper env cluster
        (s2.emit (.log "info" "running plan again to update plan file against new state"))
        planPath
  else ((changesNeeded, .ok tfPlan), s)

/-- The message `destroyStr` of `Plan`. -/
def destroyStr (ebsVolumesToDestroy : List String) : String :=
  "the following EBS volumes will be destroyed during the next apply: [" ++
    ", ".intercalate ebsVolumesToDestroy ++ "]"

/-- The `query` of the confirmation prompt of `Plan`. -/
def destroyQuery (ebsVolumesToDestroy : List String) : String :=
  destroyStr ebsVolumesToDestroy ++ "\nThis cannot be undone. Are you sure you want to continue?"

/-- Lines 433-467 of `Plan`: the decision on volumes to destroy. -/
def planVolumes (env : Env) (s : St) (preApply : Bool) (changesNeeded : Bool)
    (tfPlan : plan.Plan) : (Bool × Option GoError) × St :=
  match tfPlan.IsDestroyingEBSVolume with
  | (destroyingEBSVolume, ebsVolumesToDestroy) =>
    if !destroyingEBSVolume then ((changesNeeded, none), s)
    else if !preApply then
      ((changesNeeded, some (.errorString (destroyStr ebsVolumesToDestroy))), s)
    else if env.flags.Apply.AutoApproveDeletingData && env.flags.Apply.AutoApprove then
      ((changesNeeded, none),
        s.emit (.log "warning" ("auto approved deleting, " ++ destroyStr ebsVolumesToDestroy)))
    else
      match env.askYesNo s.trace (destroyQuery ebsVolumesToDestroy) with
      | .error err =>
          ((changesNeeded, some err), s.emit (.prompt (destroyQuery ebsVolumesToDestroy) none))
      | .ok d =>
        let s1 := s.emit (.prompt (destroyQuery ebsVolumesToDestroy) (some d))
        if !d then
          ((changesNeeded, some (.errorString ("error: " ++ destroyStr ebsVolumesToDestroy))), s1)
        else ((changesNeeded, none), s1.emit (.log "warning" (destroyStr ebsVolumesToDestroy)))

/-- Lines 389-431 of `Plan`: everything up to the parsed plan on which the
volume decision is taken. -/
def planParsed (env : Env) (cluster : Cluster) (s : St) (preApply : Bool) :
    (Bool × Except GoError plan.Plan) × St :=
  match planFirst env cluster s preApply with
  | ((changesNeeded, .error err), s1) => ((changesNeeded, .error err), s1)
  | ((changesNeeded, .ok (planPath, tfPlan)), s1) =>
      planRetaint env cluster s1 planPath changesNeeded tfPlan

/-- The method `Plan`. -/
def Plan (env : Env) (cluster : Cluster) (s : St) (preApply : Bool) :
    (Bool × Option GoError) × St :=
  match planParsed env cluster s preApply with
  | ((changesNeeded, .error err), s1) => ((changesNeeded, some err), s1)
  | ((changesNeeded, .ok tfPlan), s1) => planVolumes env s1 preApply changesNeeded tfPlan

/-- The method `Apply`. -/
def Apply (env : Env) (cluster : Cluster) (s : St) : (Bool × Option GoError) × St :=
  match Plan env cluster s true with
  | ((_, some err), s1) => ((false, some err), s1)
  | ((false, none), s1) => ((false, none), s1)
  | ((true, none), s1) =>
    if ctxDone env s1 then ((true, some env.ctxErr), { s1 with cancelled := true })
    else
      match planFileLocation env cluster with
      | .error err => ((false, some err), s1)
      | .ok planFilePath =>
        match terraformWrapper env cluster s1 "apply" [planFilePath] with
        | (err, s2) => ((true, err), s2)

/-- The method `Destroy`. -/
def Destroy (env : Env) (cluster : Cluster) (s : St) : Option GoError × St :=
  terraformWrapper env cluster s "destroy" ["-force", "-refresh=false"]

/-- The method `ForceUnlock`. -/
def ForceUnlock (env : Env) (cluster : Cluster) (s : St) (lockID : String) :
    Option GoError × St :=
  terraformWrapper env cluster s "force-unlock" ["-force", lockID]

/-- The method `Cleanup`. -/
def Cleanup (env : Env) (s : St) : Option GoError × St :=
  if s.socketPath ≠ "" then
    (env.removeAll s.trace s.socketPath, s.emit (.removeAll s.socketPath))
  else (none, s)

/-- The method `Shell`. -/
def Shell (env : Env) (cluster : Cluster) (s : St) : Option GoError × St :=
  match terraformWrapper env cluster s debugShell [] with
  | (some err, s1) => (some err, s1)
  | (none, s1) => (none, s1)

end Terraform

/-- The terraform subcommand a child-start event runs: the second element of
the argument list (the first is the literal `terraform`). -/
def Event.subcommand : Event → Option String
  | .childStart _ (_ :: c :: _) _ _ => some c
  | _ => none

/-- The events a wrapped run of one of the subcommands `cmds` may leave in the
history: everything but reads of a plan file, prompts, and child starts of
other subcommands. -/
def Event.engineStep (cmds : List String) : Event → Bool
  | .childStart _ (_ :: c :: _) _ _ => decide (c ∈ cmds)
  | .childStart _ _ _ _ => false
  | .planRead _ _ => false
  | .planReadFailed _ => false
  | .prompt _ _ => false
  | _ => true

/-- The events lines 389-431 of `Plan` may leave in the history: wrapped runs
of `plan` and `taint`, and reads of the plan file. -/
def Event.planStep (e : Event) : Bool :=
  e.engineStep ["init", "validate", "plan", "taint"] ||
    match e with
    | .planRead _ _ => true
    | .planReadFailed _ => true
    | _ => false

/-- Whether the event is a yes/no confirmation prompt. -/
def Event.isPrompt : Event → Bool
  | .prompt _ _ => true
  | _ => false

/-- Whether the event is a successful read of a plan file. -/
def Event.isPlanRead : Event → Bool
  | .planRead _ _ => true
  | _ => false

/-- The plan most recently parsed with success in a history (newest first). -/
def lastPlanRead : List Event → Option plan.Plan
  | [] => none
  | .planRead _ tfPlan :: _ => some tfPlan
  | _ :: rest => lastPlanRead rest

/-- The history `t2` is `t1` with new events on top, each of which satisfies `Q`. -/
def TraceExt (Q : Event → Prop) (t1 t2 : List Event) : Prop :=
  ∃ new, t2 = new ++ t1 ∧ ∀ e ∈ new, Q e

/-- The history `t2` is `t1` with new events on top, all of them events of a
`Plan` call, the newest being the successful read of the plan `p`. -/
def ReadOnTop (p : plan.Plan) (t1 t2 : List Event) : Prop :=
  ∃ path mid, t2 = Event.planRead path p :: (mid ++ t1) ∧ ∀ e ∈ mid, e.planStep = true

/-! ## Concrete collaborators, for evaluating the engine -/

/-- A cluster whose provider hands out one environment variable. -/
def demoCluster : Cluster :=
  { ConfigPath := "/cfg"
    LegacyPuppetTFName := "aws_s3_bucket_object.puppet-tar-gz"
    ProviderEnvironment := fun _ => .ok ["AWS_REGION=eu-west-1"] }

/-- A session whose socket exists and whose prepare step is done. -/
def demoSt : St :=
  { socketPath := "/tmp/tarmak.sock1", prepared := true, cancelled := false, trace := [] }

/-- A world in which nothing fails, nothing is cancelled, every child exits
with status 0, every plan file parses to an empty plan and every prompt is
declined; the flags are the defaults. -/
def quietEnv : Env :=
  { flags := { Apply := { PlanFileLocation := "default", AutoApprove := false,
                          AutoApproveDeletingData := false },
               Plan := { PlanFileStore := "default" } }
    DefaultPlanLocationPlaceholder := "default"
    TerraformPlanFile := "terraform.plan"
    pathJoin := fun a b => a ++ "/" ++ b
    Expand := fun p => .ok p
    ctxErr := .foreign "context canceled"
    ctxSignal := "interrupt"
    fires := fun _ => false
    tempFile := fun _ => .ok "/tmp/tarmak.sock1"
    generateCode := fun _ => none
    preparePlugins := fun _ => none
    getenv := fun _ _ => ""
    environ := fun _ => []
    executable := fun _ => .ok "/usr/bin/tarmak"
    stdoutPipe := fun _ => none
    stderrPipe := fun _ => none
    start := fun _ => none
    removeAll := fun _ _ => none
    run := fun _ => none
    selectDone := fun _ => false
    wait := fun _ => { err := none, stderr := [] }
    planNew := fun _ _ => .ok { legacyArtifactStale := false, volumesToDestroy := [] }
    askYesNo := fun _ _ => .ok false }

/-- A world like `quietEnv` in which the plan subprocess exits with status 2
and every plan file lists two volumes to destroy; the two approval flags and
the answer to the prompt are given. -/
def destroyEnv (autoApprove autoApproveDeletingData answer : Bool) : Env :=
  { quietEnv with
    flags := { Apply := { PlanFileLocation := "default", AutoApprove := autoApprove,
                          AutoApproveDeletingData := autoApproveDeletingData },
               Plan := { PlanFileStore := "default" } }
    wait := fun t =>
      match t with
      | .childStart _ (_ :: "plan" :: _) _ _ :: _ => { err := some (.exitError 2), stderr := [] }
      | _ => { err := none, stderr := [] }
    planNew := fun _ _ =>
      .ok { legacyArtifactStale := false, volumesToDestroy := ["vol-a", "vol-b"] }
    askYesNo := fun _ _ => .ok answer }

/-- A world like `quietEnv` in which cancellation is seen while each child
runs, and the signalled child ends killed by the signal. -/
def cancelEnv : Env :=
  { quietEnv with
    selectDone := fun _ => true
    wait := fun _ => { err := some (.signaled "interrupt"), stderr := [] } }

/-- A world like `cancelEnv` in which the signalled child still exits with
status 0. -/
def cancelCleanEnv : Env :=
  { quietEnv with selectDone := fun _ => true }

/-- A world like `quietEnv` in which the debug shell ends with exit status 1. -/
def shellFailEnv : Env :=
  { quietEnv with run := fun _ => some (.exitError 1) }

/-- A world like `quietEnv` in which the plan subprocess exits with status 2
and the flag `Plan.PlanFileStore` names a file of the caller, while
`Apply.PlanFileLocation` is left at its default. -/
def storeEnv : Env :=
  { quietEnv with
    flags := { Apply := { PlanFileLocation := "default", AutoApprove := false,
                          AutoApproveDeletingData := false },
               Plan := { PlanFileStore := "/tmp/custom.plan" } }
    wait := fun t =>
      match t with
      | .childStart _ (_ :: "plan" :: _) _ _ :: _ => { err := some (.exitError 2), stderr := [] }
      | _ => { err := none, stderr := [] } }

/-- A world like `storeEnv` in which the file that the flag
`Plan.PlanFileStore` names parses to a plan with nothing to destroy, while any
other plan file, the one at the default path among them, parses to a plan that
destroys the volume `vol-a`. -/
def leftoverEnv : Env :=
  { storeEnv with
    planNew := fun _ path =>
      if path = "/tmp/custom.plan" then
        .ok { legacyArtifactStale := false, volumesToDestroy := [] }
      else .ok { legacyArtifactStale := false, volumesToDestroy := ["vol-a"] } }

/-- A world like `destroyEnv false false true` (the prompt is answered yes) in
which the cancellation context fires while the prompt is pending. -/
def promptCancelEnv : Env :=
  { destroyEnv false false true with fires := fun t => t.any Event.isPrompt }

/-- The events of `Prepare`: code generation, plugin set-up, and child starts
of `init` and `validate`. -/
def Event.isPrepareStep : Event → Bool
  | .generateCode => true
  | .preparePlugins => true
  | .childStart _ (_ :: c :: _) _ _ => c == "init" || c == "validate"
  | _ => false

/-- The operations a caller can run on a session, `ResetTerraformWrapper`
apart. -/
inductive EngineOp where
  | prepare
  | plan (preApply : Bool)
  | apply
  | destroy
  | forceUnlock (lockID : String)
  | shell
  | cleanup
  deriving DecidableEq, Repr

/-- The session one operation leaves behind, whatever it returned. -/
def EngineOp.run (env : Env) (cluster : Cluster) (s : St) : EngineOp → St
  | .prepare => (Terraform.Prepare env cluster s).2
  | .plan preApply => (Terraform.Plan env cluster s preApply).2
  | .apply => (Terraform.Apply env cluster s).2
  | .destroy => (Terraform.Destroy env cluster s).2
  | .forceUnlock lockID => (Terraform.ForceUnlock env cluster s lockID).2
  | .shell => (Terraform.Shell env cluster s).2
  | .cleanup => (Terraform.Cleanup env s).2

/-- The session a sequence of operations leaves behind, run from left to
right. -/
def EngineOp.runAll (env : Env) (cluster : Cluster) (s : St) (ops : List EngineOp) : St :=
  ops.foldl (fun s1 op => op.run env cluster s1) s

/-- What a stretch of engine work that leads from session `s` to session `s2`
may do to the session fields: the history only grows, a set `prepared` flag
stays set, a socket path that is not empty stays as it is, and a `prepared`
flag that was clear and is now set was set after a `Prepare` that ran inside
the stretch, on a session with the flag clear, and returned no error. -/
def SessionKept (env : Env) (cluster : Cluster) (s s2 : St) : Prop :=
  (∃ new, s2.trace = new ++ s.trace) ∧
  (s.prepared = true → s2.prepared = true) ∧
  (s.socketPath ≠ "" → s2.socketPath = s.socketPath) ∧
  (s.prepared = false → s2.prepared = true →
    ∃ s0 s1, s0.prepared = false ∧ Terraform.Prepare env cluster s0 = (none, s1) ∧
      (∃ a, s0.trace = a ++ s.trace) ∧ (∃ b, s2.trace = b ++ s1.trace))

/-- A world like `quietEnv` in which every child exits with status 1. -/
def failEnv : Env :=
  { quietEnv with wait := fun _ => { err := some (.exitError 1), stderr := [] } }

/-- Whether a history holds the start of a `taint` child. -/
def tainted (t : List Event) : Bool := t.any (fun e => decide (e.subcommand = some "taint"))

/-- A world like `quietEnv` in which every plan child exits with status 2 and
the flag `Apply.PlanFileLocation` is as given.  A plan file read before the
legacy resource has been tainted reports the legacy artifact as stale and no
volume; read after the taint it reports a fresh artifact and one volume to
destroy. -/
def staleEnv (planFileLocation : String) : Env :=
  { quietEnv with
    flags := { Apply := { PlanFileLocation := planFileLocation, AutoApprove := false,
                          AutoApproveDeletingData := false },
               Plan := { PlanFileStore := "default" } }
    wait := fun t =>
      match t with
      | .childStart _ (_ :: "plan" :: _) _ _ :: _ => { err := some (.exitError 2), stderr := [] }
      | _ => { err := none, stderr := [] }
    planNew := fun t _ =>
      if tainted t then .ok { legacyArtifactStale := false, volumesToDestroy := ["vol-a"] }
      else .ok { legacyArtifactStale := true, volumesToDestroy := [] } }

/-- A world like `staleEnv` in which the `taint` child exits with status 1. -/
def taintFailEnv : Env :=
  { staleEnv "default" with
    wait := fun t =>
      match t with
      | .childStart _ (_ :: "plan" :: _) _ _ :: _ => { err := some (.exitError 2), stderr := [] }
      | .childStart _ (_ :: "taint" :: _) _ _ :: _ => { err := some (.exitError 1), stderr := [] }
      | _ => { err := none, stderr := [] } }

/-- A world like `quietEnv` in which the flag `Apply.PlanFileLocation` names a
file of the caller, which parses to a plan with a fresh legacy artifact and no
volume to destroy. -/
def customEnv : Env :=
  { quietEnv with
    flags := { Apply := { PlanFileLocation := "/tmp/my.plan", AutoApprove := false,
                          AutoApproveDeletingData := false },
               Plan := { PlanFileStore := "default" } } }

/-! ## The control RPC method -/

namespace Rpc

/-- Modelled from the spec: the constant `cluster.StateDestroy` of the API
package, the lifecycle state "destroy". -/
def StateDestroy : String := "destroy"

/-- What `BastionInstanceStatus` does to the outside world. -/
inductive Event where
  | debug (msg : String)
  | verify (err : Option GoError)
  | warn (msg : String)
  | sleep (seconds : Nat)
  deriving DecidableEq, Repr

/-- The collaborators of the RPC server. -/
structure Env where
  /-- The package variable `Retries`, declared in another file of the package. -/
  Retries : Int
  /-- The call `r.cluster.GetState()`. -/
  GetState : String
  /-- The call `r.cluster.Environment().VerifyBastionAvailable()`; the argument
  is the number of checks this RPC call has made before. -/
  VerifyBastionAvailable : Nat → Option GoError

/-- The struct `BastionInstanceStatusArgs`. -/
structure BastionInstanceStatusArgs where
  Username : String
  Hostname : String

/-- The struct `BastionInstanceStatusReply`. -/
structure BastionInstanceStatusReply where
  Status : String
  deriving DecidableEq, Repr

/-- The loop `for i := 1; i <= Retries; i++` of `BastionInstanceStatus`, with
the iterations left, the number of checks made, the value of `err`, and the
history (newest first). -/
def retryLoop (env : Env) : Nat → Nat → Option GoError → List Event →
    Option GoError × List Event
  | 0, _, err, t => (err, t)
  | left + 1, made, _, t =>
    match env.VerifyBastionAvailable made with
    | some err =>
        retryLoop env left (made + 1) (some err)
          (.sleep 1 :: .warn err.Error :: .verify (some err) :: t)
    | none => (none, .verify none :: t)

/-- The method `BastionInstanceStatus`: the returned error, the reply struct
after the call, and the history of the call (newest first). -/
def BastionInstanceStatus (env : Env) (_args : BastionInstanceStatusArgs)
    (result : BastionInstanceStatusReply) :
    Option GoError × BastionInstanceStatusReply × List Event :=
  if env.GetState = StateDestroy then
    (none, { result with Status := "unknown" }, [.debug "received rpc bastion status"])
  else
    match retryLoop env env.Retries.toNat 0 none [.debug "received rpc bastion status"] with
    | (some err, t) =>
        (some (.errorString ("bastion instance is not ready: " ++ err.Error)), result, t)
    | (none, t) => (none, { result with Status := "ready" }, t)

/-- The number of availability checks in a history. -/
def checks (t : List Event) : Nat :=
  (t.filter (fun e => match e with | .verify _ => true | _ => false)).length

/-- The number of backoff sleeps in a history. -/
def sleeps (t : List Event) : Nat :=
  (t.filter (fun e => match e with | .sleep _ => true | _ => false)).length

/-- A bastion that becomes available at the third check. -/
def thirdTimeEnv : Env :=
  { Retries := 5
    GetState := "present"
    VerifyBastionAvailable := fun k => if k < 2 then some (.foreign "connection refused") else none }

/-- A bastion that never becomes available. -/
def neverEnv : Env :=
  { Retries := 3
    GetState := "present"
    VerifyBastionAvailable := fun k => some (.foreign ("attempt " ++ toString k ++ " refused")) }

/-- A cluster that is being destroyed. -/
def destroyingEnv : Env :=
  { Retries := 5
    GetState := "destroy"
    VerifyBastionAvailable := fun _ => none }

end Rpc

/-! ## The tunnel manager

The teardown of a tunnel runs under the tunnel's mutex (`cleanup` locks
`connsLock` for its whole body), so it is one atomic step; the done signal is
closed by the reaper goroutine alone.  Interleavings of `Stop` calls with the
reaper's teardown are therefore sequences of such steps. -/

namespace Ssh

/-- A Go channel of `struct{}` used as a signal: nil, made and open, or
closed. -/
inductive Chan where
  | nil
  | open
  | closed
  deriving DecidableEq, Repr

/-- The fields of the `Tunnel` struct, with three observers of the run: how
often `close` ran on the stop and on the done channel, and whether a `close`
of a nil or of a closed channel has panicked. -/
structure Tunnel where
  dest : String
  destPort : String
  localPort : String
  daemonize : Bool
  /-- For `listener`: `none` is nil, else whether it has been closed. -/
  listener : Option Bool
  /-- For `daemon`: `none` is nil, else whether it has been killed. -/
  daemon : Option Bool
  stopCh : Chan
  doneCh : Chan
  /-- For each entry of `openConns`: whether its completion signal has fired. -/
  openConns : List Bool
  /-- For each entry of `remoteConns`: whether it has been closed. -/
  remoteConns : List Bool
  stopCloses : Nat
  doneCloses : Nat
  panicked : Bool
  deriving DecidableEq, Repr

/-- The constructor `SSH.Tunnel`: only `doneCh` is made. -/
def newTunnel (dest destPort localPort : String) (daemonize : Bool) : Tunnel :=
  { dest := dest, destPort := destPort, localPort := localPort, daemonize := daemonize,
    listener := none, daemon := none, stopCh := .nil, doneCh := .open,
    openConns := [], remoteConns := [], stopCloses := 0, doneCloses := 0, panicked := false }

/-- What `Start` needs from outside. -/
structure StartEnv where
  /-- The call `t.ssh.bastionClient()`. -/
  bastionClient : Option GoError
  /-- The call `osext.Executable()`. -/
  executable : Except GoError String
  /-- The call `cmd.Start()` on the daemon. -/
  daemonStart : Option GoError
  /-- The call `net.Listen`. -/
  listen : Option GoError

/-- The method `startDaemon`. -/
def startDaemon (env : StartEnv) (t : Tunnel) : Option GoError × Tunnel :=
  match env.executable with
  | .error err => (some (.errorString ("error finding tarmak executable: " ++ err.Error)), t)
  | .ok _ =>
    match env.daemonStart with
    | some err => (some err, t)
    | none => (none, { t with daemon := some false })

/-- The method `Start`: both channels are made anew, then the bastion is
reached, then either the daemon is started or the listener is bound (and the
accept loop started as a goroutine). -/
def Start (env : StartEnv) (t : Tunnel) : Option GoError × Tunnel :=
  let t1 := { t with stopCh := .open, doneCh := .open, stopCloses := 0, doneCloses := 0 }
  match env.bastionClient with
  | some err => (some err, t1)
  | none =>
    if t1.daemonize then
      match startDaemon env t1 with
      | (some err, t2) => (some err, t2)
      | (none, t2) => (none, t2)
    else
      match env.listen with
      | some err => (some err, t1)
      | none => (none, { t1 with listener := some false })

/-- The statement `select { case <-t.stopCh: default: close(t.stopCh) }`. -/
def closeStop (t : Tunnel) : Tunnel :=
  match t.stopCh with
  | .closed => t
  | .open => { t with stopCh := .closed, stopCloses := t.stopCloses + 1 }
  | .nil => { t with panicked := true }

/-- The statement `select { case <-t.doneCh: default: close(t.doneCh) }`. -/
def closeDone (t : Tunnel) : Tunnel :=
  if t.panicked then t
  else
    match t.doneCh with
    | .closed => t
    | .open => { t with doneCh := .closed, doneCloses := t.doneCloses + 1 }
    | .nil => { t with panicked := true }

/-- The method `cleanup`: close the stop channel unless it is closed, close
every tracked connection, close the listener.  A panic ends the program, so
nothing runs after one. -/
def cleanup (t : Tunnel) : Tunnel :=
  if t.panicked then t
  else
    let t1 := closeStop t
    if t1.panicked then t1
    else
      { t1 with
        remoteConns := t1.remoteConns.map (fun _ => true)
        listener := t1.listener.map (fun _ => true) }

/-- The second half of `Stop`: `if t.daemon != nil { t.daemon.Kill() }`. -/
def killDaemon (t : Tunnel) : Tunnel :=
  if t.panicked then t else { t with daemon := t.daemon.map (fun _ => true) }

/-- The method `Stop`. -/
def Stop (t : Tunnel) : Tunnel := killDaemon (cleanup t)

/-- The end of `handleTimeout`, after its sleep and its waits: `cleanup`, then
the done channel is closed unless it is closed. -/
def reaperTeardown (t : Tunnel) : Tunnel := closeDone (cleanup t)

/-- The atomic steps of `Stop` calls and of the reaper's teardown. -/
inductive Step where
  | stopCleanup
  | stopKill
  | reaperCleanup
  | reaperDone
  deriving DecidableEq, Repr

/-- One step. -/
def step (t : Tunnel) : Step → Tunnel
  | .stopCleanup => cleanup t
  | .stopKill => killDaemon t
  | .reaperCleanup => cleanup t
  | .reaperDone => closeDone t

/-- A schedule of steps, run from left to right. -/
def run (t : Tunnel) (steps : List Step) : Tunnel := steps.foldl step t

/-- The state of a started tunnel after teardown steps: `c` says a `cleanup`
has run, `k` that a kill has run, `d` that the reaper has closed the done
channel. -/
def afterSteps (t : Tunnel) (c k d : Bool) : Tunnel :=
  { t with
    stopCh := if c then .closed else .open
    stopCloses := if c then 1 else 0
    remoteConns := if c then t.remoteConns.map (fun _ => true) else t.remoteConns
    listener := if c then t.listener.map (fun _ => true) else t.listener
    daemon := if k then t.daemon.map (fun _ => true) else t.daemon
    doneCh := if d then .closed else .open
    doneCloses := if d then 1 else 0 }

/-- Whether the step is a `cleanup`. -/
def Step.cleans : Step → Bool
  | .stopCleanup => true
  | .reaperCleanup => true
  | _ => false

/-- Whether the step kills the daemon. -/
def Step.kills : Step → Bool
  | .stopKill => true
  | _ => false

/-- Whether the step is the reaper's closing of the done channel. -/
def Step.closesDone : Step → Bool
  | .reaperDone => true
  | _ => false

/-- What the accept loop does to the outside world. -/
inductive Event where
  | reaperStarted
  | dial (err : Option GoError)
  | accept (err : Option GoError)
  | sleep (seconds : Nat)
  | warn (msg : String)
  | copyStarted
  deriving DecidableEq, Repr

/-- What the accept loop needs from outside; each oracle receives the history
so far (newest first). -/
structure HandleEnv where
  /-- The call `t.bastionConn.Dial`. -/
  dial : List Event → Option GoError
  /-- The call `t.listener.Accept`. -/
  accept : List Event → Option GoError
  /-- Whether another goroutine has closed the stop channel by this point. -/
  stopFires : List Event → Bool

/-- The check `select { case <-t.stopCh: return; default: }`. -/
def stopSeen (env : HandleEnv) (t : Tunnel) (tr : List Event) : Bool :=
  decide (t.stopCh = .closed) || env.stopFires tr

/-- The `for` loop of `handle`, with the local counter `errCount`.  The loop
has no bound of its own: `none` is a run that needs more than `fuel` rounds. -/
def handleLoop (env : HandleEnv) : Nat → Nat → Tunnel → List Event →
    Option (Tunnel × Nat × List Event)
  | 0, _, _, _ => none
  | fuel + 1, errCount, t, tr =>
    match env.dial tr with
    | some err =>
      let tr1 := Event.dial (some err) :: tr
      if stopSeen env t tr1 then some (t, errCount, tr1)
      else if errCount + 1 = 10 then some (t, errCount + 1, tr1)
      else handleLoop env fuel (errCount + 1) t (.sleep 3 :: tr1)
    | none =>
      let tr1 := Event.dial none :: tr
      let t1 := { t with remoteConns := t.remoteConns ++ [false] }
      match env.accept tr1 with
      | some err =>
        let tr2 := Event.accept (some err) :: tr1
        if stopSeen env t1 tr2 then some (t1, errCount, tr2)
        else
          handleLoop env fuel errCount t1
            (.warn ("error accepting ssh tunnel connection: " ++ err.Error) :: tr2)
      | none =>
        let t2 := { t1 with
          remoteConns := t1.remoteConns ++ [false]
          openConns := t1.openConns ++ [false] }
        handleLoop env fuel errCount t2 (.copyStarted :: .accept none :: tr1)

/-- The method `handle`: start the reaper goroutine, then loop. -/
def handle (env : HandleEnv) (fuel : Nat) (t : Tunnel) : Option (Tunnel × Nat × List Event) :=
  handleLoop env fuel 0 t [.reaperStarted]

/-- The method `Done`. -/
def Done (t : Tunnel) : Chan := t.doneCh

/-- The number of dials in a history. -/
def dials (tr : List Event) : Nat :=
  (tr.filter (fun e => match e with | .dial _ => true | _ => false)).length

/-- The number of sleeps in a history. -/
def naps (tr : List Event) : Nat :=
  (tr.filter (fun e => match e with | .sleep _ => true | _ => false)).length

/-- A world in which everything `Start` needs succeeds. -/
def goodStart : StartEnv :=
  { bastionClient := none, executable := .ok "/usr/bin/tarmak", daemonStart := none,
    listen := none }

/-- A world in which the destination refuses every dial and nobody stops the
tunnel. -/
def refusedEnv : HandleEnv :=
  { dial := fun _ => some (.foreign "connection refused")
    accept := fun _ => none
    stopFires := fun _ => false }

/-- The number of failed dials in a history. -/
def failedDials (tr : List Event) : Nat :=
  (tr.filter (fun e => match e with | .dial (some _) => true | _ => false)).length

/-- The number of successful dials in a history. -/
def goodDials (tr : List Event) : Nat :=
  (tr.filter (fun e => match e with | .dial none => true | _ => false)).length

/-- A world in which nobody stops the tunnel, every accept succeeds, and the
destination takes every other dial until it has taken three, and refuses all
the others. -/
def flakyEnv : HandleEnv :=
  { dial := fun tr =>
      if dials tr % 2 = 0 ∧ goodDials tr < 3 then none
      else some (.foreign "connection refused")
    accept := fun _ => none
    stopFires := fun _ => false }

/-- One call on a tunnel by its owner. -/
inductive Call where
  | start (env : StartEnv)
  | stop

/-- A sequence of `Start` and `Stop` calls, from left to right. -/
def calls (t : Tunnel) : List Call → Tunnel
  | [] => t
  | .start env :: rest => calls (if t.panicked then t else (Start env t).2) rest
  | .stop :: rest => calls (Stop t) rest

/-- A world in which the bastion cannot be reached, so `Start` fails. -/
def badStart : StartEnv :=
  { bastionClient := some (.foreign "ssh: handshake failed"), executable := .ok "/usr/bin/tarmak",
    daemonStart := none, listen := none }

end Ssh

/-! ## Variable-file emission -/

namespace Tfvars

/-- A value stored in the `map[string]interface{}` handed to
`MapToTerraformTfvars`, by dynamic type.  A `map[string]string` is given by its
entries in the order a `range` over it yields them; a `*net.IPNet` by the text
its `String()` method returns; a `bool` by its value; a value of any other
type by its `%#+v` rendering. -/
inductive Value where
  | mapStringString (v : List (String × String))
  | stringSlice (v : List String)
  | string (v : String)
  | int (v : Int)
  | ipNet (str : String)
  | bool (v : Bool)
  | other (goSyntax : String)
  deriving DecidableEq, Repr

/-- The verb `%#+v` on a `bool`: `true` or `false`. -/
def fmtBool (v : Bool) : String := if v then "true" else "false"

/-- What the verb `%T` prints for a value: the name of its dynamic type, where
the model carries it. -/
def typeName : Value → Option String
  | .mapStringString _ => some "map[string]string"
  | .stringSlice _ => some "[]string"
  | .string _ => some "string"
  | .int _ => some "int"
  | .ipNet _ => some "*net.IPNet"
  | .bool _ => some "bool"
  | .other _ => none

/-- The `%#+v` text of a value whose type is none of the five cases of the
type switch; `none` for the five. -/
def unsupportedText : Value → Option String
  | .bool v => some (fmtBool v)
  | .other goSyntax => some goSyntax
  | _ => none

/-- The bytes of a Go string (its UTF-8 encoding). -/
def utf8Bytes (s : String) : List Nat :=
  s.data.flatMap (fun c => (String.utf8EncodeChar c).map UInt8.toNat)

/-- Lexicographic `<=` on byte sequences. -/
def bytesLE : List Nat → List Nat → Bool
  | [], _ => true
  | _ :: _, [] => false
  | a :: as, b :: bs => decide (a < b) || (a == b && bytesLE as bs)

/-- Go's `<=` on strings: byte-wise lexicographic. -/
def stringLE (a b : String) : Bool := bytesLE (utf8Bytes a) (utf8Bytes b)

/-- The call `sort.Strings(keys)`: the keys in ascending byte-wise order. -/
def sortStrings (keys : List String) : List String :=
  keys.insertionSort (fun a b => stringLE a b = true)

/-- The index expression `v[key]` on a `map[string]string`: the zero value
when the key is absent. -/
def mapIndex (v : List (String × String)) (key : String) : String :=
  (v.lookup key).getD ""

/-- The verb `%d` on an `int`. -/
def fmtInt (v : Int) : String := toString v

/-- One line of a map body, `fmt.Sprintf("  %s = \"%s\"\n", key, v[key])`. -/
def mapLine (v : List (String × String)) (key : String) : String :=
  "  " ++ key ++ " = \"" ++ mapIndex v key ++ "\"\n"

/-- The body of the `for key, value := range input` loop of
`MapToTerraformTfvars`, over the entries in the order the `range` yields them,
with the buffer written so far. -/
def writeEntries (buf : String) : List (String × Value) → String × Option GoError
  | [] => (buf, none)
  | (key, .mapStringString v) :: rest =>
      writeEntries
        (((sortStrings (v.map Prod.fst)).foldl (fun b k => b ++ mapLine v k)
          (buf ++ (key ++ " = \x7b\n"))) ++ "\x7d\n")
        rest
  | (key, .stringSlice v) :: rest =>
      writeEntries
        (buf ++ (key ++ " = [" ++ ", ".intercalate (v.map (fun x => "\"" ++ x ++ "\"")) ++ "]\n"))
        rest
  | (key, .string v) :: rest => writeEntries (buf ++ (key ++ " = \"" ++ v ++ "\"\n")) rest
  | (key, .int v) :: rest => writeEntries (buf ++ (key ++ " = " ++ fmtInt v ++ "\n")) rest
  | (key, .ipNet str) :: rest => writeEntries (buf ++ (key ++ " = \"" ++ str ++ "\"\n")) rest
  | (key, .bool v) :: _ =>
      ("", some (.errorString
        ("ignoring unknown var key='" ++ key ++ "' type='" ++ fmtBool v ++ "'")))
  | (key, .other goSyntax) :: _ =>
      ("", some (.errorString
        ("ignoring unknown var key='" ++ key ++ "' type='" ++ goSyntax ++ "'")))

/-- The function `MapToTerraformTfvars`; `input` lists the entries of the map
in the order the `range` statement yields them. -/
def MapToTerraformTfvars (input : List (String × Value)) : String × Option GoError :=
  writeEntries "" input

end Tfvars

/-! ## Reading a variable file back

The consuming format is HCL.  Its reader is not part of the program; what
follows is a reader for the fragment the emitter can produce, written after the
HCL rules: keys are identifiers, values are double-quoted strings, decimal
numbers, bracketed lists of strings and braced objects of string attributes.
The identifiers `true` and `false` are boolean tokens, which are refused as
keys; the character U+0000 and the reserved character U+E123 are scan errors
wherever they stand. -/

namespace Hcl

open Tfvars

/-- HCL: a letter or the underscore starts an identifier. -/
def isLetter (c : Char) : Bool := c.isAlpha || c == '_'

/-- HCL: an identifier goes on with letters, digits, `_`, `-` and `.`. -/
def isIdentPart (c : Char) : Bool := c.isAlphanum || c == '_' || c == '-' || c == '.'

/-- Space or tab. -/
def isBlank (c : Char) : Bool := c == ' ' || c == '\t'

/-- Space, tab, or line end. -/
def isSpace (c : Char) : Bool := c == ' ' || c == '\t' || c == '\n' || c == '\r'

def skipBlanks (cs : List Char) : List Char := cs.dropWhile isBlank

def skipSpaces (cs : List Char) : List Char := cs.dropWhile isSpace

/-- HCL: the scanner stops with an error at U+0000 and at U+E123, which it
keeps for its own use. -/
def isIllegal (c : Char) : Bool := c.toNat == 0 || c.toNat == 0xE123

/-- Read an identifier that stands as a key.  The identifiers `true` and
`false` are boolean tokens and no keys. -/
def scanIdentifier (cs : List Char) : Option (String × List Char) :=
  match cs with
  | [] => none
  | c :: _ =>
    if isLetter c then
      if String.mk (cs.takeWhile isIdentPart) = "true" ∨
          String.mk (cs.takeWhile isIdentPart) = "false" then none
      else some (String.mk (cs.takeWhile isIdentPart), cs.dropWhile isIdentPart)
    else none

/-- The character an escape sequence `\c` of a quoted string stands for. -/
def unescape (c : Char) : Option Char :=
  if c = 'n' then some '\n'
  else if c = 't' then some '\t'
  else if c = 'r' then some '\r'
  else if c = '"' then some '"'
  else if c = '\\' then some '\\'
  else none

/-- Read the body of a quoted string, up to and including the closing quote.
A line end inside the string is an error, as are U+0000 and U+E123; a
backslash starts an escape sequence, and `$` followed by an opening brace
starts an interpolation, which this reader does not take. -/
def scanString : List Char → Option (List Char × List Char)
  | [] => none
  | c :: rest =>
    if c = '"' then some ([], rest)
    else if c = '\n' then none
    else if isIllegal c then none
    else if c = '\\' then
      match rest with
      | [] => none
      | e :: rest2 =>
        match unescape e, scanString rest2 with
        | some u, some (body, tail) => some (u :: body, tail)
        | _, _ => none
    else if c = '$' ∧ rest.head? = some '\x7b' then none
    else
      match scanString rest with
      | some (body, tail) => some (c :: body, tail)
      | none => none

/-- Read a quoted string. -/
def parseQuoted (cs : List Char) : Option (String × List Char) :=
  match cs with
  | [] => none
  | c :: rest =>
    if c = '"' then
      match scanString rest with
      | some (body, tail) => some (String.mk body, tail)
      | none => none
    else none

/-- The number a sequence of decimal digits denotes. -/
def decimalValue (digits : List Char) : Nat :=
  digits.foldl (fun acc c => acc * 10 + (c.toNat - 48)) 0

/-- Read the digits of a number.  A leading `0` followed by more digits is an
octal or hexadecimal literal, which this reader does not take. -/
def scanDigits (cs : List Char) : Option (Nat × List Char) :=
  match cs.takeWhile Char.isDigit with
  | [] => none
  | [d] => some (decimalValue [d], cs.dropWhile Char.isDigit)
  | d :: e :: ds =>
    if d = '0' then none
    else some (decimalValue (d :: e :: ds), cs.dropWhile Char.isDigit)

/-- Read a decimal integer with an optional minus sign. -/
def scanNumber (cs : List Char) : Option (Int × List Char) :=
  match cs with
  | [] => none
  | c :: rest =>
    if c = '-' then
      match scanDigits rest with
      | some (n, tail) => some (-(n : Int), tail)
      | none => none
    else
      match scanDigits cs with
      | some (n, tail) => some ((n : Int), tail)
      | none => none

/-- Read the items of a list of strings, after the opening bracket, up to and
including the closing bracket. -/
def parseListItems : Nat → List Char → Option (List String × List Char)
  | 0, _ => none
  | fuel + 1, cs =>
    match skipSpaces cs with
    | [] => none
    | c :: rest =>
      if c = ']' then some ([], rest)
      else
        match parseQuoted (c :: rest) with
        | none => none
        | some (item, tail) =>
          match skipSpaces tail with
          | [] => none
          | d :: tail2 =>
            if d = ',' then
              match parseListItems fuel tail2 with
              | some (items, tail3) => some (item :: items, tail3)
              | none => none
            else if d = ']' then some ([item], tail2)
            else none

/-- Read the attributes of an object of strings, after the opening brace, up
to and including the closing brace. -/
def parseObjectItems : Nat → List Char → Option (List (String × String) × List Char)
  | 0, _ => none
  | fuel + 1, cs =>
    match skipSpaces cs with
    | [] => none
    | c :: rest =>
      if c = '\x7d' then some ([], rest)
      else
        match scanIdentifier (c :: rest) with
        | none => none
        | some (key, tail) =>
          match skipBlanks tail with
          | [] => none
          | d :: tail2 =>
            if d = '=' then
              match parseQuoted (skipBlanks tail2) with
              | none => none
              | some (v, tail3) =>
                match parseObjectItems fuel tail3 with
                | some (items, tail4) => some ((key, v) :: items, tail4)
                | none => none
            else none

/-- Read a value: a quoted string, a list, an object, or a number. -/
def parseValue (fuel : Nat) (cs : List Char) : Option (Value × List Char) :=
  match cs with
  | [] => none
  | c :: rest =>
    if c = '"' then
      match parseQuoted cs with
      | some (v, tail) => some (.string v, tail)
      | none => none
    else if c = '[' then
      match parseListItems fuel rest with
      | some (v, tail) => some (.stringSlice v, tail)
      | none => none
    else if c = '\x7b' then
      match parseObjectItems fuel rest with
      | some (v, tail) => some (.mapStringString v, tail)
      | none => none
    else
      match scanNumber cs with
      | some (v, tail) => some (.int v, tail)
      | none => none

/-- Read the assignments `key = value` of a file. -/
def parseEntries : Nat → List Char → Option (List (String × Value))
  | 0, _ => none
  | fuel + 1, cs =>
    match skipSpaces cs with
    | [] => some []
    | c :: rest =>
      match scanIdentifier (c :: rest) with
      | none => none
      | some (key, tail) =>
        match skipBlanks tail with
        | [] => none
        | d :: tail2 =>
          if d = '=' then
            match parseValue fuel (skipBlanks tail2) with
            | none => none
            | some (v, tail3) =>
              match parseEntries fuel tail3 with
              | some entries => some ((key, v) :: entries)
              | none => none
          else none

/-- Read a variable file. -/
def parseTfvars (text : String) : Option (List (String × Value)) :=
  parseEntries (text.length + 1) text.data

/-- A string the emitter can put between double quotes as it is: no double
quote, no line end, no backslash, no `$` directly followed by an opening
brace, and neither U+0000 nor U+E123. -/
def plainText : List Char → Bool
  | [] => true
  | c :: rest =>
    c != '"' && c != '\n' && c != '\\' && !(c == '$' && rest.head? == some '\x7b') &&
      !isIllegal c && plainText rest

/-- A key the reader takes as an identifier: a letter or underscore, then
letters, digits, `_`, `-` and `.`, and neither `true` nor `false`. -/
def isIdentifier (k : String) : Bool :=
  match k.data with
  | [] => false
  | c :: rest => isLetter c && rest.all isIdentPart && k != "true" && k != "false"

/-- The values the reader can give back: those of a supported kind whose
strings are plain and whose map keys are identifiers (and distinct, as the keys
of a Go map are). -/
def readable : Value → Bool
  | .mapStringString v =>
      v.all (fun e => isIdentifier e.1 && plainText e.2.data) &&
        decide (v.map Prod.fst).Nodup
  | .stringSlice v => v.all (fun x => plainText x.data)
  | .string v => plainText v.data
  | .int _ => true
  | .ipNet str => plainText str.data
  | .bool _ => false
  | .other _ => false

/-- What reading back the text of a value is expected to give: the same
string, number or list; for a map, a map with the same entries; for an IP
network, its canonical text as a string. -/
def sameValue : Value → Value → Prop
  | .mapStringString v, w => ∃ v2, w = .mapStringString v2 ∧ v2.Perm v
  | .ipNet str, w => w = .string str
  | v, w => w = v

end Hcl

/-! ## The init token of the secrets store

The Go code of `vault-helper/pkg/kubernetes/init_token.go`.  Calls on the
vault client, on the secrets backend and on the logger are oracles that
receive the history of such calls (newest first). -/

namespace Kubernetes

/-- The request `ensureCreated` hands to `CreateOrphan`. -/
structure TokenCreateRequest where
  ID : String
  DisplayName : String
  TTL : String
  Period : String
  Policies : List String
  deriving DecidableEq, Repr

/-- The map that `writeData` builds. -/
structure WriteData where
  period : String
  orphan : Bool
  allowed_policies : List String
  path_suffix : String
  deriving DecidableEq, Repr

/-- A `*vault.Secret` that is not nil: its `Data` map, and what its method
`TokenTTL()` gives, a `time.Duration` in nanoseconds. -/
structure Secret where
  Data : List (String × String)
  TokenTTL : Except GoError Int

/-- The calls `InitToken` makes on its collaborators. -/
inductive Event where
  | backendInitToken (name role : String) (policies : List String) (expectedToken : String)
  | lookup (token : String)
  | logError (msg : String)
  | createOrphan (req : TokenCreateRequest)
  | read (path : String)
  | readPolicy
  deriving DecidableEq, Repr

/-- The fields of the `InitToken` struct, and of its `kubernetes` field what
the methods at hand use. -/
structure InitToken where
  Role : String
  Policies : List String
  /-- The field `token`, a `*string`: `none` is nil. -/
  token : Option String
  ExpectedToken : String
  /-- The field `kubernetes.clusterID`. -/
  clusterID : String
  /-- The value of `kubernetes.Path()`. -/
  kubernetesPath : String
  /-- The value of `int(kubernetes.MaxValidityInitTokens.Seconds())`. -/
  maxValiditySeconds : Int

/-- The collaborators of `InitToken`. -/
structure Env where
  /-- The library function `filepath.Join` on two elements. -/
  pathJoin : String → String → String
  /-- The call `secretsBackend().InitToken(name, role, policies, expected)`. -/
  backendInitToken : List Event → String → String → List String → String → Except GoError String
  /-- The call `vaultClient.Auth().Token().Lookup(token)`. -/
  lookup : List Event → String → Except GoError Secret
  /-- The call `vaultClient.Auth().Token().CreateOrphan(req)`, by its error. -/
  createOrphan : List Event → TokenCreateRequest → Option GoError
  /-- The call `vaultClient.Logical().Read(path)`: an error, or a secret
  pointer, which is nil (`none`) when nothing is stored at the path. -/
  read : List Event → String → Except GoError (Option Secret)
  /-- The function `secretDataMatch`, which lives in another file of the
  package. -/
  secretDataMatch : List (String × String) → WriteData → Bool
  /-- The call `kubernetes.ReadPolicy(i.policy())`. -/
  readPolicy : List Event → Except GoError String
  /-- The value of `i.policy().Policy()`. -/
  policyText : InitToken → String

/-- The method `Name`. -/
def InitToken.Name (i : InitToken) : String := i.clusterID ++ "-" ++ i.Role

/-- The method `namePath`. -/
def InitToken.namePath (i : InitToken) : String := i.clusterID ++ "/" ++ i.Role

/-- The method `Path`. -/
def InitToken.Path (env : Env) (i : InitToken) : String :=
  env.pathJoin "auth/token/roles" i.Name

/-- The method `writeData`. -/
def InitToken.writeData (i : InitToken) : WriteData :=
  { period := Tfvars.fmtInt i.maxValiditySeconds, orphan := true,
    allowed_policies := i.Policies, path_suffix := i.namePath }

/-- The method `InitToken`: the cached token, or the one the secrets backend
hands out, which is then cached. -/
def InitToken.InitToken (env : Env) (i : InitToken) (tr : List Event) :
    Except GoError String × InitToken × List Event :=
  match i.token with
  | some token => (.ok token, i, tr)
  | none =>
    let tr1 :=
      Event.backendInitToken i.Name i.Role [i.namePath ++ "-creator"] i.ExpectedToken :: tr
    match env.backendInitToken tr i.Name i.Role [i.namePath ++ "-creator"] i.ExpectedToken with
    | .error err => (.error err, i, tr1)
    | .ok token => (.ok token, { i with token := some token }, tr1)

/-- The test of `ensureCreated` and `ensureDryRunExpDate` on the message of a
lookup error. -/
def isBadToken (err : GoError) : Bool :=
  Terraform.stringsContains err.Error "Code: 403." &&
    Terraform.stringsContains err.Error "bad token"

/-- The request `ensureCreated` builds for the token `token`. -/
def orphanRequest (i : InitToken) (token : String) : TokenCreateRequest :=
  { ID := token
    DisplayName := i.kubernetesPath ++ "/secrets/init_token_" ++ i.Role
    TTL := Tfvars.fmtInt i.maxValiditySeconds
    Period := Tfvars.fmtInt i.maxValiditySeconds
    Policies := ["default", i.namePath ++ "-creator"] }

/-- The method `ensureCreated`. -/
def ensureCreated (env : Env) (i : InitToken) (tr : List Event) :
    Option GoError × InitToken × List Event :=
  match InitToken.InitToken env i tr with
  | (.error err, i1, tr1) => (some err, i1, tr1)
  | (.ok token, i1, tr1) =>
    let tr2 := Event.lookup token :: tr1
    match env.lookup tr1 token with
    | .ok _ => (none, i1, tr2)
    | .error err =>
      if !Terraform.stringsContains err.Error "Code: 403." ||
          !Terraform.stringsContains err.Error "bad token" then
        (some err, i1, Event.logError ("GOT ERROR HERE!\n" ++ err.Error ++ "\n") :: tr2)
      else
        (env.createOrphan tr2 (orphanRequest i1 token), i1,
          Event.createOrphan (orphanRequest i1 token) :: tr2)

/-- The float64 nearest to the rational `n / d` (with `d` positive and the
value below `2 ^ 53`), ties going to the even mantissa, as the fraction
`(m, 2 ^ s)` with `m` the 53-bit mantissa: `s` is the least shift that brings
the quotient to `2 ^ 52` or more. -/
def nearestFloat64 (n d : Nat) : Nat × Nat :=
  if n = 0 then (0, 1)
  else
    let s := ((List.range 128).find? (fun s => decide (2 ^ 52 * d ≤ n * 2 ^ s))).getD 0
    let fl := n * 2 ^ s / d
    let r := n * 2 ^ s % d
    (if d < 2 * r ∨ (2 * r = d ∧ fl % 2 = 1) then fl + 1 else fl, 2 ^ s)

/-- The library method `Duration.Hours` on a duration of `d` nanoseconds, `d`
not negative: `float64(d / Hour) + float64(d % Hour) / (60 * 60 * 1e9)`.  The
two conversions are exact; the quotient and the sum are each rounded to
float64.  The result is given as a fraction. -/
def Hours (d : Nat) : Nat × Nat :=
  let q := nearestFloat64 (d % 3600000000000) 3600000000000
  nearestFloat64 (d / 3600000000000 * q.2 + q.1) q.2

/-- The test `ttl.Hours() < 24*365`, a comparison of float64 values.  For a
negative duration neither summand of `Hours` is positive, so the test
holds. -/
def lessThanYear (ttl : Int) : Bool :=
  if ttl < 0 then true
  else decide ((Hours ttl.toNat).1 < 24 * 365 * (Hours ttl.toNat).2)

/-- The method `ensureDryRunExpDate`. -/
def ensureDryRunExpDate (env : Env) (i : InitToken) (tr : List Event) :
    (Bool × Option GoError) × InitToken × List Event :=
  match InitToken.InitToken env i tr with
  | (.error err, i1, tr1) => ((true, some err), i1, tr1)
  | (.ok token, i1, tr1) =>
    let tr2 := Event.lookup token :: tr1
    match env.lookup tr1 token with
    | .error err =>
      if Terraform.stringsContains err.Error "Code: 403." &&
          Terraform.stringsContains err.Error "bad token" then
        ((true, none), i1, tr2)
      else ((true, some err), i1, tr2)
    | .ok s =>
      match s.TokenTTL with
      | .error err => ((true, some err), i1, tr2)
      | .ok ttl =>
        if lessThanYear ttl then ((true, none), i1, tr2)
        else ((false, none), i1, tr2)

/-- The method `readTokenRole`: `(nil, error)` when the read fails, else the
secret pointer as the client gave it, which may be nil. -/
def readTokenRole (env : Env) (i : InitToken) (tr : List Event) :
    (Option Secret × Option GoError) × List Event :=
  match env.read tr (i.Path env) with
  | .error err =>
      ((none, some (.errorString
        ("error read token role " ++ i.Path env ++ ": " ++ err.Error))),
        Event.read (i.Path env) :: tr)
  | .ok secret => ((secret, none), Event.read (i.Path env) :: tr)

/-- How a call ends: with its results, or in the run-time panic of a nil
pointer dereference. -/
inductive Outcome (α : Type) where
  | returned (a : α)
  | nilDereference

/-- The error `EnsureDryRun` returns: the plain error of its first step, or the
collected `*multierror.Error`. -/
inductive DryRunError where
  | plain (err : GoError)
  | multi (errs : List GoError)

/-- The method `ErrorOrNil` on the collected errors. -/
def ErrorOrNil (result : List GoError) : Option DryRunError :=
  if result.isEmpty then none else some (.multi result)

/-- The expression `secret.Data` on a secret pointer. -/
def secretData : Option Secret → Outcome (List (String × String))
  | none => .nilDereference
  | some s => .returned s.Data

/-- Lines 120-135 of `EnsureDryRun`: the checks of the policy and of the token
of the secrets backend. -/
def dryRunRest (env : Env) (i : InitToken) (result : List GoError) (tr : List Event) :
    Outcome (Bool × Option DryRunError) × InitToken × List Event :=
  let tr1 := Event.readPolicy :: tr
  let afterPolicy : Option (List GoError) :=
    match env.readPolicy tr with
    | .error err => some (result ++ [err])
    | .ok policy => if policy ≠ env.policyText i then none else some result
  match afterPolicy with
  | none => (.returned (true, ErrorOrNil result), i, tr1)
  | some result1 =>
    let tr2 :=
      Event.backendInitToken i.Name i.Role [i.namePath ++ "-creator"] i.ExpectedToken :: tr1
    match env.backendInitToken tr1 i.Name i.Role [i.namePath ++ "-creator"] i.ExpectedToken with
    | .error err => (.returned (false, ErrorOrNil (result1 ++ [err])), i, tr2)
    | .ok token =>
      if token = "" then (.returned (true, ErrorOrNil result1), i, tr2)
      else (.returned (false, ErrorOrNil result1), i, tr2)

/-- The method `EnsureDryRun`.  After `readTokenRole` the code reads
`secret.Data`: in the `else if` when the read gave no error, and in the
`secretDataMatch` test in either case. -/
def EnsureDryRun (env : Env) (i : InitToken) (tr : List Event) :
    Outcome (Bool × Option DryRunError) × InitToken × List Event :=
  match ensureDryRunExpDate env i tr with
  | ((expDate, some err), i1, tr1) => (.returned (expDate, some (.plain err)), i1, tr1)
  | ((true, none), i1, tr1) => (.returned (true, none), i1, tr1)
  | ((false, none), i1, tr1) =>
    match readTokenRole env i1 tr1 with
    | ((secret, some err), tr2) =>
      match secretData secret with
      | .nilDereference => (.nilDereference, i1, tr2)
      | .returned data =>
        if !env.secretDataMatch data i1.writeData then
          (.returned (true, ErrorOrNil [err]), i1, tr2)
        else dryRunRest env i1 [err] tr2
    | ((secret, none), tr2) =>
      match secretData secret with
      | .nilDereference => (.nilDereference, i1, tr2)
      | .returned data =>
        if data.length = 0 then (.returned (true, ErrorOrNil []), i1, tr2)
        else if !env.secretDataMatch data i1.writeData then
          (.returned (true, ErrorOrNil []), i1, tr2)
        else dryRunRest env i1 [] tr2

/-- Whether the event is a `CreateOrphan` call. -/
def Event.isCreateOrphan : Event → Bool
  | .createOrphan _ => true
  | _ => false

/-- An init token of the role `worker` of cluster `c1`, with no token cached. -/
def demoToken : InitToken :=
  { Role := "worker", Policies := ["c1/worker"], token := none, ExpectedToken := "",
    clusterID := "c1", kubernetesPath := "c1/pki", maxValiditySeconds := 31536000 }

/-- A world in which the backend hands out the token `tok-1`, the lookup of a
token gives a secret that lives for two years, and the read of the token role
gives what the oracle `read` says. -/
def roleEnv (read : Except GoError (Option Secret)) : Env :=
  { pathJoin := fun a b => a ++ "/" ++ b
    backendInitToken := fun _ _ _ _ _ => .ok "tok-1"
    lookup := fun _ _ => .ok { Data := [], TokenTTL := .ok (2 * 24 * 365 * 3600 * 1000000000) }
    createOrphan := fun _ _ => none
    read := fun _ _ => read
    secretDataMatch := fun _ _ => true
    readPolicy := fun _ => .ok "policy"
    policyText := fun _ => "policy" }

/-- A world like `roleEnv` in which the lookup of the token fails with the
error `err`. -/
def lookupEnv (err : GoError) : Env :=
  { roleEnv (.ok none) with lookup := fun _ _ => .error err }

end Kubernetes

/-! ## The encryption-provider key of the Amazon provider

The Go code of `pkg/tarmak/provider/amazon/encryption_provider_kms.go`.  The
pointers of a KMS reply (`k.KeyMetadata`, its `KeyId` and `Arn`) are taken as
not nil. -/

namespace Amazon

/-- The key metadata of a KMS reply. -/
structure KeyMetadata where
  KeyId : String
  Arn : String
  deriving DecidableEq, Repr

/-- A Go `error` as the KMS client hands it back: one that implements
`awserr.Error`, with its `Code()` and its text, or any other error. -/
inductive KmsError where
  | aws (code : String) (text : String)
  | other (err : GoError)
  deriving DecidableEq, Repr

/-- The `Error()` method. -/
def KmsError.Error : KmsError → String
  | .aws _ text => text
  | .other err => err.Error

/-- The calls on the KMS client. -/
inductive Event where
  | describeKey (keyId : String)
  | createKey (description : String) (tags : List (String × String))
  | createAlias (targetKeyId : String) (aliasName : String)
  deriving DecidableEq, Repr

/-- The fields of the `Amazon` struct the methods at hand use, with the values
of `a.Name()` and of `a.tarmak.Environment().Name()`. -/
structure Amazon where
  name : String
  environmentName : String
  encryptionProviderKMS : String
  remoteStateKMS : String
  deriving DecidableEq, Repr

/-- The KMS client and the method `KMS` that hands it out. -/
structure Env where
  /-- The error of `a.KMS()`. -/
  KMS : List Event → Option GoError
  /-- The call `svc.DescribeKey`. -/
  DescribeKey : List Event → String → Except KmsError KeyMetadata
  /-- The call `svc.CreateKey`. -/
  CreateKey : List Event → String → List (String × String) → Except KmsError KeyMetadata
  /-- The call `svc.CreateAlias`. -/
  CreateAlias : List Event → String → String → Option KmsError

/-- The method `EncryptionProviderKMSName`. -/
def EncryptionProviderKMSName (a : Amazon) : String :=
  "alias/tarmak/" ++ a.environmentName ++ "/encryption-provider"

/-- The method `initEncrytionProviderKMS`. -/
def initEncrytionProviderKMS (env : Env) (a : Amazon) (tr : List Event) :
    Option KmsError × Amazon × List Event :=
  match env.KMS tr with
  | some err => (some (.other err), a, tr)
  | none =>
    let description := "KMS key for Tarmak provider's '" ++ a.name ++ "' encryption provider"
    let tr1 := Event.createKey description [("provider", a.name)] :: tr
    match env.CreateKey tr description [("provider", a.name)] with
    | .error err => (some err, a, tr1)
    | .ok k =>
      let tr2 := Event.createAlias k.KeyId (EncryptionProviderKMSName a) :: tr1
      match env.CreateAlias tr1 k.KeyId (EncryptionProviderKMSName a) with
      | some err => (some err, a, tr2)
      | none => (none, { a with encryptionProviderKMS := k.Arn }, tr2)

/-- The method `ensureEncryptionProviderKMS`. -/
def ensureEncryptionProviderKMS (env : Env) (a : Amazon) (tr : List Event) :
    Option KmsError × Amazon × List Event :=
  match env.KMS tr with
  | some err => (some (.other err), a, tr)
  | none =>
    let tr1 := Event.describeKey (EncryptionProviderKMSName a) :: tr
    match env.DescribeKey tr (EncryptionProviderKMSName a) with
    | .error (.aws code text) =>
      if Terraform.stringsContains code "NotFound" then initEncrytionProviderKMS env a tr1
      else
        (some (.other (.errorString
          ("error looking for encryption provider kms alias: " ++ text))), a, tr1)
    | .error (.other err) =>
        (some (.other (.errorString
          ("error looking for encryption provider kms alias: " ++ err.Error))), a, tr1)
    | .ok k => (none, { a with remoteStateKMS := k.Arn }, tr1)

/-- A provider whose two key fields hold nothing of the encryption-provider
key yet: the remote-state key is known, the encryption-provider key is not. -/
def demoAmazon : Amazon :=
  { name := "aws", environmentName := "dev", encryptionProviderKMS := "",
    remoteStateKMS := "arn:aws:kms:eu-west-1:1:key/remote-state" }

/-- A world in which the alias of the encryption-provider key exists. -/
def aliasEnv : Env :=
  { KMS := fun _ => none
    DescribeKey := fun _ _ =>
      .ok { KeyId := "enc", Arn := "arn:aws:kms:eu-west-1:1:key/enc" }
    CreateKey := fun _ _ _ => .error (.other (.foreign "not expected"))
    CreateAlias := fun _ _ _ => some (.other (.foreign "not expected")) }

/-- A world in which the alias does not exist and the key and its alias can be
created. -/
def noAliasEnv : Env :=
  { KMS := fun _ => none
    DescribeKey := fun _ _ => .error (.aws "NotFoundException" "NotFoundException: no such alias")
    CreateKey := fun _ _ _ => .ok { KeyId := "enc", Arn := "arn:aws:kms:eu-west-1:1:key/enc" }
    CreateAlias := fun _ _ _ => none }

end Amazon

/-! # Properties of the orchestration engine -/

theorem TraceExt.refl (Q : Event → Prop) (t : List Event) : TraceExt Q t t :=
  ⟨[], rfl, by simp⟩

theorem TraceExt.cons {Q : Event → Prop} {t1 t2 : List Event} {e : Event}
    (h : TraceExt Q t1 t2) (he : Q e) : TraceExt Q t1 (e :: t2) := by
  obtain ⟨new, rfl, hn⟩ := h
  exact ⟨e :: new, rfl, by
    intro x hx
    rcases List.mem_cons.mp hx with rfl | hx
    · exact he
    · exact hn x hx⟩

theorem TraceExt.trans {Q : Event → Prop} {t1 t2 t3 : List Event}
    (h12 : TraceExt Q t1 t2) (h23 : TraceExt Q t2 t3) : TraceExt Q t1 t3 := by
  obtain ⟨n1, rfl, h1⟩ := h12
  obtain ⟨n2, rfl, h2⟩ := h23
  exact ⟨n2 ++ n1, by simp, by
    intro x hx
    rcases List.mem_append.mp hx with hx | hx
    · exact h2 x hx
    · exact h1 x hx⟩

theorem TraceExt.mono {Q Q2 : Event → Prop} {t1 t2 : List Event}
    (hQ : ∀ e, Q e → Q2 e) (h : TraceExt Q t1 t2) : TraceExt Q2 t1 t2 := by
  obtain ⟨n, rfl, hn⟩ := h
  exact ⟨n, rfl, fun e he => hQ e (hn e he)⟩

theorem TraceExt.grows {Q : Event → Prop} {t1 t2 : List Event} (h : TraceExt Q t1 t2) :
    ∃ new, t2 = new ++ t1 := by
  obtain ⟨new, hnew, -⟩ := h
  exact ⟨new, hnew⟩

theorem SessionKept.stay (env : Env) (cluster : Cluster) (s : St) : SessionKept env cluster s s :=
  ⟨⟨[], rfl⟩, id, fun _ => rfl, fun h1 h2 => by rw [h1] at h2; cases h2⟩

theorem SessionKept.andThen {env : Env} {cluster : Cluster} {s1 s2 s3 : St}
    (h12 : SessionKept env cluster s1 s2) (h23 : SessionKept env cluster s2 s3) :
    SessionKept env cluster s1 s3 := by
  obtain ⟨⟨n1, hn1⟩, hp1, hs1, hb1⟩ := h12
  obtain ⟨⟨n2, hn2⟩, hp2, hs2, hb2⟩ := h23
  refine ⟨⟨n2 ++ n1, by simp [hn2, hn1]⟩, fun h => hp2 (hp1 h), ?_, ?_⟩
  · intro h
    have e1 := hs1 h
    rw [hs2 (by rw [e1]; exact h), e1]
  · intro hf ht
    cases hmid : s2.prepared with
    | true =>
      obtain ⟨s0, sp, h0, hprep, ⟨a, ha⟩, ⟨b, hb⟩⟩ := hb1 hf hmid
      exact ⟨s0, sp, h0, hprep, ⟨a, ha⟩, ⟨n2 ++ b, by simp [hn2, hb]⟩⟩
    | false =>
      obtain ⟨s0, sp, h0, hprep, ⟨a, ha⟩, ⟨b, hb⟩⟩ := hb2 hmid ht
      exact ⟨s0, sp, h0, hprep, ⟨a ++ n1, by simp [ha, hn1]⟩, ⟨b, hb⟩⟩

theorem SessionKept.of_same {env : Env} {cluster : Cluster} {s s2 : St}
    (ht : ∃ new, s2.trace = new ++ s.trace) (hp : s2.prepared = s.prepared)
    (hs : s2.socketPath = s.socketPath) : SessionKept env cluster s s2 :=
  ⟨ht, fun h => by rw [hp]; exact h, fun _ => hs, fun h1 h2 => by
    rw [hp, h1] at h2; cases h2⟩

namespace Terraform

theorem checkDone_trace (env : Env) (s : St) : (checkDone env s).2.trace = s.trace := by
  unfold checkDone
  split <;> rfl

theorem command_ext (env : Env) (cluster : Cluster) (s : St) (a c : String)
    (rest cmds : List String) (so se : Bool) (hc : c ∈ cmds) :
    TraceExt (fun e => e.engineStep cmds = true) s.trace
      (command env cluster s (a :: c :: rest) so se).2.trace := by
  unfold command
  repeat' split
  all_goals first
    | exact TraceExt.refl _ _
    | (simp only [St.emit]
       split
       · refine TraceExt.cons (TraceExt.cons (TraceExt.cons (TraceExt.refl _ _) ?_) ?_) ?_
         all_goals simp [Event.engineStep, hc]
       · refine TraceExt.cons (TraceExt.cons (TraceExt.refl _ _) ?_) ?_
         all_goals simp [Event.engineStep, hc])

theorem prepareLoop_ext (env : Env) (cluster : Cluster) (cmds : List String)
    (l : List setupCommand)
    (hl : ∀ sc ∈ l, ∃ a c rest, sc.args = a :: c :: rest ∧ c ∈ cmds) :
    ∀ (fec : String) (s : St),
      TraceExt (fun e => e.engineStep cmds = true) s.trace
        (prepareLoop env cluster l fec s).2.trace := by
  induction l with
  | nil => intro fec s; exact TraceExt.refl _ _
  | cons sc rest ih =>
    intro fec s
    obtain ⟨a, c, r, hargs, hc⟩ := hl sc (List.mem_cons_self _ _)
    have hstep : TraceExt (fun e => e.engineStep cmds = true) s.trace
        (command env cluster (s.emit (.log "info" sc.log)) sc.args false true).2.trace := by
      rw [hargs]
      refine TraceExt.trans ?_ (command_ext env cluster _ a c r cmds false true hc)
      exact TraceExt.cons (TraceExt.refl _ _) (by simp [Event.engineStep])
    unfold prepareLoop
    simp only
    split
    · rename_i heq
      rw [heq] at hstep
      exact hstep
    · rename_i lines s2 heq
      rw [heq] at hstep
      split
      · rename_i heq2
        have h2 := checkDone_trace env s2
        rw [heq2] at h2
        simp only at h2 hstep ⊢
        rw [h2]
        exact hstep
      · rename_i heq2
        have h2 := checkDone_trace env s2
        rw [heq2] at h2
        simp only at h2 hstep
        refine TraceExt.trans ?_ (ih (fun x hx => hl x (List.mem_cons_of_mem _ hx)) _ _)
        rw [h2]
        exact hstep

theorem Prepare_ext (env : Env) (cluster : Cluster) (s : St) (cmds : List String)
    (hi : "init" ∈ cmds) (hv : "validate" ∈ cmds) :
    TraceExt (fun e => e.engineStep cmds = true) s.trace (Prepare env cluster s).2.trace := by
  have hloop := prepareLoop_ext env cluster cmds setupCommands (by
    intro sc hsc
    simp only [setupCommands, List.mem_cons, List.mem_singleton, List.not_mem_nil,
      or_false] at hsc
    rcases hsc with rfl | rfl
    · exact ⟨_, _, _, rfl, hi⟩
    · exact ⟨_, _, _, rfl, hv⟩)
  unfold Prepare
  split
  · rename_i heq
    have h := checkDone_trace env s
    rw [heq] at h
    simp only at h ⊢
    rw [h]
    exact TraceExt.refl _ _
  · rename_i s1 heq
    have h1 := checkDone_trace env s
    rw [heq] at h1
    simp only at h1
    split
    · simp only [St.emit, h1]
      exact TraceExt.cons (TraceExt.refl _ _) (by simp [Event.engineStep])
    · split
      · rename_i heq2
        have h2 := checkDone_trace env (s1.emit .generateCode)
        rw [heq2] at h2
        simp only [St.emit] at h2 ⊢
        rw [h2, h1]
        exact TraceExt.cons (TraceExt.refl _ _) (by simp [Event.engineStep])
      · rename_i s2 heq2
        have h2 := checkDone_trace env (s1.emit .generateCode)
        rw [heq2] at h2
        simp only [St.emit] at h2
        have e2 : TraceExt (fun e => e.engineStep cmds = true) s.trace s2.trace := by
          rw [h2, h1]
          exact TraceExt.cons (TraceExt.refl _ _) (by simp [Event.engineStep])
        split
        · simp only [St.emit]
          exact TraceExt.cons e2 (by simp [Event.engineStep])
        · split
          · rename_i heq3
            have h3 := checkDone_trace env (s2.emit .preparePlugins)
            rw [heq3] at h3
            simp only [St.emit] at h3 ⊢
            rw [h3]
            exact TraceExt.cons e2 (by simp [Event.engineStep])
          · rename_i s3 heq3
            have h3 := checkDone_trace env (s2.emit .preparePlugins)
            rw [heq3] at h3
            simp only [St.emit] at h3
            refine TraceExt.trans ?_ (hloop "" s3)
            rw [h3]
            exact TraceExt.cons e2 (by simp [Event.engineStep])

theorem ensureSocketPath_ext (env : Env) (s : St) (cmds : List String) :
    TraceExt (fun e => e.engineStep cmds = true) s.trace (ensureSocketPath env s).2.trace := by
  unfold ensureSocketPath
  split
  · split
    · exact TraceExt.refl _ _
    · simp only [St.emit]
      exact TraceExt.cons (TraceExt.refl _ _) (by simp [Event.engineStep])
  · exact TraceExt.refl _ _

theorem ensurePrepared_ext (env : Env) (cluster : Cluster) (s : St) (cmds : List String)
    (hi : "init" ∈ cmds) (hv : "validate" ∈ cmds) :
    TraceExt (fun e => e.engineStep cmds = true) s.trace
      (ensurePrepared env cluster s).2.trace := by
  have hp := Prepare_ext env cluster s cmds hi hv
  unfold ensurePrepared
  split
  · split
    · rename_i heq
      rw [heq] at hp
      exact hp
    · rename_i heq
      rw [heq] at hp
      exact hp
  · exact TraceExt.refl _ _

theorem stopRpc_ext (s : St) (cmds : List String) :
    TraceExt (fun e => e.engineStep cmds = true) s.trace (stopRpc s).trace := by
  simp only [stopRpc, St.emit]
  exact TraceExt.cons (TraceExt.cons (TraceExt.refl _ _) (by simp [Event.engineStep]))
    (by simp [Event.engineStep])

theorem runWrapped_ext (env : Env) (cluster : Cluster) (s : St) (cmd : String)
    (args cmds : List String) (hc : cmd ∈ cmds) :
    TraceExt (fun e => e.engineStep cmds = true) s.trace
      (runWrapped env cluster s cmd args).2.trace := by
  have h1 : TraceExt (fun e => e.engineStep cmds = true) s.trace
      ((s.emit (.rpcListen s.socketPath)).emit (.log "info" ("running " ++ cmd))).trace := by
    simp only [St.emit]
    exact TraceExt.cons (TraceExt.cons (TraceExt.refl _ _) (by simp [Event.engineStep]))
      (by simp [Event.engineStep])
  have hcmd := command_ext env cluster
    ((s.emit (.rpcListen s.socketPath)).emit (.log "info" ("running " ++ cmd)))
    "terraform" cmd args cmds false false hc
  unfold runWrapped
  simp only
  split
  · split
    · exact h1
    · refine TraceExt.trans ?_ (stopRpc_ext _ cmds)
      split
      · exact TraceExt.trans h1 (by
          simp only [St.emit]
          exact TraceExt.cons (TraceExt.cons (TraceExt.refl _ _) (by simp [Event.engineStep]))
            (by simp [Event.engineStep]))
      · exact TraceExt.trans h1 (by
          simp only [St.emit]
          exact TraceExt.cons (TraceExt.cons (TraceExt.refl _ _) (by simp [Event.engineStep]))
            (by simp [Event.engineStep]))
  · split
    · split
      · rename_i heq
        rw [heq] at hcmd
        exact TraceExt.trans h1 hcmd
      · rename_i heq
        rw [heq] at hcmd
        exact TraceExt.trans (TraceExt.trans h1 hcmd) (stopRpc_ext _ cmds)
    · exact TraceExt.trans h1 (stopRpc_ext _ cmds)

theorem terraformWrapper_ext (env : Env) (cluster : Cluster) (s : St) (cmd : String)
    (args cmds : List String) (hi : "init" ∈ cmds) (hv : "validate" ∈ cmds)
    (hc : cmd ∈ cmds) :
    TraceExt (fun e => e.engineStep cmds = true) s.trace
      (terraformWrapper env cluster s cmd args).2.trace := by
  have h1 := ensureSocketPath_ext env s cmds
  unfold terraformWrapper
  split
  · rename_i heq
    rw [heq] at h1
    exact h1
  · rename_i s1 heq
    rw [heq] at h1
    have h2 := ensurePrepared_ext env cluster s1 cmds hi hv
    split
    · rename_i heq2
      rw [heq2] at h2
      exact TraceExt.trans h1 h2
    · rename_i s2 heq2
      rw [heq2] at h2
      exact TraceExt.trans (TraceExt.trans h1 h2) (runWrapped_ext env cluster s2 cmd args cmds hc)

theorem planStep_of_engineStep (e : Event)
    (h : e.engineStep ["init", "validate", "plan", "taint"] = true) : e.planStep = true := by
  simp [Event.planStep, h]

theorem ReadOnTop.ext {p : plan.Plan} {t1 t2 : List Event} (h : ReadOnTop p t1 t2) :
    TraceExt (fun e => e.planStep = true) t1 t2 := by
  obtain ⟨path, mid, rfl, hm⟩ := h
  refine ⟨Event.planRead path p :: mid, rfl, ?_⟩
  intro e he
  rcases List.mem_cons.mp he with rfl | he
  · simp [Event.planStep]
  · exact hm e he

theorem ReadOnTop.after {p : plan.Plan} {t1 t2 t3 : List Event}
    (h12 : TraceExt (fun e => e.planStep = true) t1 t2) (h23 : ReadOnTop p t2 t3) :
    ReadOnTop p t1 t3 := by
  obtain ⟨n1, rfl, h1⟩ := h12
  obtain ⟨path, mid, rfl, hm⟩ := h23
  refine ⟨path, mid ++ n1, by simp, ?_⟩
  intro e he
  rcases List.mem_append.mp he with he | he
  · exact hm e he
  · exact h1 e he

theorem wrapper_planExt (env : Env) (cluster : Cluster) (s : St) (cmd : String)
    (args : List String) (hc : cmd ∈ ["init", "validate", "plan", "taint"]) :
    TraceExt (fun e => e.planStep = true) s.trace
      (terraformWrapper env cluster s cmd args).2.trace :=
  TraceExt.mono planStep_of_engineStep
    (terraformWrapper_ext env cluster s cmd args _ (by simp) (by simp) hc)

theorem readPlan_spec (env : Env) (s : St) (planPath : String) (cn : Bool) :
    TraceExt (fun e => e.planStep = true) s.trace (readPlan env s planPath cn).2.trace ∧
    ∀ p, (readPlan env s planPath cn).1.2 = .ok p →
      ReadOnTop p s.trace (readPlan env s planPath cn).2.trace := by
  unfold readPlan
  split
  · refine ⟨?_, by intro p h; simp at h⟩
    simp only [St.emit]
    exact TraceExt.cons (TraceExt.refl _ _) (by simp [Event.planStep, Event.engineStep])
  · refine ⟨?_, ?_⟩
    · simp only [St.emit]
      exact TraceExt.cons (TraceExt.refl _ _) (by simp [Event.planStep, Event.engineStep])
    · intro p h
      simp only [Except.ok.injEq] at h
      subst h
      exact ⟨planPath, [], by simp [St.emit], by simp⟩

theorem planWrapper_spec (env : Env) (cluster : Cluster) (s : St) (planPath : String) :
    TraceExt (fun e => e.planStep = true) s.trace
      (planWrapper env cluster s planPath).2.trace ∧
    ∀ p, (planWrapper env cluster s planPath).1.2 = .ok p →
      ReadOnTop p s.trace (planWrapper env cluster s planPath).2.trace := by
  have hw := wrapper_planExt env cluster s "plan"
    ["-detailed-exitcode", "-input=false", "-out=" ++ planPath] (by simp)
  unfold planWrapper
  split
  · rename_i s1 heq
    rw [heq] at hw
    have hr := readPlan_spec env s1 planPath false
    exact ⟨TraceExt.trans hw hr.1, fun p hp => ReadOnTop.after hw (hr.2 p hp)⟩
  · rename_i err s1 heq
    rw [heq] at hw
    split
    · have hr := readPlan_spec env s1 planPath true
      exact ⟨TraceExt.trans hw hr.1, fun p hp => ReadOnTop.after hw (hr.2 p hp)⟩
    · exact ⟨hw, by intro p h; simp at h⟩

theorem planFirst_spec (env : Env) (cluster : Cluster) (s : St) (preApply : Bool) :
    TraceExt (fun e => e.planStep = true) s.trace
      (planFirst env cluster s preApply).2.trace ∧
    ∀ path p, (planFirst env cluster s preApply).1.2 = .ok (path, p) →
      ReadOnTop p s.trace (planFirst env cluster s preApply).2.trace := by
  unfold planFirst
  simp only
  split
  · split
    · exact ⟨TraceExt.refl _ _, by intro path p h; simp at h⟩
    · rename_i storePath _
      have hw := planWrapper_spec env cluster s storePath
      split
      · rename_i heq
        rw [heq] at hw
        exact ⟨hw.1, by intro path p h; simp at h⟩
      · rename_i cn tfPlan s1 heq
        rw [heq] at hw
        refine ⟨hw.1, ?_⟩
        intro path p h
        simp only [Except.ok.injEq, Prod.mk.injEq] at h
        exact hw.2 p (by simp [h.2])
  · have hlog : TraceExt (fun e => e.planStep = true) s.trace
        (s.emit (.log "info" ("using custom plan file " ++ env.flags.Apply.PlanFileLocation))).trace := by
      simp only [St.emit]
      exact TraceExt.cons (TraceExt.refl _ _) (by simp [Event.planStep, Event.engineStep])
    split
    · refine ⟨?_, by intro path p h; simp at h⟩
      refine TraceExt.trans hlog ?_
      simp only [St.emit]
      exact TraceExt.cons (TraceExt.refl _ _) (by simp [Event.planStep, Event.engineStep])
    · rename_i tfPlan _
      have htop : ReadOnTop tfPlan s.trace
          ((s.emit (.log "info" ("using custom plan file " ++ env.flags.Apply.PlanFileLocation))).emit
            (.planRead env.flags.Apply.PlanFileLocation tfPlan)).trace :=
        ReadOnTop.after hlog ⟨env.flags.Apply.PlanFileLocation, [], by simp [St.emit], by simp⟩
      refine ⟨ReadOnTop.ext htop, ?_⟩
      intro path p h
      simp only [Except.ok.injEq, Prod.mk.injEq] at h
      rw [← h.2]
      exact htop

theorem planRetaint_spec (env : Env) (cluster : Cluster) (s : St) (planPath : String)
    (cn : Bool) (tfPlan : plan.Plan) :
    TraceExt (fun e => e.planStep = true) s.trace
      (planRetaint env cluster s planPath cn tfPlan).2.trace ∧
    ∀ p, (planRetaint env cluster s planPath cn tfPlan).1.2 = .ok p →
      (p = tfPlan ∧ (planRetaint env cluster s planPath cn tfPlan).2 = s) ∨
      ReadOnTop p s.trace (planRetaint env cluster s planPath cn tfPlan).2.trace := by
  unfold planRetaint
  split
  · have hlog : TraceExt (fun e => e.planStep = true) s.trace
        (s.emit (.log "info" "tainting legacy s3 puppet module object to force update")).trace := by
      simp only [St.emit]
      exact TraceExt.cons (TraceExt.refl _ _) (by simp [Event.planStep, Event.engineStep])
    have hw := wrapper_planExt env cluster
      (s.emit (.log "info" "tainting legacy s3 puppet module object to force update")) "taint"
      ["-allow-missing", "-module=kubernetes", cluster.LegacyPuppetTFName] (by simp)
    simp only
    split
    · rename_i heq
      rw [heq] at hw
      exact ⟨TraceExt.trans hlog hw, by intro p h; simp at h⟩
    · rename_i s2 heq
      rw [heq] at hw
      have hlog2 : TraceExt (fun e => e.planStep = true) s.trace
          (s2.emit (.log "info" "running plan again to update plan file against new state")).trace := by
        refine TraceExt.trans (TraceExt.trans hlog hw) ?_
        simp only [St.emit]
        exact TraceExt.cons (TraceExt.refl _ _) (by simp [Event.planStep, Event.engineStep])
      have hp := planWrapper_spec env cluster
        (s2.emit (.log "info" "running plan again to update plan file against new state")) planPath
      exact ⟨TraceExt.trans hlog2 hp.1, fun p h => Or.inr (ReadOnTop.after hlog2 (hp.2 p h))⟩
  · refine ⟨TraceExt.refl _ _, ?_⟩
    intro p h
    simp only [Except.ok.injEq] at h
    exact Or.inl ⟨h.symm, rfl⟩

theorem planParsed_spec (env : Env) (cluster : Cluster) (s : St) (preApply : Bool) :
    TraceExt (fun e => e.planStep = true) s.trace
      (planParsed env cluster s preApply).2.trace ∧
    ∀ p, (planParsed env cluster s preApply).1.2 = .ok p →
      ReadOnTop p s.trace (planParsed env cluster s preApply).2.trace := by
  have hf := planFirst_spec env cluster s preApply
  unfold planParsed
  split
  · rename_i heq
    rw [heq] at hf
    exact ⟨hf.1, by intro p h; simp at h⟩
  · rename_i cn planPath tfPlan s1 heq
    rw [heq] at hf
    have hr := planRetaint_spec env cluster s1 planPath cn tfPlan
    refine ⟨TraceExt.trans hf.1 hr.1, ?_⟩
    intro p h
    rcases hr.2 p h with ⟨hp, hs⟩ | htop
    · rw [hs, hp]
      exact hf.2 planPath tfPlan rfl
    · exact ReadOnTop.after hf.1 htop

theorem planVolumes_ext (env : Env) (s : St) (preApply cn : Bool) (p : plan.Plan) :
    TraceExt (fun e => (e.planStep = true ∨ e.isPrompt = true) ∧ e.isPlanRead = false ∧
        e.subcommand = none) s.trace (planVolumes env s preApply cn p).2.trace := by
  unfold planVolumes
  simp only [plan.Plan.IsDestroyingEBSVolume]
  repeat' split
  all_goals first
    | exact TraceExt.refl _ _
    | (simp only [St.emit]
       exact TraceExt.cons (TraceExt.refl _ _)
         (by simp [Event.planStep, Event.engineStep, Event.isPrompt, Event.isPlanRead,
           Event.subcommand]))
    | (simp only [St.emit]
       exact TraceExt.cons (TraceExt.cons (TraceExt.refl _ _)
         (by simp [Event.planStep, Event.engineStep, Event.isPrompt, Event.isPlanRead,
           Event.subcommand]))
         (by simp [Event.planStep, Event.engineStep, Event.isPrompt, Event.isPlanRead,
           Event.subcommand]))

theorem Plan_ext (env : Env) (cluster : Cluster) (s : St) (preApply : Bool) :
    TraceExt (fun e => e.planStep = true ∨ e.isPrompt = true) s.trace
      (Plan env cluster s preApply).2.trace := by
  have hp := (planParsed_spec env cluster s preApply).1
  unfold Plan
  split
  · rename_i heq
    rw [heq] at hp
    exact TraceExt.mono (fun e h => Or.inl h) hp
  · rename_i cn tfPlan s1 heq
    rw [heq] at hp
    exact TraceExt.trans (TraceExt.mono (fun e h => Or.inl h) hp)
      (TraceExt.mono (fun e h => h.1) (planVolumes_ext env s1 preApply cn tfPlan))

theorem subcommand_of_planStep (e : Event) (h : e.planStep = true ∨ e.isPrompt = true) :
    e.subcommand ≠ some "apply" := by
  cases e with
  | childStart b args d ev =>
    match args with
    | [] => simp [Event.subcommand]
    | [_] => simp [Event.subcommand]
    | _ :: c :: _ =>
      simp only [Event.planStep, Event.engineStep, Event.isPrompt, Bool.or_false,
        decide_eq_true_eq, or_false] at h
      simp only [Event.subcommand, ne_eq, Option.some.injEq]
      rintro rfl
      simp at h
  | _ => simp [Event.subcommand]

/-- C1: when `Plan(cluster, true)` reports no changes needed and no error,
`Apply` returns `(false, nil)`, ends in the very state `Plan` ended in, and no
event of the call starts a child whose terraform subcommand is `apply`. -/
theorem Apply_without_changes (env : Env) (cluster : Cluster) (s s1 : St)
    (h : Plan env cluster s true = ((false, none), s1)) :
    Apply env cluster s = ((false, none), s1) ∧
    ∃ new, s1.trace = new ++ s.trace ∧ ∀ e ∈ new, e.subcommand ≠ some "apply" := by
  refine ⟨by simp [Apply, h], ?_⟩
  have hp := Plan_ext env cluster s true
  rw [h] at hp
  obtain ⟨new, hnew, hq⟩ := hp
  exact ⟨new, hnew, fun e he => subcommand_of_planStep e (hq e he)⟩

theorem Apply_without_changes_witness :
    Plan quietEnv demoCluster demoSt true =
        ((false, none), (Plan quietEnv demoCluster demoSt true).2) ∧
    (Apply quietEnv demoCluster demoSt =
        ((false, none), (Plan quietEnv demoCluster demoSt true).2) ∧
      ∃ new, (Plan quietEnv demoCluster demoSt true).2.trace = new ++ demoSt.trace ∧
        ∀ e ∈ new, e.subcommand ≠ some "apply") :=
  ⟨rfl, Apply_without_changes quietEnv demoCluster demoSt _ rfl⟩

theorem lastPlanRead_append (new rest : List Event) (h : ∀ e ∈ new, e.isPlanRead = false) :
    lastPlanRead (new ++ rest) = lastPlanRead rest := by
  induction new with
  | nil => rfl
  | cons e new ih =>
    have he := h e (List.mem_cons_self _ _)
    have ih2 := ih (fun x hx => h x (List.mem_cons_of_mem _ hx))
    cases e <;> simp_all [lastPlanRead, Event.isPlanRead]

theorem isPlanRead_of_engineStep (cmds : List String) (e : Event)
    (h : e.engineStep cmds = true) : e.isPlanRead = false := by
  cases e <;> simp_all [Event.engineStep, Event.isPlanRead]

theorem planVolumes_ok (env : Env) (s s1 : St) (cn cn2 : Bool) (p : plan.Plan)
    (h : planVolumes env s true cn p = ((cn2, none), s1)) :
    (p.volumesToDestroy = [] ∧ s1 = s) ∨
    ((env.flags.Apply.AutoApprove = true ∧ env.flags.Apply.AutoApproveDeletingData = true) ∧
      s1 = s.emit (.log "warning" ("auto approved deleting, " ++
        destroyStr p.volumesToDestroy))) ∨
    s1 = (s.emit (.prompt (destroyQuery p.volumesToDestroy) (some true))).emit
        (.log "warning" (destroyStr p.volumesToDestroy)) := by
  unfold planVolumes at h
  simp only [plan.Plan.IsDestroyingEBSVolume] at h
  split at h
  · rename_i hd
    simp only [Prod.mk.injEq] at h
    left
    refine ⟨?_, h.2.symm⟩
    simpa using hd
  · split at h
    · simp at h
    · split at h
      · rename_i hf
        simp only [Prod.mk.injEq] at h
        right; left
        simp only [Bool.and_eq_true] at hf
        exact ⟨⟨hf.2, hf.1⟩, h.2.symm⟩
      · split at h
        · simp at h
        · split at h
          · simp at h
          · rename_i d _ hd
            simp only [Prod.mk.injEq] at h
            right; right
            have hd2 : d = true := by simpa using hd
            rw [← h.2, hd2]

theorem Plan_ok (env : Env) (cluster : Cluster) (s s1 : St) (cn : Bool)
    (h : Plan env cluster s true = ((cn, none), s1)) :
    ∃ new, s1.trace = new ++ s.trace ∧
      (∀ e ∈ new, e.subcommand ≠ some "apply") ∧
      ∃ p, lastPlanRead new = some p ∧
        (p.volumesToDestroy = [] ∨
          (env.flags.Apply.AutoApprove = true ∧
            env.flags.Apply.AutoApproveDeletingData = true) ∨
          Event.prompt (destroyQuery p.volumesToDestroy) (some true) ∈ new) := by
  have hext := Plan_ext env cluster s true
  rw [h] at hext
  have hp := (planParsed_spec env cluster s true).2
  unfold Plan at h
  split at h
  · simp at h
  · rename_i cn1 tfPlan s0 heq
    rw [heq] at hp
    obtain ⟨path, mid, hmid, -⟩ := hp tfPlan rfl
    simp only at hmid
    obtain ⟨new, hnew, hq⟩ := hext
    have happ : ∀ e ∈ new, e.subcommand ≠ some "apply" :=
      fun e he => subcommand_of_planStep e (hq e he)
    rcases planVolumes_ok env s0 s1 cn1 cn tfPlan h with ⟨hv, hs⟩ | ⟨hf, hs⟩ | hs
    · subst hs
      have hn : new = Event.planRead path tfPlan :: mid := by
        refine List.append_cancel_right (?_ : new ++ s.trace = _ ++ s.trace)
        rw [← hnew, hmid]; simp
      subst hn
      exact ⟨_, hnew, happ, tfPlan, by simp [lastPlanRead], Or.inl hv⟩
    · subst hs
      have hn : new = Event.log "warning" ("auto approved deleting, " ++
          destroyStr tfPlan.volumesToDestroy) :: Event.planRead path tfPlan :: mid := by
        refine List.append_cancel_right (?_ : new ++ s.trace = _ ++ s.trace)
        rw [← hnew]; simp [St.emit, hmid]
      subst hn
      exact ⟨_, hnew, happ, tfPlan, by simp [lastPlanRead], Or.inr (Or.inl hf)⟩
    · subst hs
      have hn : new = Event.log "warning" (destroyStr tfPlan.volumesToDestroy) ::
          Event.prompt (destroyQuery tfPlan.volumesToDestroy) (some true) ::
          Event.planRead path tfPlan :: mid := by
        refine List.append_cancel_right (?_ : new ++ s.trace = _ ++ s.trace)
        rw [← hnew]; simp [St.emit, hmid]
      subst hn
      exact ⟨_, hnew, happ, tfPlan, by simp [lastPlanRead], Or.inr (Or.inr (by simp))⟩

/-- What holds of the plan that `Plan` analysed: in every run of `Apply`, if
some event of the run starts a child with the terraform subcommand `apply`,
then the plan parsed last in that run either lists no volume to destroy, or
both `AutoApprove` and `AutoApproveDeletingData` are set, or the run holds the
confirmation prompt that enumerates the plan's volumes, answered yes.  Which
file the apply child is given is another matter. -/
theorem Apply_destroy_needs_confirmation (env : Env) (cluster : Cluster) (s : St) :
    ∃ new, (Apply env cluster s).2.trace = new ++ s.trace ∧
      ((∃ e ∈ new, e.subcommand = some "apply") →
        ∃ p, lastPlanRead new = some p ∧
          (p.volumesToDestroy = [] ∨
            (env.flags.Apply.AutoApprove = true ∧
              env.flags.Apply.AutoApproveDeletingData = true) ∨
            Event.prompt (destroyQuery p.volumesToDestroy) (some true) ∈ new)) := by
  have hext := Plan_ext env cluster s true
  unfold Apply
  split
  · rename_i heq
    rw [heq] at hext
    obtain ⟨new, hnew, hq⟩ := hext
    refine ⟨new, hnew, ?_⟩
    rintro ⟨e, he, hsub⟩
    exact absurd hsub (subcommand_of_planStep e (hq e he))
  · rename_i heq
    rw [heq] at hext
    obtain ⟨new, hnew, hq⟩ := hext
    refine ⟨new, hnew, ?_⟩
    rintro ⟨e, he, hsub⟩
    exact absurd hsub (subcommand_of_planStep e (hq e he))
  · rename_i s1 heq
    obtain ⟨new, hnew, happ, p, hlast, hconf⟩ := Plan_ok env cluster s s1 true heq
    have hstay : ∃ new, s1.trace = new ++ s.trace ∧
        ((∃ e ∈ new, e.subcommand = some "apply") →
          ∃ p, lastPlanRead new = some p ∧
            (p.volumesToDestroy = [] ∨
              (env.flags.Apply.AutoApprove = true ∧
                env.flags.Apply.AutoApproveDeletingData = true) ∨
              Event.prompt (destroyQuery p.volumesToDestroy) (some true) ∈ new)) := by
      refine ⟨new, hnew, ?_⟩
      rintro ⟨e, he, hsub⟩
      exact absurd hsub (happ e he)
    split
    · exact hstay
    · split
      · exact hstay
      · rename_i planFilePath _
        obtain ⟨new2, hnew2, hq2⟩ := terraformWrapper_ext env cluster s1 "apply" [planFilePath]
          ["init", "validate", "apply"] (by simp) (by simp) (by simp)
        refine ⟨new2 ++ new, by simp [hnew2, hnew], ?_⟩
        intro _
        refine ⟨p, ?_, ?_⟩
        · rw [lastPlanRead_append new2 new
            (fun e he => isPlanRead_of_engineStep _ e (hq2 e he))]
          exact hlast
        · rcases hconf with h | h | h
          · exact Or.inl h
          · exact Or.inr (Or.inl h)
          · exact Or.inr (Or.inr (List.mem_append_right _ h))

/-- C2 evaluated where it fails: `Plan.PlanFileStore` names the caller's file
`/tmp/custom.plan`, `Apply.PlanFileLocation` is left at its default, and
neither approval flag is set.  `Plan` writes and analyses `/tmp/custom.plan`,
which destroys nothing, so nobody is asked; `Apply` then hands
`terraform apply` the file at the default path, which was not analysed and
which destroys the volume `vol-a`. -/
theorem Apply_applies_unanalysed_destroy :
    leftoverEnv.flags.Apply.AutoApprove = false ∧
    leftoverEnv.flags.Apply.AutoApproveDeletingData = false ∧
    (Apply leftoverEnv demoCluster demoSt).1 = (true, none) ∧
    (Apply leftoverEnv demoCluster demoSt).2.trace =
      [Event.rpcWait, Event.rpcStop, Event.childExit none,
       Event.childStart "/usr/bin/tarmak"
         ["terraform", "apply", "/cfg/terraform/terraform.plan"] "/cfg/terraform"
         ["TF_IN_AUTOMATION=1", "AWS_REGION=eu-west-1", "TF_LOG="],
       Event.log "info" "running apply",
       Event.rpcListen "/tmp/tarmak.sock1",
       Event.planRead "/tmp/custom.plan" { legacyArtifactStale := false, volumesToDestroy := [] },
       Event.childExit (some (.exitError 2)),
       Event.childStart "/usr/bin/tarmak"
         ["terraform", "plan", "-detailed-exitcode", "-input=false", "-out=/tmp/custom.plan"]
         "/cfg/terraform" ["TF_IN_AUTOMATION=1", "AWS_REGION=eu-west-1", "TF_LOG="],
       Event.log "info" "running plan",
       Event.rpcListen "/tmp/tarmak.sock1"] ∧
    (∀ e ∈ (Apply leftoverEnv demoCluster demoSt).2.trace, e.isPrompt = false) ∧
    leftoverEnv.planNew (Apply leftoverEnv demoCluster demoSt).2.trace
        "/cfg/terraform/terraform.plan" =
      .ok { legacyArtifactStale := false, volumesToDestroy := ["vol-a"] } := by
  refine ⟨rfl, rfl, rfl, rfl, ?_, rfl⟩
  decide

theorem isPrompt_of_planStep (e : Event) (h : e.planStep = true) : e.isPrompt = false := by
  cases e <;> simp_all [Event.planStep, Event.engineStep, Event.isPrompt]

/-- C3: a plan-only call (`preApply = false`) whose parsed plan lists volumes
to destroy returns at once, in the state in which the plan was parsed, with a
non-nil error whose message holds the volume identifiers in plan order, joined
by `", "` inside square brackets; no event of the call is a prompt. -/
theorem Plan_only_refuses_destroy (env : Env) (cluster : Cluster) (s s1 : St) (cn : Bool)
    (p : plan.Plan) (h : planParsed env cluster s false = ((cn, .ok p), s1))
    (hv : p.volumesToDestroy ≠ []) :
    Plan env cluster s false =
      ((cn, some (.errorString
        ("the following EBS volumes will be destroyed during the next apply: [" ++
          ", ".intercalate p.volumesToDestroy ++ "]"))), s1) ∧
    ∃ new, s1.trace = new ++ s.trace ∧ ∀ e ∈ new, e.isPrompt = false := by
  have hp := (planParsed_spec env cluster s false).1
  rw [h] at hp
  refine ⟨?_, ?_⟩
  · unfold Plan
    rw [h]
    simp [planVolumes, plan.Plan.IsDestroyingEBSVolume, hv, destroyStr]
  · obtain ⟨new, hnew, hq⟩ := hp
    exact ⟨new, hnew, fun e he => isPrompt_of_planStep e (hq e he)⟩

theorem Plan_only_refuses_destroy_witness :
    planParsed (destroyEnv false false false) demoCluster demoSt false =
        ((true, .ok { legacyArtifactStale := false, volumesToDestroy := ["vol-a", "vol-b"] }),
          (planParsed (destroyEnv false false false) demoCluster demoSt false).2) ∧
    (Plan (destroyEnv false false false) demoCluster demoSt false =
      ((true, some (.errorString
        ("the following EBS volumes will be destroyed during the next apply: [" ++
          ", ".intercalate ["vol-a", "vol-b"] ++ "]"))),
        (planParsed (destroyEnv false false false) demoCluster demoSt false).2) ∧
    ∃ new, (planParsed (destroyEnv false false false) demoCluster demoSt false).2.trace =
        new ++ demoSt.trace ∧ ∀ e ∈ new, e.isPrompt = false) :=
  ⟨rfl, Plan_only_refuses_destroy (destroyEnv false false false) demoCluster demoSt _ true
    { legacyArtifactStale := false, volumesToDestroy := ["vol-a", "vol-b"] } rfl (by decide)⟩

/-- C4: in a pre-apply call (`preApply = true`) whose parsed plan lists
volumes to destroy, when both `AutoApprove` and `AutoApproveDeletingData` are
set `Plan` returns `(changesNeeded, nil)` and no event of the call is a prompt;
otherwise (neither flag, or one alone) the call holds the confirmation prompt
for these volumes. -/
theorem Plan_preApply_prompt (env : Env) (cluster : Cluster) (s s1 : St) (cn : Bool)
    (p : plan.Plan) (h : planParsed env cluster s true = ((cn, .ok p), s1))
    (hv : p.volumesToDestroy ≠ []) :
    ∃ new, (Plan env cluster s true).2.trace = new ++ s.trace ∧
      ((env.flags.Apply.AutoApprove = true ∧ env.flags.Apply.AutoApproveDeletingData = true) →
        (Plan env cluster s true).1 = (cn, none) ∧ ∀ e ∈ new, e.isPrompt = false) ∧
      (¬ (env.flags.Apply.AutoApprove = true ∧
            env.flags.Apply.AutoApproveDeletingData = true) →
        ∃ answer, Event.prompt (destroyQuery p.volumesToDestroy) answer ∈ new) := by
  have hp := (planParsed_spec env cluster s true).1
  rw [h] at hp
  obtain ⟨new1, hnew1, hq1⟩ := hp
  simp only at hnew1
  have hnp : ∀ e ∈ new1, e.isPrompt = false := fun e he => isPrompt_of_planStep e (hq1 e he)
  unfold Plan
  rw [h]
  simp only [planVolumes, plan.Plan.IsDestroyingEBSVolume]
  by_cases hf : env.flags.Apply.AutoApprove = true ∧ env.flags.Apply.AutoApproveDeletingData = true
  · refine ⟨Event.log "warning" ("auto approved deleting, " ++
      destroyStr p.volumesToDestroy) :: new1, ?_, ?_, fun hn => absurd hf hn⟩
    · simp [hv, hf.1, hf.2, St.emit, hnew1]
    · intro _
      refine ⟨by simp [hv, hf.1, hf.2], ?_⟩
      intro e he
      rcases List.mem_cons.mp he with rfl | he
      · rfl
      · exact hnp e he
  · have hf2 : (env.flags.Apply.AutoApproveDeletingData && env.flags.Apply.AutoApprove) = false := by
      cases h1 : env.flags.Apply.AutoApprove <;>
        cases h2 : env.flags.Apply.AutoApproveDeletingData <;> simp_all
    cases ha : env.askYesNo s1.trace (destroyQuery p.volumesToDestroy) with
    | error err =>
      refine ⟨Event.prompt (destroyQuery p.volumesToDestroy) none :: new1, ?_,
        fun hb => absurd hb hf, fun _ => ⟨none, by simp⟩⟩
      simp [hv, hf2, ha, St.emit, hnew1]
    | ok d =>
      cases d with
      | false =>
        refine ⟨Event.prompt (destroyQuery p.volumesToDestroy) (some false) :: new1, ?_,
          fun hb => absurd hb hf, fun _ => ⟨some false, by simp⟩⟩
        simp [hv, hf2, ha, St.emit, hnew1]
      | true =>
        refine ⟨Event.log "warning" (destroyStr p.volumesToDestroy) ::
          Event.prompt (destroyQuery p.volumesToDestroy) (some true) :: new1, ?_,
          fun hb => absurd hb hf, fun _ => ⟨some true, by simp⟩⟩
        simp [hv, hf2, ha, St.emit, hnew1]

theorem Plan_preApply_prompt_witness :
    planParsed (destroyEnv true false false) demoCluster demoSt true =
        ((true, .ok { legacyArtifactStale := false, volumesToDestroy := ["vol-a", "vol-b"] }),
          (planParsed (destroyEnv true false false) demoCluster demoSt true).2) ∧
    ∃ new, (Plan (destroyEnv true false false) demoCluster demoSt true).2.trace =
        new ++ demoSt.trace ∧
      (((destroyEnv true false false).flags.Apply.AutoApprove = true ∧
          (destroyEnv true false false).flags.Apply.AutoApproveDeletingData = true) →
        (Plan (destroyEnv true false false) demoCluster demoSt true).1 = (true, none) ∧
          ∀ e ∈ new, e.isPrompt = false) ∧
      (¬ ((destroyEnv true false false).flags.Apply.AutoApprove = true ∧
            (destroyEnv true false false).flags.Apply.AutoApproveDeletingData = true) →
        ∃ answer, Event.prompt (destroyQuery ["vol-a", "vol-b"]) answer ∈ new) :=
  ⟨rfl, Plan_preApply_prompt (destroyEnv true false false) demoCluster demoSt _ true
    { legacyArtifactStale := false, volumesToDestroy := ["vol-a", "vol-b"] } rfl (by decide)⟩

/-- C5, as stated, fails: cancellation is seen while the child runs, the child
is signalled and ends killed by the signal, and `command` returns the error of
waiting on the child, which is not the context's `Err()`; when the signalled
child exits with status 0, `command` returns no error at all. -/
theorem command_cancel_returns_wait_error :
    (command cancelEnv demoCluster demoSt ["terraform", "destroy"] false false).2.trace =
        [Event.childExit (some (.signaled "interrupt")), Event.childSignal "interrupt",
          Event.childStart "/usr/bin/tarmak" ["terraform", "destroy"] "/cfg/terraform"
            ["TF_IN_AUTOMATION=1", "AWS_REGION=eu-west-1", "TF_LOG="]] ∧
    (command cancelEnv demoCluster demoSt ["terraform", "destroy"] false false).1.1 =
        some (.signaled "interrupt") ∧
    (command cancelEnv demoCluster demoSt ["terraform", "destroy"] false false).1.1 ≠
        some cancelEnv.ctxErr ∧
    (command cancelCleanEnv demoCluster demoSt ["terraform", "destroy"] false false).1.1 =
        none := by
  refine ⟨rfl, rfl, ?_, rfl⟩
  decide

/-- C5, amended: when the child has been started and cancellation is seen
while it runs, `command` marks the context as fired, forwards the context's
recorded signal to the child, waits for the child, and returns the error of
that wait (nil when the child exits with status 0). -/
theorem command_cancel_forwards_and_waits (env : Env) (cluster : Cluster) (s : St)
    (args ev : List String) (stdout stderr : Bool) (binaryPath : String)
    (hev : envVars env cluster s = (ev, none))
    (hbin : env.executable s.trace = .ok binaryPath)
    (hout : (if stdout then none else env.stdoutPipe s.trace) = none)
    (herr : (if stderr then none else env.stderrPipe s.trace) = none)
    (hstart : env.start s.trace = none)
    (hdone : env.selectDone
      (Event.childStart binaryPath args (codePath env cluster) ev :: s.trace) = true) :
    command env cluster s args stdout stderr =
      (((env.wait (Event.childSignal env.ctxSignal ::
            Event.childStart binaryPath args (codePath env cluster) ev :: s.trace)).err,
        (env.wait (Event.childSignal env.ctxSignal ::
            Event.childStart binaryPath args (codePath env cluster) ev :: s.trace)).stderr),
       { s with
         cancelled := true
         trace :=
           Event.childExit (env.wait (Event.childSignal env.ctxSignal ::
             Event.childStart binaryPath args (codePath env cluster) ev :: s.trace)).err ::
           Event.childSignal env.ctxSignal ::
           Event.childStart binaryPath args (codePath env cluster) ev :: s.trace }) := by
  unfold command
  simp only [hev, hbin, hout, herr, hstart, St.emit, hdone, if_true]

theorem command_cancel_forwards_and_waits_witness :
    command cancelEnv demoCluster demoSt ["terraform", "destroy"] false false =
      ((some (.signaled "interrupt"), []),
       { demoSt with
         cancelled := true
         trace :=
           [Event.childExit (some (.signaled "interrupt")), Event.childSignal "interrupt",
            Event.childStart "/usr/bin/tarmak" ["terraform", "destroy"] "/cfg/terraform"
              ["TF_IN_AUTOMATION=1", "AWS_REGION=eu-west-1", "TF_LOG="]] }) :=
  command_cancel_forwards_and_waits cancelEnv demoCluster demoSt ["terraform", "destroy"]
    ["TF_IN_AUTOMATION=1", "AWS_REGION=eu-west-1", "TF_LOG="] false false "/usr/bin/tarmak"
    rfl rfl rfl rfl rfl rfl

/-- C6 evaluated where it fails: `terraform plan -detailed-exitcode` exits with
status 2 (changes pending), `command` hands that error back, and
`terraformWrapper` returns it with the RPC listener started but neither stopped
nor waited for. -/
theorem terraformWrapper_leaves_rpc_listening :
    terraformWrapper (destroyEnv false false false) demoCluster demoSt "plan"
        ["-detailed-exitcode", "-input=false", "-out=/cfg/terraform/terraform.plan"] =
      (some (.exitError 2),
       { demoSt with
         trace :=
           [Event.childExit (some (.exitError 2)),
            Event.childStart "/usr/bin/tarmak"
              ["terraform", "plan", "-detailed-exitcode", "-input=false",
                "-out=/cfg/terraform/terraform.plan"]
              "/cfg/terraform" ["TF_IN_AUTOMATION=1", "AWS_REGION=eu-west-1", "TF_LOG="],
            Event.log "info" "running plan",
            Event.rpcListen "/tmp/tarmak.sock1"] }) ∧
    Event.rpcStop ∉
      (terraformWrapper (destroyEnv false false false) demoCluster demoSt "plan"
        ["-detailed-exitcode", "-input=false", "-out=/cfg/terraform/terraform.plan"]).2.trace ∧
    Event.rpcWait ∉
      (terraformWrapper (destroyEnv false false false) demoCluster demoSt "plan"
        ["-detailed-exitcode", "-input=false", "-out=/cfg/terraform/terraform.plan"]).2.trace := by
  refine ⟨rfl, ?_, ?_⟩ <;> decide

theorem command_socketPath (env : Env) (cluster : Cluster) (s : St) (args : List String)
    (so se : Bool) : (command env cluster s args so se).2.socketPath = s.socketPath := by
  unfold command
  repeat' split
  all_goals first
    | rfl
    | (simp only [St.emit]
       split <;> rfl)

theorem runWrapped_ok_stops_rpc (env : Env) (cluster : Cluster) (s s1 : St) (cmd : String)
    (args : List String) (h : runWrapped env cluster s cmd args = (none, s1)) :
    ∃ t, s1.trace = Event.rpcWait :: Event.rpcStop :: t ∧ Event.rpcListen s.socketPath ∈ t := by
  have hcmd := command_ext env cluster
    ((s.emit (.rpcListen s.socketPath)).emit (.log "info" ("running " ++ cmd)))
    "terraform" cmd args [cmd] false false (by simp)
  unfold runWrapped at h
  simp only at h
  split at h
  · split at h
    · simp at h
    · simp only [Prod.mk.injEq, true_and] at h
      subst h
      split <;> exact ⟨_, rfl, by simp [St.emit]⟩
  · split at h
    · split at h
      · simp at h
      · rename_i s2 heq
        simp only [Prod.mk.injEq, true_and] at h
        subst h
        rw [heq] at hcmd
        obtain ⟨new, hnew, -⟩ := hcmd
        simp only at hnew
        exact ⟨_, rfl, by rw [hnew]; simp [St.emit]⟩
    · simp only [Prod.mk.injEq, true_and] at h
      subst h
      exact ⟨_, rfl, by simp [St.emit]⟩

/-- The success path of `terraformWrapper`: when it returns nil, the listener
it started has been told to stop and has been waited for, and these are the
last two things it did. -/
theorem terraformWrapper_ok_stops_rpc (env : Env) (cluster : Cluster) (s s1 : St)
    (cmd : String) (args : List String)
    (h : terraformWrapper env cluster s cmd args = (none, s1)) :
    ∃ t, s1.trace = Event.rpcWait :: Event.rpcStop :: t ∧
      Event.rpcListen s1.socketPath ∈ t := by
  unfold terraformWrapper at h
  split at h
  · simp at h
  · split at h
    · simp at h
    · rename_i s2 _
      obtain ⟨t, ht, hl⟩ := runWrapped_ok_stops_rpc env cluster s2 s1 cmd args h
      have hsock : s1.socketPath = s2.socketPath := by
        unfold runWrapped at h
        simp only at h
        split at h
        · split at h
          · simp at h
          · simp only [Prod.mk.injEq, true_and] at h
            subst h
            split <;> rfl
        · split at h
          · split at h
            · simp at h
            · rename_i s3 heq
              simp only [Prod.mk.injEq, true_and] at h
              subst h
              have hc := command_socketPath env cluster
                ((s2.emit (.rpcListen s2.socketPath)).emit (.log "info" ("running " ++ cmd)))
                ("terraform" :: cmd :: args) false false
              rw [heq] at hc
              exact hc
          · simp only [Prod.mk.injEq, true_and] at h
            subst h
            rfl
      exact ⟨t, ht, hsock ▸ hl⟩

/-- Two runs of `Apply` on a plan that destroys two volumes, with neither
approval flag set: answered yes, the run reaches the apply child; answered no,
it returns the refusal and starts no apply child. -/
theorem Apply_destroy_runs :
    (Apply (destroyEnv false false true) demoCluster demoSt).1 = (true, none) ∧
    (∃ e ∈ (Apply (destroyEnv false false true) demoCluster demoSt).2.trace,
      e.subcommand = some "apply") ∧
    (Apply (destroyEnv false false false) demoCluster demoSt).1 =
      (false, some (.errorString
        "error: the following EBS volumes will be destroyed during the next apply: [vol-a, vol-b]")) ∧
    (∀ e ∈ (Apply (destroyEnv false false false) demoCluster demoSt).2.trace,
      e.subcommand ≠ some "apply") := by
  refine ⟨rfl, ?_, rfl, ?_⟩ <;> decide

theorem command_no_prepare (env : Env) (cluster : Cluster) (s : St) (a c : String)
    (rest : List String) (so se : Bool) (hi : c ≠ "init") (hv : c ≠ "validate") :
    TraceExt (fun e => e.isPrepareStep = false) s.trace
      (command env cluster s (a :: c :: rest) so se).2.trace := by
  unfold command
  repeat' split
  all_goals first
    | exact TraceExt.refl _ _
    | (simp only [St.emit]
       split
       · refine TraceExt.cons (TraceExt.cons (TraceExt.cons (TraceExt.refl _ _) ?_) ?_) ?_
         all_goals simp [Event.isPrepareStep, hi, hv]
       · refine TraceExt.cons (TraceExt.cons (TraceExt.refl _ _) ?_) ?_
         all_goals simp [Event.isPrepareStep, hi, hv])

theorem runWrapped_no_prepare (env : Env) (cluster : Cluster) (s : St) (cmd : String)
    (args : List String) (hi : cmd ≠ "init") (hv : cmd ≠ "validate") :
    TraceExt (fun e => e.isPrepareStep = false) s.trace
      (runWrapped env cluster s cmd args).2.trace := by
  have h1 : TraceExt (fun e => e.isPrepareStep = false) s.trace
      ((s.emit (.rpcListen s.socketPath)).emit (.log "info" ("running " ++ cmd))).trace := by
    simp only [St.emit]
    exact TraceExt.cons (TraceExt.cons (TraceExt.refl _ _) (by simp [Event.isPrepareStep]))
      (by simp [Event.isPrepareStep])
  have hstop : ∀ x : St, TraceExt (fun e => e.isPrepareStep = false) x.trace (stopRpc x).trace := by
    intro x
    simp only [stopRpc, St.emit]
    exact TraceExt.cons (TraceExt.cons (TraceExt.refl _ _) (by simp [Event.isPrepareStep]))
      (by simp [Event.isPrepareStep])
  have hcmd := command_no_prepare env cluster
    ((s.emit (.rpcListen s.socketPath)).emit (.log "info" ("running " ++ cmd)))
    "terraform" cmd args false false hi hv
  unfold runWrapped
  simp only
  split
  · split
    · exact h1
    · refine TraceExt.trans ?_ (hstop _)
      split
      · exact TraceExt.trans h1 (by
          simp only [St.emit]
          exact TraceExt.cons (TraceExt.cons (TraceExt.refl _ _) (by simp [Event.isPrepareStep]))
            (by simp [Event.isPrepareStep]))
      · exact TraceExt.trans h1 (by
          simp only [St.emit]
          exact TraceExt.cons (TraceExt.cons (TraceExt.refl _ _) (by simp [Event.isPrepareStep]))
            (by simp [Event.isPrepareStep]))
  · split
    · split
      · rename_i heq
        rw [heq] at hcmd
        exact TraceExt.trans h1 hcmd
      · rename_i heq
        rw [heq] at hcmd
        exact TraceExt.trans (TraceExt.trans h1 hcmd) (hstop _)
    · exact TraceExt.trans h1 (hstop _)

theorem terraformWrapper_prepared_no_prepare (env : Env) (cluster : Cluster) (s : St)
    (cmd : String) (args : List String) (hp : s.prepared = true) (hi : cmd ≠ "init")
    (hv : cmd ≠ "validate") :
    TraceExt (fun e => e.isPrepareStep = false) s.trace
      (terraformWrapper env cluster s cmd args).2.trace := by
  have hsock : TraceExt (fun e => e.isPrepareStep = false) s.trace
      (ensureSocketPath env s).2.trace ∧ (ensureSocketPath env s).2.prepared = true := by
    unfold ensureSocketPath
    split
    · split
      · exact ⟨TraceExt.refl _ _, hp⟩
      · simp only [St.emit]
        exact ⟨TraceExt.cons (TraceExt.refl _ _) (by simp [Event.isPrepareStep]), hp⟩
    · exact ⟨TraceExt.refl _ _, hp⟩
  unfold terraformWrapper
  split
  · rename_i heq
    rw [heq] at hsock
    exact hsock.1
  · rename_i s1 heq
    rw [heq] at hsock
    have hp1 : s1.prepared = true := hsock.2
    have hprep : ensurePrepared env cluster s1 = (none, s1) := by
      simp [ensurePrepared, hp1]
    rw [hprep]
    exact TraceExt.trans hsock.1 (runWrapped_no_prepare env cluster s1 cmd args hi hv)

theorem checkDone_prepared (env : Env) (s : St) (b : Bool) :
    checkDone env { s with prepared := b } =
      ((checkDone env s).1, { (checkDone env s).2 with prepared := b }) := by
  unfold checkDone ctxDone
  split <;> rfl

theorem command_prepared (env : Env) (cluster : Cluster) (s : St) (args : List String)
    (so se : Bool) (b : Bool) :
    command env cluster { s with prepared := b } args so se =
      ((command env cluster s args so se).1,
        { (command env cluster s args so se).2 with prepared := b }) := by
  unfold command envVars
  simp only [St.emit]
  repeat' split
  all_goals rfl

theorem prepareLoop_prepared (env : Env) (cluster : Cluster) (b : Bool)
    (l : List setupCommand) :
    ∀ (fec : String) (s : St),
      prepareLoop env cluster l fec { s with prepared := b } =
        ((prepareLoop env cluster l fec s).1,
          { (prepareLoop env cluster l fec s).2 with prepared := b }) := by
  induction l with
  | nil => intro fec s; rfl
  | cons c rest ih =>
    intro fec s
    have hc := command_prepared env cluster (s.emit (.log "info" c.log)) c.args false true b
    rw [prepareLoop, prepareLoop]
    simp only
    have hemit : ({ s with prepared := b } : St).emit (.log "info" c.log) =
        { s.emit (.log "info" c.log) with prepared := b } := rfl
    rw [hemit, hc]
    cases hres : command env cluster (s.emit (.log "info" c.log)) c.args false true with
    | mk r s2 =>
      obtain ⟨err, lines⟩ := r
      cases err with
      | some e => rfl
      | none =>
        simp only
        rw [checkDone_prepared]
        cases hcd : checkDone env s2 with
        | mk e2 s3 =>
          cases e2 with
          | some e => rfl
          | none =>
            simp only
            exact ih _ s3

theorem Prepare_prepared (env : Env) (cluster : Cluster) (s : St) (b : Bool) :
    Prepare env cluster { s with prepared := b } =
      ((Prepare env cluster s).1, { (Prepare env cluster s).2 with prepared := b }) := by
  unfold Prepare
  rw [checkDone_prepared]
  cases h1 : checkDone env s with
  | mk e1 s1 =>
    cases e1 with
    | some e => rfl
    | none =>
      simp only
      cases hg : env.generateCode s1.trace with
      | some e => rfl
      | none =>
        simp only
        have hemit : ({ s1 with prepared := b } : St).emit .generateCode =
            { s1.emit .generateCode with prepared := b } := rfl
        rw [hemit, checkDone_prepared]
        cases h2 : checkDone env (s1.emit .generateCode) with
        | mk e2 s2 =>
          cases e2 with
          | some e => rfl
          | none =>
            simp only
            cases hpp : env.preparePlugins s2.trace with
            | some e => rfl
            | none =>
              simp only
              have hemit2 : ({ s2 with prepared := b } : St).emit .preparePlugins =
                  { s2.emit .preparePlugins with prepared := b } := rfl
              rw [hemit2, checkDone_prepared]
              cases h3 : checkDone env (s2.emit .preparePlugins) with
              | mk e3 s3 =>
                cases e3 with
                | some e => rfl
                | none =>
                  simp only
                  exact prepareLoop_prepared env cluster b setupCommands "" s3

theorem Prepare_generates_first (env : Env) (cluster : Cluster) (s : St)
    (h : ctxDone env s = false) :
    ∃ new, (Prepare env cluster s).2.trace = new ++ Event.generateCode :: s.trace := by
  have hcd : checkDone env s = (none, s) := by simp [checkDone, h]
  unfold Prepare
  rw [hcd]
  simp only
  split
  · exact ⟨[], rfl⟩
  · split
    · rename_i heq2
      have h2 := checkDone_trace env (s.emit .generateCode)
      rw [heq2] at h2
      exact ⟨[], by simpa [St.emit] using h2⟩
    · rename_i s2 heq2
      have h2 := checkDone_trace env (s.emit .generateCode)
      rw [heq2] at h2
      simp only [St.emit] at h2
      split
      · exact ⟨[Event.preparePlugins], by simp [St.emit, h2]⟩
      · split
        · rename_i heq3
          have h3 := checkDone_trace env (s2.emit .preparePlugins)
          rw [heq3] at h3
          simp only [St.emit] at h3
          exact ⟨[Event.preparePlugins], by simp [h3, h2]⟩
        · rename_i s3 heq3
          have h3 := checkDone_trace env (s2.emit .preparePlugins)
          rw [heq3] at h3
          simp only [St.emit] at h3
          obtain ⟨new, hnew, -⟩ := prepareLoop_ext env cluster ["init", "validate"]
            setupCommands (by
              intro sc hsc
              simp only [setupCommands, List.mem_cons, List.mem_singleton, List.not_mem_nil,
                or_false] at hsc
              rcases hsc with rfl | rfl
              · exact ⟨_, _, _, rfl, by simp⟩
              · exact ⟨_, _, _, rfl, by simp⟩) "" s3
          exact ⟨new ++ [Event.preparePlugins], by simp [hnew, h3, h2]⟩

/-- C16, as stated, fails both ways: on a session whose `prepared` flag is
true, a direct `Prepare` starts the `init` and `validate` children again, and a
`terraformWrapper` call regenerates neither the code nor the plugin links. -/
theorem Prepare_not_gated_by_flag :
    demoSt.prepared = true ∧
    (∃ e ∈ (Prepare quietEnv demoCluster demoSt).2.trace, e.subcommand = some "init") ∧
    (∃ e ∈ (Prepare quietEnv demoCluster demoSt).2.trace, e.subcommand = some "validate") ∧
    Event.generateCode ∉
      (terraformWrapper quietEnv demoCluster demoSt "destroy" ["-force", "-refresh=false"]).2.trace ∧
    Event.preparePlugins ∉
      (terraformWrapper quietEnv demoCluster demoSt "destroy" ["-force", "-refresh=false"]).2.trace := by
  refine ⟨rfl, ?_, ?_, ?_, ?_⟩ <;> decide

/-- C16, amended: once the session's `prepared` flag is true, a further
`terraformWrapper` call (of a subcommand other than `init` and `validate`)
skips `Prepare` as a whole, so it starts no `init` or `validate` child and
regenerates neither the code nor the plugin links; `Prepare` itself does not
read the flag, so a direct call gives the same result and the same history
whatever the flag, and unless the context has fired it regenerates the code
first. -/
theorem prepared_session_skips_Prepare (env : Env) (cluster : Cluster) (s : St)
    (cmd : String) (args : List String) (hp : s.prepared = true) (hi : cmd ≠ "init")
    (hv : cmd ≠ "validate") :
    (∃ new, (terraformWrapper env cluster s cmd args).2.trace = new ++ s.trace ∧
      ∀ e ∈ new, e.isPrepareStep = false) ∧
    (Prepare env cluster s).1 = (Prepare env cluster { s with prepared := false }).1 ∧
    (Prepare env cluster s).2.trace =
      (Prepare env cluster { s with prepared := false }).2.trace ∧
    (ctxDone env s = false →
      ∃ new, (Prepare env cluster s).2.trace = new ++ Event.generateCode :: s.trace) := by
  refine ⟨terraformWrapper_prepared_no_prepare env cluster s cmd args hp hi hv, ?_, ?_,
    Prepare_generates_first env cluster s⟩
  · rw [Prepare_prepared env cluster s false]
  · rw [Prepare_prepared env cluster s false]

theorem prepared_session_skips_Prepare_witness :
    demoSt.prepared = true ∧
    ((∃ new, (terraformWrapper quietEnv demoCluster demoSt "destroy"
          ["-force", "-refresh=false"]).2.trace = new ++ demoSt.trace ∧
        ∀ e ∈ new, e.isPrepareStep = false) ∧
      (Prepare quietEnv demoCluster demoSt).1 =
        (Prepare quietEnv demoCluster { demoSt with prepared := false }).1 ∧
      (Prepare quietEnv demoCluster demoSt).2.trace =
        (Prepare quietEnv demoCluster { demoSt with prepared := false }).2.trace ∧
      (ctxDone quietEnv demoSt = false →
        ∃ new, (Prepare quietEnv demoCluster demoSt).2.trace =
          new ++ Event.generateCode :: demoSt.trace)) :=
  ⟨rfl, prepared_session_skips_Prepare quietEnv demoCluster demoSt "destroy"
    ["-force", "-refresh=false"] rfl (by decide) (by decide)⟩

/-- C17 evaluated where it fails: with `Plan.PlanFileStore` set to a file of
the caller and `Apply.PlanFileLocation` left at its default, `Plan` writes the
plan with `-out` to the caller's file and parses that file, and `Apply` then
hands the default plan path to `terraform apply`. -/
theorem Apply_applies_another_plan_file :
    (Apply storeEnv demoCluster demoSt).1 = (true, none) ∧
    (Apply storeEnv demoCluster demoSt).2.trace =
      [Event.rpcWait, Event.rpcStop, Event.childExit none,
       Event.childStart "/usr/bin/tarmak"
         ["terraform", "apply", "/cfg/terraform/terraform.plan"] "/cfg/terraform"
         ["TF_IN_AUTOMATION=1", "AWS_REGION=eu-west-1", "TF_LOG="],
       Event.log "info" "running apply",
       Event.rpcListen "/tmp/tarmak.sock1",
       Event.planRead "/tmp/custom.plan" { legacyArtifactStale := false, volumesToDestroy := [] },
       Event.childExit (some (.exitError 2)),
       Event.childStart "/usr/bin/tarmak"
         ["terraform", "plan", "-detailed-exitcode", "-input=false", "-out=/tmp/custom.plan"]
         "/cfg/terraform" ["TF_IN_AUTOMATION=1", "AWS_REGION=eu-west-1", "TF_LOG="],
       Event.log "info" "running plan",
       Event.rpcListen "/tmp/tarmak.sock1"] ∧
    ("/cfg/terraform/terraform.plan" : String) ≠ "/tmp/custom.plan" := by
  refine ⟨rfl, rfl, ?_⟩
  decide

/-- C18: when `Plan(cluster, true)` has returned changes needed and no error
and the cancellation context has fired by then, `Apply` returns
`(true, ctx.Err())`, adds nothing to the history, and no event of the call
starts a child with the terraform subcommand `apply`. -/
theorem Apply_cancelled_after_Plan (env : Env) (cluster : Cluster) (s s1 : St)
    (h : Plan env cluster s true = ((true, none), s1)) (hc : ctxDone env s1 = true) :
    Apply env cluster s = ((true, some env.ctxErr), { s1 with cancelled := true }) ∧
    ∃ new, (Apply env cluster s).2.trace = new ++ s.trace ∧
      ∀ e ∈ new, e.subcommand ≠ some "apply" := by
  have hA : Apply env cluster s = ((true, some env.ctxErr), { s1 with cancelled := true }) := by
    simp [Apply, h, hc]
  refine ⟨hA, ?_⟩
  have hp := Plan_ext env cluster s true
  rw [h] at hp
  obtain ⟨new, hnew, hq⟩ := hp
  rw [hA]
  exact ⟨new, hnew, fun e he => subcommand_of_planStep e (hq e he)⟩

theorem Apply_cancelled_after_Plan_witness :
    Plan promptCancelEnv demoCluster demoSt true =
        ((true, none), (Plan promptCancelEnv demoCluster demoSt true).2) ∧
    Event.prompt (destroyQuery ["vol-a", "vol-b"]) (some true) ∈
        (Plan promptCancelEnv demoCluster demoSt true).2.trace ∧
    ctxDone promptCancelEnv (Plan promptCancelEnv demoCluster demoSt true).2 = true ∧
    (Apply promptCancelEnv demoCluster demoSt =
        ((true, some promptCancelEnv.ctxErr),
          { (Plan promptCancelEnv demoCluster demoSt true).2 with cancelled := true }) ∧
      ∃ new, (Apply promptCancelEnv demoCluster demoSt).2.trace = new ++ demoSt.trace ∧
        ∀ e ∈ new, e.subcommand ≠ some "apply") :=
  ⟨rfl, by decide, rfl, Apply_cancelled_after_Plan promptCancelEnv demoCluster demoSt _ rfl rfl⟩

theorem command_child_env (env : Env) (cluster : Cluster) (s : St) (args : List String)
    (so se : Bool) :
    ∃ new, (command env cluster s args so se).2.trace = new ++ s.trace ∧
      ∀ b a d ev, Event.childStart b a d ev ∈ new →
        a = args ∧ ev = (envVars env cluster s).1 := by
  unfold command
  split
  · exact ⟨[], rfl, by simp⟩
  · rename_i ev0 heq
    have hev : (envVars env cluster s).1 = ev0 := by rw [heq]
    split
    · exact ⟨[], rfl, by simp⟩
    · split
      · exact ⟨[], rfl, by simp⟩
      · split
        · exact ⟨[], rfl, by simp⟩
        · split
          · exact ⟨[], rfl, by simp⟩
          · simp only [St.emit]
            split
            · refine ⟨[_, _, _], rfl, ?_⟩
              intro b a d ev hmem
              simp only [List.mem_cons, List.mem_singleton, List.not_mem_nil, or_false,
                reduceCtorEq, false_or, Event.childStart.injEq] at hmem
              exact ⟨hmem.2.1, by rw [hev]; exact hmem.2.2.2⟩
            · refine ⟨[_, _], rfl, ?_⟩
              intro b a d ev hmem
              simp only [List.mem_cons, List.mem_singleton, List.not_mem_nil, or_false,
                reduceCtorEq, false_or, Event.childStart.injEq] at hmem
              exact ⟨hmem.2.1, by rw [hev]; exact hmem.2.2.2⟩

/-- C19: when the provider hands out the list `E`, `envVars` returns
`["TF_IN_AUTOMATION=1"] ++ E ++ ["TF_LOG=" ++ v]` with `v` the parent's
`TF_LOG`; every child `command` starts gets exactly this list as its
environment; and once the executable is found, the pipes are made and the
child starts, `command` does start one child, with the given arguments, in the
code path, with exactly this list.  When the provider fails, `envVars` returns
the empty list and an error, and `command` returns that error with nothing
started. -/
theorem envVars_is_the_child_environment (env : Env) (cluster : Cluster) (s : St)
    (args : List String) (so se : Bool) :
    (∀ E, cluster.ProviderEnvironment s.trace = .ok E →
      envVars env cluster s =
        (["TF_IN_AUTOMATION=1"] ++ E ++ ["TF_LOG=" ++ env.getenv s.trace "TF_LOG"], none) ∧
      (∃ new, (command env cluster s args so se).2.trace = new ++ s.trace ∧
        ∀ b a d ev, Event.childStart b a d ev ∈ new →
          ev = ["TF_IN_AUTOMATION=1"] ++ E ++ ["TF_LOG=" ++ env.getenv s.trace "TF_LOG"]) ∧
      (∀ binaryPath, env.executable s.trace = .ok binaryPath →
        (so = true ∨ env.stdoutPipe s.trace = none) →
        (se = true ∨ env.stderrPipe s.trace = none) →
        env.start s.trace = none →
        ∃ pre, (command env cluster s args so se).2.trace =
            pre ++ Event.childStart binaryPath args (codePath env cluster)
              (["TF_IN_AUTOMATION=1"] ++ E ++ ["TF_LOG=" ++ env.getenv s.trace "TF_LOG"]) ::
              s.trace ∧
          ∀ e ∈ pre, ∀ b a d ev, e ≠ Event.childStart b a d ev)) ∧
    (∀ err, cluster.ProviderEnvironment s.trace = .error err →
      envVars env cluster s =
        ([], some (.errorString
          ("error getting environment secrets from provider: " ++ err.Error))) ∧
      command env cluster s args so se =
        ((some (.errorString
          ("error getting environment secrets from provider: " ++ err.Error)), []), s)) := by
  refine ⟨?_, ?_⟩
  · intro E hE
    have henv : envVars env cluster s =
        (["TF_IN_AUTOMATION=1"] ++ E ++ ["TF_LOG=" ++ env.getenv s.trace "TF_LOG"], none) := by
      simp [envVars, hE]
    refine ⟨henv, ?_, ?_⟩
    · obtain ⟨new, hnew, hq⟩ := command_child_env env cluster s args so se
      refine ⟨new, hnew, ?_⟩
      intro b a d ev hmem
      have h := (hq b a d ev hmem).2
      rw [henv] at h
      exact h
    · intro binaryPath hx hso hse hst
      have h1 : (if so = true then none else env.stdoutPipe s.trace) = none := by
        rcases hso with h | h <;> simp [h]
      have h2 : (if se = true then none else env.stderrPipe s.trace) = none := by
        rcases hse with h | h <;> simp [h]
      unfold command
      rw [henv]
      simp only [hx, h1, h2, hst, St.emit]
      split
      · exact ⟨[_, _], rfl, by simp⟩
      · exact ⟨[_], rfl, by simp⟩
  · intro err hE
    have henv : envVars env cluster s =
        ([], some (.errorString
          ("error getting environment secrets from provider: " ++ err.Error))) := by
      simp [envVars, hE]
    refine ⟨henv, ?_⟩
    unfold command
    rw [henv]

theorem envVars_is_the_child_environment_witness :
    envVars quietEnv demoCluster demoSt =
      (["TF_IN_AUTOMATION=1", "AWS_REGION=eu-west-1", "TF_LOG="], none) ∧
    (∃ pre, (command quietEnv demoCluster demoSt ["terraform", "destroy"] false false).2.trace =
        pre ++ Event.childStart "/usr/bin/tarmak" ["terraform", "destroy"] "/cfg/terraform"
          ["TF_IN_AUTOMATION=1", "AWS_REGION=eu-west-1", "TF_LOG="] :: demoSt.trace ∧
      ∀ e ∈ pre, ∀ b a d ev, e ≠ Event.childStart b a d ev) ∧
    command quietEnv
        { demoCluster with ProviderEnvironment := fun _ => .error (.foreign "no credentials") }
        demoSt ["terraform", "destroy"] false false =
      ((some (.errorString
        "error getting environment secrets from provider: no credentials"), []), demoSt) :=
  ⟨((envVars_is_the_child_environment quietEnv demoCluster demoSt ["terraform", "destroy"]
      false false).1 ["AWS_REGION=eu-west-1"] rfl).1,
   ((envVars_is_the_child_environment quietEnv demoCluster demoSt ["terraform", "destroy"]
      false false).1 ["AWS_REGION=eu-west-1"] rfl).2.2 "/usr/bin/tarmak" rfl (Or.inr rfl)
      (Or.inr rfl) rfl,
   ((envVars_is_the_child_environment quietEnv
      { demoCluster with ProviderEnvironment := fun _ => .error (.foreign "no credentials") }
      demoSt ["terraform", "destroy"] false false).2 (.foreign "no credentials") rfl).2⟩

/-- A run of `command` in the world `quietEnv`: the child is started with the
constructed environment and with nothing else. -/
theorem command_child_environment_run :
    (command quietEnv demoCluster demoSt ["terraform", "destroy"] false false).2.trace =
      [Event.childExit none,
       Event.childStart "/usr/bin/tarmak" ["terraform", "destroy"] "/cfg/terraform"
         ["TF_IN_AUTOMATION=1", "AWS_REGION=eu-west-1", "TF_LOG="]] :=
  rfl

theorem command_ok_waited (env : Env) (cluster : Cluster) (s s2 : St) (args lines : List String)
    (so se : Bool) (h : command env cluster s args so se = ((none, lines), s2)) :
    ∃ b d ev, ∃ t, s2.trace = Event.childExit none :: t ∧
      Event.childStart b args d ev ∈ t := by
  unfold command at h
  split at h
  · simp at h
  · split at h
    · simp at h
    · split at h
      · simp at h
      · split at h
        · simp at h
        · split at h
          · simp at h
          · simp only [St.emit] at h
            split at h
            · simp only [Prod.mk.injEq] at h
              obtain ⟨⟨he, -⟩, hs⟩ := h
              subst hs
              simp only [he]
              exact ⟨_, _, _, _, rfl, List.mem_cons_of_mem _ (List.mem_cons_self _ _)⟩
            · simp only [Prod.mk.injEq] at h
              obtain ⟨⟨he, -⟩, hs⟩ := h
              subst hs
              simp only [he]
              exact ⟨_, _, _, _, rfl, List.mem_cons_self _ _⟩

/-- The sibling path of the debug shell: for every other subcommand,
`terraformWrapper` returns nil only after the child it started has been waited
for with a nil error. -/
theorem terraformWrapper_returns_child_error (env : Env) (cluster : Cluster) (s s1 : St)
    (cmd : String) (args : List String) (hs : cmd ≠ debugShell) (he : cmd ≠ "")
    (h : terraformWrapper env cluster s cmd args = (none, s1)) :
    ∃ b d ev, ∃ t, s1.trace = Event.rpcWait :: Event.rpcStop :: Event.childExit none :: t ∧
      Event.childStart b ("terraform" :: cmd :: args) d ev ∈ t := by
  unfold terraformWrapper at h
  split at h
  · simp at h
  · split at h
    · simp at h
    · unfold runWrapped at h
      simp only [hs, if_false, he, ne_eq, not_false_eq_true, if_true] at h
      split at h
      · simp at h
      · rename_i lines s3 heq
        simp only [Prod.mk.injEq, true_and] at h
        subst h
        obtain ⟨b, d, ev, t, ht, hm⟩ := command_ok_waited env cluster _ s3 _ lines false false heq
        exact ⟨b, d, ev, t, by simp [stopRpc, St.emit, ht], hm⟩

/-- C20 evaluated where it fails: the debug shell ends with exit status 1,
`cmd.Run()` hands that error back, and `Shell` returns nil. -/
theorem Shell_swallows_shell_error :
    Shell shellFailEnv demoCluster demoSt =
      (none,
       { demoSt with
         trace :=
           [Event.rpcWait, Event.rpcStop, Event.shellExit (some (.exitError 1)),
            Event.shellRun "/bin/sh" "/cfg/terraform"
              ["TF_IN_AUTOMATION=1", "AWS_REGION=eu-west-1", "TF_LOG=", "PS1=[/cfg/terraform]$ "],
            Event.log "info" "running debug-shell",
            Event.rpcListen "/tmp/tarmak.sock1"] }) :=
  rfl

theorem stringsContains_of_data (s b : String) (a c : List Char)
    (h : s.data = a ++ b.data ++ c) : stringsContains s b = true := by
  simp only [stringsContains, decide_eq_true_eq]
  exact ⟨a, c, h.symm⟩

theorem terraformWrapper_on_prepared (env : Env) (cluster : Cluster) (s : St) (cmd : String)
    (args : List String) (hsock : s.socketPath ≠ "") (hp : s.prepared = true) :
    terraformWrapper env cluster s cmd args = runWrapped env cluster s cmd args := by
  simp [terraformWrapper, ensureSocketPath, ensurePrepared, hsock, hp]

/-- C21 evaluated where it fails: on a prepared session the `destroy` child
exits with status 1, and `Destroy` returns the child's error itself, whose
message is `exit status 1` and names no step. -/
theorem Destroy_error_lacks_step_name :
    Destroy failEnv demoCluster demoSt =
      (some (.exitError 1),
       { demoSt with
         trace :=
           [Event.childExit (some (.exitError 1)),
            Event.childStart "/usr/bin/tarmak" ["terraform", "destroy", "-force", "-refresh=false"]
              "/cfg/terraform" ["TF_IN_AUTOMATION=1", "AWS_REGION=eu-west-1", "TF_LOG="],
            Event.log "info" "running destroy",
            Event.rpcListen "/tmp/tarmak.sock1"] }) ∧
    (GoError.exitError 1).Error = "exit status 1" ∧
    stringsContains (GoError.exitError 1).Error "destroy" = false := by
  refine ⟨rfl, rfl, ?_⟩
  decide

/-- C21, amended: the set-up steps `init` and `validate` are the ones whose
failure is wrapped with the step's name: when the command of a set-up step
returns an error, `Prepare`'s loop returns `error running terraform <name>:
<error><further context>`, which contains the name, and `terraformWrapper`
puts `failed to prepare terraform: ` in front of what `Prepare` returns.  For
a subcommand run through `terraformWrapper` on a prepared session (`plan`,
`taint`, `apply`, `destroy`, `force-unlock`) the error returned is the error of
the command itself, unwrapped. -/
theorem subprocess_error_is_wrapped_for_setup_steps_only (env : Env) (cluster : Cluster)
    (s : St) :
    (∀ (c : setupCommand) (rest : List setupCommand) (fec : String) (err : GoError)
        (lines : List String) (s2 : St),
      command env cluster (s.emit (.log "info" c.log)) c.args false true =
        ((some err, lines), s2) →
      prepareLoop env cluster (c :: rest) fec s =
        (some (.errorString ("error running terraform " ++ c.name ++ ": " ++ err.Error ++
          scanStderr fec lines)), s2) ∧
      stringsContains ("failed to prepare terraform: " ++
        (GoError.errorString ("error running terraform " ++ c.name ++ ": " ++ err.Error ++
          scanStderr fec lines)).Error) c.name = true) ∧
    (∀ (err : GoError) (s1 : St), s.prepared = false →
      Prepare env cluster s = (some err, s1) →
      ensurePrepared env cluster s =
        (some (.errorString ("failed to prepare terraform: " ++ err.Error)), s1)) ∧
    (∀ (cmd : String) (args : List String) (err : GoError) (lines : List String) (s2 : St),
      s.socketPath ≠ "" → s.prepared = true → cmd ≠ debugShell → cmd ≠ "" →
      command env cluster
          ((s.emit (.rpcListen s.socketPath)).emit (.log "info" ("running " ++ cmd)))
          ("terraform" :: cmd :: args) false false = ((some err, lines), s2) →
      terraformWrapper env cluster s cmd args = (some err, s2)) := by
  refine ⟨?_, ?_, ?_⟩
  · intro c rest fec err lines s2 h
    refine ⟨?_, ?_⟩
    · rw [prepareLoop]
      simp only [h]
    · refine stringsContains_of_data _ _
        ("failed to prepare terraform: error running terraform ").data
        ((": " ++ err.Error ++ scanStderr fec lines).data) ?_
      simp [GoError.Error, String.data_append, List.append_assoc]
  · intro err s1 hp h
    simp [ensurePrepared, hp, h]
  · intro cmd args err lines s2 hsock hp hs he h
    rw [terraformWrapper_on_prepared env cluster s cmd args hsock hp]
    simp [runWrapped, hs, he, h]

theorem subprocess_error_is_wrapped_for_setup_steps_only_witness :
    (prepareLoop failEnv demoCluster setupCommands "" demoSt).1 =
        some (.errorString "error running terraform init: exit status 1") ∧
    stringsContains "failed to prepare terraform: error running terraform init: exit status 1"
        "init" = true ∧
    ensurePrepared failEnv demoCluster { demoSt with prepared := false } =
        (some (.errorString
          "failed to prepare terraform: error running terraform init: exit status 1"),
          (Prepare failEnv demoCluster { demoSt with prepared := false }).2) ∧
    (ForceUnlock failEnv demoCluster demoSt "lock-1").1 = some (.exitError 1) :=
  ⟨congrArg Prod.fst
      (((subprocess_error_is_wrapped_for_setup_steps_only failEnv demoCluster demoSt).1
        { log := "initialising terraform", name := "init",
          args := ["terraform", "init", "-get-plugins=false", "-input=false"] }
        [{ log := "validating terraform code", name := "validate",
           args := ["terraform", "validate"] }] "" (.exitError 1) [] _ rfl).1),
   ((subprocess_error_is_wrapped_for_setup_steps_only failEnv demoCluster demoSt).1
        { log := "initialising terraform", name := "init",
          args := ["terraform", "init", "-get-plugins=false", "-input=false"] }
        [] "" (.exitError 1) [] _ rfl).2,
   (subprocess_error_is_wrapped_for_setup_steps_only failEnv demoCluster
      { demoSt with prepared := false }).2.1 _ _ rfl rfl,
   congrArg Prod.fst
     ((subprocess_error_is_wrapped_for_setup_steps_only failEnv demoCluster demoSt).2.2
       "force-unlock" ["-force", "lock-1"] (.exitError 1) [] _ (by decide) rfl (by decide)
       (by decide) rfl)⟩

theorem command_ok_trace (env : Env) (cluster : Cluster) (s s2 : St) (args lines : List String)
    (so se : Bool) (h : command env cluster s args so se = ((none, lines), s2)) :
    ∃ b d ev pre, s2.trace = pre ++ Event.childStart b args d ev :: s.trace := by
  unfold command at h
  split at h
  · simp at h
  · split at h
    · simp at h
    · split at h
      · simp at h
      · split at h
        · simp at h
        · split at h
          · simp at h
          · simp only [St.emit] at h
            split at h
            · simp only [Prod.mk.injEq] at h
              obtain ⟨-, hs⟩ := h
              subst hs
              exact ⟨_, _, _, [_, _], rfl⟩
            · simp only [Prod.mk.injEq] at h
              obtain ⟨-, hs⟩ := h
              subst hs
              exact ⟨_, _, _, [_], rfl⟩

/-- When `terraformWrapper` returns nil for a subcommand, the start of that
subcommand's child is among the events the call added. -/
theorem terraformWrapper_ok_child_new (env : Env) (cluster : Cluster) (s s1 : St)
    (cmd : String) (args : List String) (hs : cmd ≠ debugShell) (he : cmd ≠ "")
    (h : terraformWrapper env cluster s cmd args = (none, s1)) :
    ∃ b d ev pre post,
      s1.trace = pre ++ Event.childStart b ("terraform" :: cmd :: args) d ev :: (post ++ s.trace) := by
  have h1 := (ensureSocketPath_ext env s []).grows
  unfold terraformWrapper at h
  split at h
  · simp at h
  · rename_i sa heq
    rw [heq] at h1
    obtain ⟨n1, hn1⟩ := h1
    have h2 := (ensurePrepared_ext env cluster sa ["init", "validate"] (by simp) (by simp)).grows
    split at h
    · simp at h
    · rename_i sb heq2
      rw [heq2] at h2
      obtain ⟨n2, hn2⟩ := h2
      unfold runWrapped at h
      simp only [hs, if_false, he, ne_eq, not_false_eq_true, if_true] at h
      split at h
      · simp at h
      · rename_i lines s3 heq3
        simp only [Prod.mk.injEq, true_and] at h
        subst h
        obtain ⟨b, d, ev, pre, hpre⟩ := command_ok_trace env cluster _ s3 _ lines false false heq3
        refine ⟨b, d, ev, Event.rpcWait :: Event.rpcStop :: pre,
          Event.log "info" ("running " ++ cmd) :: Event.rpcListen sb.socketPath :: (n2 ++ n1), ?_⟩
        simp only at hn1 hn2
        simp [stopRpc, St.emit, hpre, hn2, hn1]

/-- C23: `errIsTerraformPlanChangesNeeded` holds of exactly the exit error
with status 2 (so not of nil); `planWrapper` reports no changes when the
wrapped `terraform plan -detailed-exitcode` returns nil, reports changes with
the parsed plan and no error when it returns the exit error of status 2 and
the plan file parses, and returns `(false, nil, err)` for every other error. -/
theorem planWrapper_tri_state (env : Env) (cluster : Cluster) (s : St) (planPath : String)
    (err : Option GoError) :
    (errIsTerraformPlanChangesNeeded err = true ↔ err = some (.exitError 2)) ∧
    errIsTerraformPlanChangesNeeded none = false ∧
    match terraformWrapper env cluster s "plan"
        ["-detailed-exitcode", "-input=false", "-out=" ++ planPath] with
    | (none, s1) =>
      (planWrapper env cluster s planPath).1.1 = false ∧
      match env.planNew s1.trace planPath with
      | .ok p =>
          planWrapper env cluster s planPath =
            ((false, .ok p), s1.emit (.planRead planPath p))
      | .error e =>
          planWrapper env cluster s planPath =
            ((false, .error (.errorString ("error while trying to read plan file: " ++ e.Error))),
              s1.emit (.planReadFailed planPath))
    | (some werr, s1) =>
      if werr = .exitError 2 then
        (planWrapper env cluster s planPath).1.1 = true ∧
        match env.planNew s1.trace planPath with
        | .ok p =>
            planWrapper env cluster s planPath =
              ((true, .ok p), s1.emit (.planRead planPath p))
        | .error e =>
            planWrapper env cluster s planPath =
              ((true, .error (.errorString ("error while trying to read plan file: " ++ e.Error))),
                s1.emit (.planReadFailed planPath))
      else planWrapper env cluster s planPath = ((false, .error werr), s1) := by
  refine ⟨?_, rfl, ?_⟩
  · cases err with
    | none => simp [errIsTerraformPlanChangesNeeded]
    | some e => cases e <;> simp [errIsTerraformPlanChangesNeeded]
  · unfold planWrapper
    cases hw : terraformWrapper env cluster s "plan"
        ["-detailed-exitcode", "-input=false", "-out=" ++ planPath] with
    | mk e s1 =>
      cases e with
      | none =>
        simp only [readPlan]
        cases hp : env.planNew s1.trace planPath <;> simp
      | some werr =>
        by_cases h2 : werr = .exitError 2
        · subst h2
          simp only [errIsTerraformPlanChangesNeeded, beq_self_eq_true, if_true, readPlan]
          cases hp : env.planNew s1.trace planPath <;> simp
        · have hno : errIsTerraformPlanChangesNeeded (some werr) = false := by
            cases werr <;> simp_all [errIsTerraformPlanChangesNeeded]
          simp [hno, h2]

/-- Four runs of `planWrapper` on a prepared session: the plan child exits with
status 0, with status 2, with status 1, and killed by the forwarded signal. -/
theorem planWrapper_runs :
    (planWrapper quietEnv demoCluster demoSt "/cfg/terraform/terraform.plan").1 =
      (false, .ok { legacyArtifactStale := false, volumesToDestroy := [] }) ∧
    (planWrapper (destroyEnv false false false) demoCluster demoSt
        "/cfg/terraform/terraform.plan").1 =
      (true, .ok { legacyArtifactStale := false, volumesToDestroy := ["vol-a", "vol-b"] }) ∧
    (planWrapper failEnv demoCluster demoSt "/cfg/terraform/terraform.plan").1 =
      (false, .error (.exitError 1)) ∧
    (planWrapper cancelEnv demoCluster demoSt "/cfg/terraform/terraform.plan").1 =
      (false, .error (.signaled "interrupt")) ∧
    Event.childExit (some (.exitError 2)) ∈
      (planWrapper (destroyEnv false false false) demoCluster demoSt
        "/cfg/terraform/terraform.plan").2.trace := by
  refine ⟨rfl, rfl, rfl, rfl, ?_⟩
  decide

theorem planVolumes_changesNeeded (env : Env) (s : St) (preApply cn : Bool) (p : plan.Plan) :
    (planVolumes env s preApply cn p).1.1 = cn := by
  unfold planVolumes
  simp only [plan.Plan.IsDestroyingEBSVolume]
  repeat' split
  all_goals rfl

theorem taintStep_no_plan (e : Event) (h : e.engineStep ["init", "validate", "taint"] = true) :
    e.subcommand ≠ some "plan" ∧ e.isPlanRead = false ∧ e.isPrompt = false := by
  cases e with
  | childStart b args d ev =>
    match args with
    | [] => simp [Event.subcommand, Event.isPlanRead, Event.isPrompt]
    | [_] => simp [Event.subcommand, Event.isPlanRead, Event.isPrompt]
    | _ :: c :: _ =>
      simp only [Event.engineStep, decide_eq_true_eq] at h
      refine ⟨?_, rfl, rfl⟩
      simp only [Event.subcommand, ne_eq, Option.some.injEq]
      rintro rfl
      simp at h
  | _ => simp_all [Event.subcommand, Event.isPlanRead, Event.isPrompt, Event.engineStep]

/-- C24: when the plan parsed first reports the legacy artifact as stale,
`Plan` calls `terraformWrapper` with `taint -allow-missing -module=kubernetes
<LegacyPuppetTFName>`.  If that returns an error, `Plan` returns it (with the
first plan's `changesNeeded`), and the events since the first plan hold no
plan child, no read of a plan file and no prompt.  If it returns nil, the
start of the taint child is among the events since the first plan, and `Plan`
goes on with `planWrapper` on the same plan path: an error of the second plan
is returned, and otherwise the volume decision is taken on the plan parsed
second, in a history whose newest event is the read of that plan on top of
the taint, and the `changesNeeded` returned is the one of the second plan. -/
theorem Plan_taints_then_replans (env : Env) (cluster : Cluster) (s s1 : St)
    (preApply cn : Bool) (planPath : String) (tfPlan : plan.Plan)
    (h1 : planFirst env cluster s preApply = ((cn, .ok (planPath, tfPlan)), s1))
    (hp : tfPlan.UpdatingPuppet = true) :
    (∀ err s2,
      terraformWrapper env cluster
          (s1.emit (.log "info" "tainting legacy s3 puppet module object to force update"))
          "taint" ["-allow-missing", "-module=kubernetes", cluster.LegacyPuppetTFName] =
        (some err, s2) →
      Plan env cluster s preApply = ((cn, some err), s2) ∧
      ∃ new, s2.trace = new ++ s1.trace ∧
        ∀ e ∈ new, e.subcommand ≠ some "plan" ∧ e.isPlanRead = false ∧ e.isPrompt = false) ∧
    (∀ s2,
      terraformWrapper env cluster
          (s1.emit (.log "info" "tainting legacy s3 puppet module object to force update"))
          "taint" ["-allow-missing", "-module=kubernetes", cluster.LegacyPuppetTFName] =
        (none, s2) →
      (∃ b d ev pre post,
        s2.trace = pre ++ Event.childStart b
          ["terraform", "taint", "-allow-missing", "-module=kubernetes",
            cluster.LegacyPuppetTFName] d ev :: (post ++ s1.trace)) ∧
      (∀ cn2 err s3,
        planWrapper env cluster
            (s2.emit (.log "info" "running plan again to update plan file against new state"))
            planPath = ((cn2, .error err), s3) →
        Plan env cluster s preApply = ((cn2, some err), s3)) ∧
      (∀ cn2 p2 s3,
        planWrapper env cluster
            (s2.emit (.log "info" "running plan again to update plan file against new state"))
            planPath = ((cn2, .ok p2), s3) →
        Plan env cluster s preApply = planVolumes env s3 preApply cn2 p2 ∧
        (planVolumes env s3 preApply cn2 p2).1.1 = cn2 ∧
        ∃ path mid, s3.trace = Event.planRead path p2 :: (mid ++ s2.trace))) := by
  refine ⟨?_, ?_⟩
  · intro err s2 ht
    refine ⟨by simp [Plan, planParsed, h1, planRetaint, hp, ht], ?_⟩
    have hw := terraformWrapper_ext env cluster
      (s1.emit (.log "info" "tainting legacy s3 puppet module object to force update"))
      "taint" ["-allow-missing", "-module=kubernetes", cluster.LegacyPuppetTFName]
      ["init", "validate", "taint"] (by simp) (by simp) (by simp)
    rw [ht] at hw
    obtain ⟨new, hnew, hq⟩ := hw
    simp only [St.emit] at hnew
    refine ⟨new ++ [Event.log "info" "tainting legacy s3 puppet module object to force update"],
      by simp [hnew], ?_⟩
    intro e he
    rcases List.mem_append.mp he with he | he
    · exact taintStep_no_plan e (hq e he)
    · simp only [List.mem_singleton] at he
      subst he
      simp [Event.subcommand, Event.isPlanRead, Event.isPrompt]
  · intro s2 ht
    refine ⟨?_, ?_, ?_⟩
    · obtain ⟨b, d, ev, pre, post, h⟩ := terraformWrapper_ok_child_new env cluster _ s2 "taint" _
        (by decide) (by decide) ht
      exact ⟨b, d, ev, pre,
        post ++ [Event.log "info" "tainting legacy s3 puppet module object to force update"],
        by simp [h, St.emit]⟩
    · intro cn2 err s3 hpw
      simp [Plan, planParsed, h1, planRetaint, hp, ht, hpw]
    · intro cn2 p2 s3 hpw
      refine ⟨by simp [Plan, planParsed, h1, planRetaint, hp, ht, hpw],
        planVolumes_changesNeeded env s3 preApply cn2 p2, ?_⟩
      have hs := (planWrapper_spec env cluster
        (s2.emit (.log "info" "running plan again to update plan file against new state"))
        planPath).2 p2 (by rw [hpw])
      rw [hpw] at hs
      obtain ⟨path, mid, hmid, -⟩ := hs
      simp only [St.emit] at hmid
      exact ⟨path,
        mid ++ [Event.log "info" "running plan again to update plan file against new state"],
        by simp [hmid]⟩

theorem Plan_taints_then_replans_witness :
    (Plan taintFailEnv demoCluster demoSt false =
        ((true, some (.exitError 1)),
          (Plan taintFailEnv demoCluster demoSt false).2) ∧
      ∃ new, (Plan taintFailEnv demoCluster demoSt false).2.trace =
          new ++ (planFirst taintFailEnv demoCluster demoSt false).2.trace ∧
        ∀ e ∈ new, e.subcommand ≠ some "plan" ∧ e.isPlanRead = false ∧ e.isPrompt = false) ∧
    (Plan (staleEnv "default") demoCluster demoSt false =
        planVolumes (staleEnv "default")
          (Plan (staleEnv "default") demoCluster demoSt false).2 false true
          { legacyArtifactStale := false, volumesToDestroy := ["vol-a"] } ∧
      (Plan (staleEnv "default") demoCluster demoSt false).1 =
        (true, some (.errorString
          "the following EBS volumes will be destroyed during the next apply: [vol-a]"))) :=
  ⟨(Plan_taints_then_replans taintFailEnv demoCluster demoSt _ false true
      "/cfg/terraform/terraform.plan" { legacyArtifactStale := true, volumesToDestroy := [] }
      rfl rfl).1 (.exitError 1) _ rfl,
   ⟨(((Plan_taints_then_replans (staleEnv "default") demoCluster demoSt _ false true
      "/cfg/terraform/terraform.plan" { legacyArtifactStale := true, volumesToDestroy := [] }
      rfl rfl).2 _ rfl).2.2 true { legacyArtifactStale := false, volumesToDestroy := ["vol-a"] }
      _ rfl).1, rfl⟩⟩

/-- C30 evaluated where it fails: `Apply.PlanFileLocation` names the caller's
file `/tmp/my.plan`, which parses to a plan with a stale legacy artifact.
`Plan(cluster, true)` reads it, taints, and then runs `terraform plan` with
`-out=/tmp/my.plan`. -/
theorem Plan_rewrites_custom_plan_file :
    (staleEnv "/tmp/my.plan").flags.Apply.PlanFileLocation ≠
      (staleEnv "/tmp/my.plan").DefaultPlanLocationPlaceholder ∧
    (Plan (staleEnv "/tmp/my.plan") demoCluster demoSt true).2.trace =
      [Event.prompt
         "the following EBS volumes will be destroyed during the next apply: [vol-a]\nThis cannot be undone. Are you sure you want to continue?"
         (some false),
       Event.planRead "/tmp/my.plan" { legacyArtifactStale := false, volumesToDestroy := ["vol-a"] },
       Event.childExit (some (.exitError 2)),
       Event.childStart "/usr/bin/tarmak"
         ["terraform", "plan", "-detailed-exitcode", "-input=false", "-out=/tmp/my.plan"]
         "/cfg/terraform" ["TF_IN_AUTOMATION=1", "AWS_REGION=eu-west-1", "TF_LOG="],
       Event.log "info" "running plan",
       Event.rpcListen "/tmp/tarmak.sock1",
       Event.log "info" "running plan again to update plan file against new state",
       Event.rpcWait, Event.rpcStop, Event.childExit none,
       Event.childStart "/usr/bin/tarmak"
         ["terraform", "taint", "-allow-missing", "-module=kubernetes",
           "aws_s3_bucket_object.puppet-tar-gz"]
         "/cfg/terraform" ["TF_IN_AUTOMATION=1", "AWS_REGION=eu-west-1", "TF_LOG="],
       Event.log "info" "running taint",
       Event.rpcListen "/tmp/tarmak.sock1",
       Event.log "info" "tainting legacy s3 puppet module object to force update",
       Event.planRead "/tmp/my.plan" { legacyArtifactStale := true, volumesToDestroy := [] },
       Event.log "info" "using custom plan file /tmp/my.plan"] ∧
    ∃ e ∈ (Plan (staleEnv "/tmp/my.plan") demoCluster demoSt true).2.trace,
      e.subcommand = some "plan" := by
  refine ⟨by decide, rfl, ?_⟩
  decide

/-- C30, amended: with `preApply` true and `Apply.PlanFileLocation` other than
the default placeholder, `Plan` reads the caller's file first.  If the read
fails `Plan` returns the wrapped error.  If the plan read does not report the
legacy artifact as stale, `Plan` goes straight to the volume decision on that
plan, and no event of the call starts a child.  If it reports the legacy
artifact as stale and the taint returns nil, `Plan` goes on with `planWrapper`
on the caller's path, that is `terraform plan` with `-out=` the caller's
file, and decides on the plan parsed after that. -/
theorem Plan_custom_file_read_only_unless_stale (env : Env) (cluster : Cluster) (s : St)
    (hc : env.flags.Apply.PlanFileLocation ≠ env.DefaultPlanLocationPlaceholder) :
    (∀ e,
      env.planNew
          (s.emit (.log "info" ("using custom plan file " ++ env.flags.Apply.PlanFileLocation))).trace
          env.flags.Apply.PlanFileLocation = .error e →
      Plan env cluster s true =
        ((true, some (.errorString ("error while trying to read plan file: " ++ e.Error))),
          (s.emit (.log "info"
            ("using custom plan file " ++ env.flags.Apply.PlanFileLocation))).emit
            (.planReadFailed env.flags.Apply.PlanFileLocation))) ∧
    (∀ p,
      env.planNew
          (s.emit (.log "info" ("using custom plan file " ++ env.flags.Apply.PlanFileLocation))).trace
          env.flags.Apply.PlanFileLocation = .ok p →
      p.UpdatingPuppet = false →
      Plan env cluster s true =
        planVolumes env
          ((s.emit (.log "info"
            ("using custom plan file " ++ env.flags.Apply.PlanFileLocation))).emit
            (.planRead env.flags.Apply.PlanFileLocation p)) true true p ∧
      ∃ new, (Plan env cluster s true).2.trace = new ++ s.trace ∧
        ∀ e ∈ new, e.subcommand = none) ∧
    (∀ p s2,
      env.planNew
          (s.emit (.log "info" ("using custom plan file " ++ env.flags.Apply.PlanFileLocation))).trace
          env.flags.Apply.PlanFileLocation = .ok p →
      p.UpdatingPuppet = true →
      terraformWrapper env cluster
          (((s.emit (.log "info"
            ("using custom plan file " ++ env.flags.Apply.PlanFileLocation))).emit
            (.planRead env.flags.Apply.PlanFileLocation p)).emit
            (.log "info" "tainting legacy s3 puppet module object to force update"))
          "taint" ["-allow-missing", "-module=kubernetes", cluster.LegacyPuppetTFName] =
        (none, s2) →
      Plan env cluster s true =
        match planWrapper env cluster
            (s2.emit (.log "info" "running plan again to update plan file against new state"))
            env.flags.Apply.PlanFileLocation with
        | ((cn2, .error err), s3) => ((cn2, some err), s3)
        | ((cn2, .ok p2), s3) => planVolumes env s3 true cn2 p2) := by
  have hfirst : ∀ p,
      env.planNew
          (s.emit (.log "info" ("using custom plan file " ++ env.flags.Apply.PlanFileLocation))).trace
          env.flags.Apply.PlanFileLocation = .ok p →
      planFirst env cluster s true =
        ((true, .ok (env.flags.Apply.PlanFileLocation, p)),
          (s.emit (.log "info"
            ("using custom plan file " ++ env.flags.Apply.PlanFileLocation))).emit
            (.planRead env.flags.Apply.PlanFileLocation p)) := by
    intro p h
    simp [planFirst, hc, h]
  refine ⟨?_, ?_, ?_⟩
  · intro e h
    simp [Plan, planParsed, planFirst, hc, h]
  · intro p h hstale
    have hP : Plan env cluster s true =
        planVolumes env
          ((s.emit (.log "info"
            ("using custom plan file " ++ env.flags.Apply.PlanFileLocation))).emit
            (.planRead env.flags.Apply.PlanFileLocation p)) true true p := by
      simp [Plan, planParsed, hfirst p h, planRetaint, hstale]
    refine ⟨hP, ?_⟩
    rw [hP]
    obtain ⟨new, hnew, hq⟩ := planVolumes_ext env
      ((s.emit (.log "info"
        ("using custom plan file " ++ env.flags.Apply.PlanFileLocation))).emit
        (.planRead env.flags.Apply.PlanFileLocation p)) true true p
    refine ⟨new ++ [Event.planRead env.flags.Apply.PlanFileLocation p,
      Event.log "info" ("using custom plan file " ++ env.flags.Apply.PlanFileLocation)],
      by rw [hnew]; simp [St.emit], ?_⟩
    intro e he
    rcases List.mem_append.mp he with he | he
    · exact (hq e he).2.2
    · simp only [List.mem_cons, List.mem_singleton, List.not_mem_nil, or_false] at he
      rcases he with rfl | rfl <;> rfl
  · intro p s2 h hstale ht
    simp only [Plan, planParsed, hfirst p h, planRetaint, hstale, if_true, ht]

theorem Plan_custom_file_read_only_unless_stale_witness :
    customEnv.flags.Apply.PlanFileLocation ≠ customEnv.DefaultPlanLocationPlaceholder ∧
    (Plan customEnv demoCluster demoSt true =
        planVolumes customEnv
          { demoSt with
            trace :=
              [Event.planRead "/tmp/my.plan" { legacyArtifactStale := false, volumesToDestroy := [] },
               Event.log "info" "using custom plan file /tmp/my.plan"] } true true
          { legacyArtifactStale := false, volumesToDestroy := [] } ∧
      ∃ new, (Plan customEnv demoCluster demoSt true).2.trace = new ++ demoSt.trace ∧
        ∀ e ∈ new, e.subcommand = none) ∧
    (Plan customEnv demoCluster demoSt true).2.trace =
      [Event.planRead "/tmp/my.plan" { legacyArtifactStale := false, volumesToDestroy := [] },
       Event.log "info" "using custom plan file /tmp/my.plan"] :=
  ⟨by decide,
   (Plan_custom_file_read_only_unless_stale customEnv demoCluster demoSt (by decide)).2.1
     { legacyArtifactStale := false, volumesToDestroy := [] } rfl rfl,
   rfl⟩

theorem checkDone_frame (env : Env) (s : St) :
    (checkDone env s).2.prepared = s.prepared ∧
    (checkDone env s).2.socketPath = s.socketPath := by
  unfold checkDone
  split <;> exact ⟨rfl, rfl⟩

theorem command_frame (env : Env) (cluster : Cluster) (s : St) (args : List String)
    (so se : Bool) :
    (command env cluster s args so se).2.prepared = s.prepared ∧
    (command env cluster s args so se).2.socketPath = s.socketPath := by
  unfold command
  repeat' split
  all_goals first
    | exact ⟨rfl, rfl⟩
    | (simp only [St.emit]
       split <;> exact ⟨rfl, rfl⟩)

theorem prepareLoop_frame (env : Env) (cluster : Cluster) (l : List setupCommand) :
    ∀ (fec : String) (s : St),
      (prepareLoop env cluster l fec s).2.prepared = s.prepared ∧
      (prepareLoop env cluster l fec s).2.socketPath = s.socketPath := by
  induction l with
  | nil => intro fec s; exact ⟨rfl, rfl⟩
  | cons c rest ih =>
    intro fec s
    have hc := command_frame env cluster (s.emit (.log "info" c.log)) c.args false true
    rw [prepareLoop]
    cases hres : command env cluster (s.emit (.log "info" c.log)) c.args false true with
    | mk r s2 =>
      rw [hres] at hc
      obtain ⟨err, lines⟩ := r
      cases err with
      | some e => exact hc
      | none =>
        simp only
        have hd := checkDone_frame env s2
        cases hcd : checkDone env s2 with
        | mk e2 s3 =>
          rw [hcd] at hd
          cases e2 with
          | some e => exact ⟨hd.1.trans hc.1, hd.2.trans hc.2⟩
          | none =>
            simp only
            have hi := ih (scanStderr fec lines) s3
            exact ⟨hi.1.trans (hd.1.trans hc.1), hi.2.trans (hd.2.trans hc.2)⟩

theorem Prepare_frame (env : Env) (cluster : Cluster) (s : St) :
    (Prepare env cluster s).2.prepared = s.prepared ∧
    (Prepare env cluster s).2.socketPath = s.socketPath := by
  unfold Prepare
  have h1 := checkDone_frame env s
  cases hc1 : checkDone env s with
  | mk e1 s1 =>
    rw [hc1] at h1
    cases e1 with
    | some e => exact h1
    | none =>
      simp only
      cases hg : env.generateCode s1.trace with
      | some e => exact h1
      | none =>
        simp only
        have h2 := checkDone_frame env (s1.emit .generateCode)
        cases hc2 : checkDone env (s1.emit .generateCode) with
        | mk e2 s2 =>
          rw [hc2] at h2
          have h2b : s2.prepared = s.prepared ∧ s2.socketPath = s.socketPath :=
            ⟨h2.1.trans h1.1, h2.2.trans h1.2⟩
          cases e2 with
          | some e => exact h2b
          | none =>
            simp only
            cases hpp : env.preparePlugins s2.trace with
            | some e => exact h2b
            | none =>
              simp only
              have h3 := checkDone_frame env (s2.emit .preparePlugins)
              cases hc3 : checkDone env (s2.emit .preparePlugins) with
              | mk e3 s3 =>
                rw [hc3] at h3
                have h3b : s3.prepared = s.prepared ∧ s3.socketPath = s.socketPath :=
                  ⟨h3.1.trans h2b.1, h3.2.trans h2b.2⟩
                cases e3 with
                | some e => exact h3b
                | none =>
                  simp only
                  have hl := prepareLoop_frame env cluster setupCommands "" s3
                  exact ⟨hl.1.trans h3b.1, hl.2.trans h3b.2⟩

theorem Prepare_kept (env : Env) (cluster : Cluster) (s : St) :
    SessionKept env cluster s (Prepare env cluster s).2 :=
  SessionKept.of_same
    (Prepare_ext env cluster s ["init", "validate"] (by simp) (by simp)).grows
    (Prepare_frame env cluster s).1 (Prepare_frame env cluster s).2

theorem ensureSocketPath_kept (env : Env) (cluster : Cluster) (s : St) :
    SessionKept env cluster s (ensureSocketPath env s).2 := by
  refine ⟨(ensureSocketPath_ext env s []).grows, ?_, ?_, ?_⟩
  · intro h
    unfold ensureSocketPath
    repeat' split
    all_goals exact h
  · intro h
    simp [ensureSocketPath, h]
  · intro h1 h2
    exfalso
    have : (ensureSocketPath env s).2.prepared = s.prepared := by
      unfold ensureSocketPath
      repeat' split
      all_goals rfl
    rw [this, h1] at h2
    cases h2

theorem ensurePrepared_kept (env : Env) (cluster : Cluster) (s : St) :
    SessionKept env cluster s (ensurePrepared env cluster s).2 := by
  cases hp : s.prepared with
  | true =>
    have : ensurePrepared env cluster s = (none, s) := by simp [ensurePrepared, hp]
    rw [this]
    exact SessionKept.stay env cluster s
  | false =>
    have hk := Prepare_kept env cluster s
    have hf := Prepare_frame env cluster s
    cases hres : Prepare env cluster s with
    | mk e s1 =>
      rw [hres] at hk hf
      cases e with
      | some err =>
        have : ensurePrepared env cluster s =
            (some (.errorString ("failed to prepare terraform: " ++ err.Error)), s1) := by
          simp [ensurePrepared, hp, hres]
        rw [this]
        exact hk
      | none =>
        have : ensurePrepared env cluster s = (none, { s1 with prepared := true }) := by
          simp [ensurePrepared, hp, hres]
        rw [this]
        refine ⟨hk.1, fun _ => rfl, fun h => hk.2.2.1 h, ?_⟩
        intro _ _
        exact ⟨s, s1, hp, hres, ⟨[], rfl⟩, ⟨[], rfl⟩⟩

theorem runWrapped_frame (env : Env) (cluster : Cluster) (s : St) (cmd : String)
    (args : List String) :
    (runWrapped env cluster s cmd args).2.prepared = s.prepared ∧
    (runWrapped env cluster s cmd args).2.socketPath = s.socketPath := by
  have hcmd := command_frame env cluster
    ((s.emit (.rpcListen s.socketPath)).emit (.log "info" ("running " ++ cmd)))
    ("terraform" :: cmd :: args) false false
  unfold runWrapped
  simp only
  split
  · split
    · exact ⟨rfl, rfl⟩
    · split <;> exact ⟨rfl, rfl⟩
  · split
    · split
      · rename_i heq
        rw [heq] at hcmd
        exact hcmd
      · rename_i heq
        rw [heq] at hcmd
        exact hcmd
    · exact ⟨rfl, rfl⟩

theorem runWrapped_kept (env : Env) (cluster : Cluster) (s : St) (cmd : String)
    (args : List String) : SessionKept env cluster s (runWrapped env cluster s cmd args).2 :=
  SessionKept.of_same (runWrapped_ext env cluster s cmd args [cmd] (by simp)).grows
    (runWrapped_frame env cluster s cmd args).1 (runWrapped_frame env cluster s cmd args).2

theorem terraformWrapper_kept (env : Env) (cluster : Cluster) (s : St) (cmd : String)
    (args : List String) :
    SessionKept env cluster s (terraformWrapper env cluster s cmd args).2 := by
  have h1 := ensureSocketPath_kept env cluster s
  unfold terraformWrapper
  cases hr1 : ensureSocketPath env s with
  | mk e1 s1 =>
    rw [hr1] at h1
    cases e1 with
    | some err => exact h1
    | none =>
      simp only
      have h2 := ensurePrepared_kept env cluster s1
      cases hr2 : ensurePrepared env cluster s1 with
      | mk e2 s2 =>
        rw [hr2] at h2
        cases e2 with
        | some err => exact h1.andThen h2
        | none => exact (h1.andThen h2).andThen (runWrapped_kept env cluster s2 cmd args)

theorem readPlan_kept (env : Env) (cluster : Cluster) (s : St) (planPath : String) (cn : Bool) :
    SessionKept env cluster s (readPlan env s planPath cn).2 := by
  refine SessionKept.of_same (readPlan_spec env s planPath cn).1.grows ?_ ?_
  all_goals
    unfold readPlan
    split <;> rfl

theorem planWrapper_kept (env : Env) (cluster : Cluster) (s : St) (planPath : String) :
    SessionKept env cluster s (planWrapper env cluster s planPath).2 := by
  have hw := terraformWrapper_kept env cluster s "plan"
    ["-detailed-exitcode", "-input=false", "-out=" ++ planPath]
  unfold planWrapper
  split
  · rename_i s1 heq
    rw [heq] at hw
    exact hw.andThen (readPlan_kept env cluster s1 planPath false)
  · rename_i err s1 heq
    rw [heq] at hw
    split
    · exact hw.andThen (readPlan_kept env cluster s1 planPath true)
    · exact hw

theorem emit_kept (env : Env) (cluster : Cluster) (s : St) (e : Event) :
    SessionKept env cluster s (s.emit e) :=
  SessionKept.of_same ⟨[e], rfl⟩ rfl rfl

theorem planFirst_kept (env : Env) (cluster : Cluster) (s : St) (preApply : Bool) :
    SessionKept env cluster s (planFirst env cluster s preApply).2 := by
  unfold planFirst
  simp only
  split
  · split
    · exact SessionKept.stay env cluster s
    · rename_i storePath _
      have hw := planWrapper_kept env cluster s storePath
      split
      · rename_i heq
        rw [heq] at hw
        exact hw
      · rename_i heq
        rw [heq] at hw
        exact hw
  · split
    · exact (emit_kept env cluster s _).andThen (emit_kept env cluster _ _)
    · exact (emit_kept env cluster s _).andThen (emit_kept env cluster _ _)

theorem planRetaint_kept (env : Env) (cluster : Cluster) (s : St) (planPath : String)
    (cn : Bool) (tfPlan : plan.Plan) :
    SessionKept env cluster s (planRetaint env cluster s planPath cn tfPlan).2 := by
  unfold planRetaint
  split
  · have hw := terraformWrapper_kept env cluster
      (s.emit (.log "info" "tainting legacy s3 puppet module object to force update")) "taint"
      ["-allow-missing", "-module=kubernetes", cluster.LegacyPuppetTFName]
    simp only
    split
    · rename_i heq
      rw [heq] at hw
      exact (emit_kept env cluster s _).andThen hw
    · rename_i s2 heq
      rw [heq] at hw
      exact ((emit_kept env cluster s _).andThen hw).andThen
        ((emit_kept env cluster s2 _).andThen (planWrapper_kept env cluster _ planPath))
  · exact SessionKept.stay env cluster s

theorem planVolumes_kept (env : Env) (cluster : Cluster) (s : St) (preApply cn : Bool)
    (p : plan.Plan) : SessionKept env cluster s (planVolumes env s preApply cn p).2 := by
  refine SessionKept.of_same (planVolumes_ext env s preApply cn p).grows ?_ ?_
  all_goals
    unfold planVolumes
    simp only [plan.Plan.IsDestroyingEBSVolume]
    repeat' split
    all_goals rfl

theorem Plan_kept (env : Env) (cluster : Cluster) (s : St) (preApply : Bool) :
    SessionKept env cluster s (Plan env cluster s preApply).2 := by
  have hf := planFirst_kept env cluster s preApply
  unfold Plan planParsed
  cases hr : planFirst env cluster s preApply with
  | mk r s1 =>
    rw [hr] at hf
    obtain ⟨cn, x⟩ := r
    cases x with
    | error err => exact hf
    | ok pp =>
      obtain ⟨planPath, tfPlan⟩ := pp
      simp only
      have hrt := planRetaint_kept env cluster s1 planPath cn tfPlan
      cases hr2 : planRetaint env cluster s1 planPath cn tfPlan with
      | mk r2 s2 =>
        rw [hr2] at hrt
        obtain ⟨cn2, y⟩ := r2
        cases y with
        | error err => exact hf.andThen hrt
        | ok p2 => exact (hf.andThen hrt).andThen (planVolumes_kept env cluster s2 preApply cn2 p2)

theorem Apply_kept (env : Env) (cluster : Cluster) (s : St) :
    SessionKept env cluster s (Apply env cluster s).2 := by
  have hp := Plan_kept env cluster s true
  unfold Apply
  cases hr : Plan env cluster s true with
  | mk r s1 =>
    rw [hr] at hp
    obtain ⟨cn, e⟩ := r
    cases e with
    | some err => cases cn <;> exact hp
    | none =>
      cases cn with
      | false => exact hp
      | true =>
        simp only
        split
        · exact hp.andThen (SessionKept.of_same ⟨[], rfl⟩ rfl rfl)
        · split
          · exact hp
          · exact hp.andThen (terraformWrapper_kept env cluster s1 "apply" _)

theorem EngineOp.run_kept (env : Env) (cluster : Cluster) (s : St) (op : EngineOp) :
    SessionKept env cluster s (op.run env cluster s) := by
  cases op with
  | prepare => exact Prepare_kept env cluster s
  | plan preApply => exact Plan_kept env cluster s preApply
  | apply => exact Apply_kept env cluster s
  | destroy => exact terraformWrapper_kept env cluster s _ _
  | forceUnlock lockID => exact terraformWrapper_kept env cluster s _ _
  | shell =>
    have hw := terraformWrapper_kept env cluster s debugShell []
    simp only [EngineOp.run, Shell]
    split
    · rename_i heq
      rw [heq] at hw
      exact hw
    · rename_i heq
      rw [heq] at hw
      exact hw
  | cleanup =>
    simp only [EngineOp.run, Cleanup]
    split
    · exact emit_kept env cluster s _
    · exact SessionKept.stay env cluster s

theorem EngineOp.runAll_kept (env : Env) (cluster : Cluster) (ops : List EngineOp) :
    ∀ s : St, SessionKept env cluster s (EngineOp.runAll env cluster s ops) := by
  induction ops with
  | nil => intro s; exact SessionKept.stay env cluster s
  | cons op rest ih =>
    intro s
    exact (EngineOp.run_kept env cluster s op).andThen (ih (op.run env cluster s))

/-- C22: whatever sequence of operations other than `ResetTerraformWrapper`
runs on a session and whatever they return, the history only grows, a set
`prepared` flag stays set, a socket path that is not empty stays as it is, and
a `prepared` flag that was clear and is set afterwards was set after a
`Prepare` that ran inside the sequence on a session with the flag clear and
returned nil.  `Prepare` itself leaves the flag as it was; when it fails on a
session with the flag clear, `terraformWrapper`'s prepare step leaves the flag
clear.  `ResetTerraformWrapper` clears the flag and empties the socket
path. -/
theorem prepared_flag_invariant (env : Env) (cluster : Cluster) (s : St)
    (ops : List EngineOp) :
    ((∃ new, (EngineOp.runAll env cluster s ops).trace = new ++ s.trace) ∧
      (s.prepared = true → (EngineOp.runAll env cluster s ops).prepared = true) ∧
      (s.socketPath ≠ "" → (EngineOp.runAll env cluster s ops).socketPath = s.socketPath) ∧
      (s.prepared = false → (EngineOp.runAll env cluster s ops).prepared = true →
        ∃ s0 s1, s0.prepared = false ∧ Prepare env cluster s0 = (none, s1) ∧
          (∃ a, s0.trace = a ++ s.trace) ∧
          (∃ b, (EngineOp.runAll env cluster s ops).trace = b ++ s1.trace))) ∧
    (Prepare env cluster s).2.prepared = s.prepared ∧
    (∀ err s1, s.prepared = false → Prepare env cluster s = (some err, s1) →
      (ensurePrepared env cluster s).2.prepared = false) ∧
    (ResetTerraformWrapper s).prepared = false ∧
    (ResetTerraformWrapper s).socketPath = "" ∧
    (ResetTerraformWrapper s).trace = s.trace := by
  refine ⟨EngineOp.runAll_kept env cluster ops s, (Prepare_frame env cluster s).1, ?_,
    rfl, rfl, rfl⟩
  intro err s1 hp h
  have hf := (Prepare_frame env cluster s).1
  rw [h] at hf
  simp only [ensurePrepared, hp, h]
  simpa [hp] using hf

theorem prepared_flag_invariant_witness :
    (EngineOp.runAll quietEnv demoCluster New [.destroy]).prepared = true ∧
    (EngineOp.runAll quietEnv demoCluster New [.destroy]).socketPath = "/tmp/tarmak.sock1" ∧
    (EngineOp.runAll quietEnv demoCluster New [.destroy, .cleanup, .plan false]).prepared =
      true ∧
    (EngineOp.runAll quietEnv demoCluster New [.destroy, .cleanup, .plan false]).socketPath =
      "/tmp/tarmak.sock1" ∧
    (EngineOp.runAll failEnv demoCluster New [.destroy, .apply]).prepared = false ∧
    (New.prepared = false →
      (EngineOp.runAll quietEnv demoCluster New [.destroy, .cleanup]).prepared = true →
      ∃ s0 s1, s0.prepared = false ∧ Prepare quietEnv demoCluster s0 = (none, s1) ∧
        (∃ a, s0.trace = a ++ New.trace) ∧
        (∃ b, (EngineOp.runAll quietEnv demoCluster New [.destroy, .cleanup]).trace =
          b ++ s1.trace)) ∧
    (ensurePrepared failEnv demoCluster New).2.prepared = false :=
  ⟨rfl, rfl, rfl, rfl, rfl,
   (prepared_flag_invariant quietEnv demoCluster New [.destroy, .cleanup]).1.2.2.2,
   (prepared_flag_invariant failEnv demoCluster New []).2.2.1 _ _ rfl rfl⟩

end Terraform

/-! # Properties of the variable-file emission -/

namespace Tfvars

theorem bytesLE_total : ∀ a b : List Nat, bytesLE a b = true ∨ bytesLE b a = true
  | [], _ => Or.inl (by simp [bytesLE])
  | _ :: _, [] => Or.inr (by simp [bytesLE])
  | a :: as, b :: bs => by
    rcases Nat.lt_trichotomy a b with h | h | h
    · left; simp [bytesLE, h]
    · subst h
      rcases bytesLE_total as bs with h2 | h2
      · left; simp [bytesLE, h2]
      · right; simp [bytesLE, h2]
    · right; simp [bytesLE, h]

theorem bytesLE_trans : ∀ a b c : List Nat,
    bytesLE a b = true → bytesLE b c = true → bytesLE a c = true
  | [], _, _ => by intros; simp [bytesLE]
  | _ :: _, [], _ => by intro h; simp [bytesLE] at h
  | _ :: _, _ :: _, [] => by intro _ h; simp [bytesLE] at h
  | a :: as, b :: bs, c :: cs => by
    intro h1 h2
    simp only [bytesLE, Bool.or_eq_true, decide_eq_true_eq, Bool.and_eq_true, beq_iff_eq] at *
    rcases h1 with h1 | ⟨h1, h1r⟩
    · rcases h2 with h2 | ⟨h2, _⟩
      · left; omega
      · left; omega
    · rcases h2 with h2 | ⟨h2, h2r⟩
      · left; omega
      · right; exact ⟨by omega, bytesLE_trans as bs cs h1r h2r⟩

theorem stringLE_total (a b : String) : stringLE a b = true ∨ stringLE b a = true :=
  bytesLE_total (utf8Bytes a) (utf8Bytes b)

theorem stringLE_trans (a b c : String) (hab : stringLE a b = true)
    (hbc : stringLE b c = true) : stringLE a c = true :=
  bytesLE_trans (utf8Bytes a) (utf8Bytes b) (utf8Bytes c) hab hbc

theorem sortStrings_sorted (keys : List String) :
    (sortStrings keys).Sorted (fun a b => stringLE a b = true) := by
  haveI : IsTotal String (fun a b => stringLE a b = true) := ⟨stringLE_total⟩
  haveI : IsTrans String (fun a b => stringLE a b = true) := ⟨stringLE_trans⟩
  exact List.sorted_insertionSort _ _

theorem foldl_append_init (l : List String) :
    ∀ a : String, l.foldl (fun r s => r ++ s) a = a ++ l.foldl (fun r s => r ++ s) "" := by
  induction l with
  | nil => intro a; simp
  | cons x rest ih =>
    intro a
    rw [List.foldl_cons, List.foldl_cons, ih (a ++ x), ih ("" ++ x)]
    simp [String.append_assoc]

theorem join_cons (x : String) (l : List String) :
    String.join (x :: l) = x ++ String.join l := by
  simp only [String.join, List.foldl_cons]
  rw [foldl_append_init l ("" ++ x)]
  simp

theorem foldl_append_lines (f : String → String) (keys : List String) :
    ∀ init : String,
      keys.foldl (fun b k => b ++ f k) init = init ++ String.join (keys.map f) := by
  induction keys with
  | nil => intro init; simp [String.join]
  | cons k rest ih =>
    intro init
    rw [List.foldl_cons, ih, List.map_cons, join_cons, String.append_assoc]

theorem writeEntries_unsupported (input : List (String × Value)) :
    ∀ buf : String, (∃ key v g, (key, v) ∈ input ∧ unsupportedText v = some g) →
      ∃ key v g, (key, v) ∈ input ∧ unsupportedText v = some g ∧
        writeEntries buf input =
          ("", some (.errorString
            ("ignoring unknown var key='" ++ key ++ "' type='" ++ g ++ "'"))) := by
  induction input with
  | nil => intro buf h; simp at h
  | cons e rest ih =>
    intro buf h
    obtain ⟨key, value⟩ := e
    have hrest : unsupportedText value = none →
        ∃ k v g, (k, v) ∈ rest ∧ unsupportedText v = some g := by
      intro hnone
      obtain ⟨k, v, g, hm, hg⟩ := h
      rcases List.mem_cons.mp hm with heq | hm
      · simp only [Prod.mk.injEq] at heq
        rw [heq.2, hnone] at hg
        cases hg
      · exact ⟨k, v, g, hm, hg⟩
    cases value with
    | other g2 => exact ⟨key, _, g2, List.mem_cons_self _ _, rfl, by simp [writeEntries]⟩
    | bool b => exact ⟨key, _, fmtBool b, List.mem_cons_self _ _, rfl, by simp [writeEntries]⟩
    | mapStringString v =>
      obtain ⟨k2, v2, g2, hm2, hg2, heq⟩ := ih _ (hrest rfl)
      exact ⟨k2, v2, g2, List.mem_cons_of_mem _ hm2, hg2, by rw [writeEntries, heq]⟩
    | stringSlice v =>
      obtain ⟨k2, v2, g2, hm2, hg2, heq⟩ := ih _ (hrest rfl)
      exact ⟨k2, v2, g2, List.mem_cons_of_mem _ hm2, hg2, by rw [writeEntries, heq]⟩
    | string v =>
      obtain ⟨k2, v2, g2, hm2, hg2, heq⟩ := ih _ (hrest rfl)
      exact ⟨k2, v2, g2, List.mem_cons_of_mem _ hm2, hg2, by rw [writeEntries, heq]⟩
    | int v =>
      obtain ⟨k2, v2, g2, hm2, hg2, heq⟩ := ih _ (hrest rfl)
      exact ⟨k2, v2, g2, List.mem_cons_of_mem _ hm2, hg2, by rw [writeEntries, heq]⟩
    | ipNet v =>
      obtain ⟨k2, v2, g2, hm2, hg2, heq⟩ := ih _ (hrest rfl)
      exact ⟨k2, v2, g2, List.mem_cons_of_mem _ hm2, hg2, by rw [writeEntries, heq]⟩

/-- What holds of an input with a value of an unsupported type:
`MapToTerraformTfvars` returns the empty string and an error, with no text for
the supported entries, and the message names the key of such an entry and,
under `type=`, the `%#+v` text of its value. -/
theorem MapToTerraformTfvars_unsupported (input : List (String × Value))
    (h : ∃ key v g, (key, v) ∈ input ∧ unsupportedText v = some g) :
    ∃ key v g, (key, v) ∈ input ∧ unsupportedText v = some g ∧
      MapToTerraformTfvars input =
        ("", some (.errorString
          ("ignoring unknown var key='" ++ key ++ "' type='" ++ g ++ "'"))) :=
  writeEntries_unsupported input "" h

/-- C8 evaluated where it fails: the entry `enabled` holds the `bool` value
`true`, between two supported entries.  `MapToTerraformTfvars` returns the
empty string and an error that names the key, and under `type=` the message
holds the value, `true`; the name of its type, `bool`, is not in the
message. -/
theorem MapToTerraformTfvars_prints_value_under_type :
    MapToTerraformTfvars
        [("region", Value.string "eu-west-1"), ("enabled", Value.bool true),
          ("count", Value.int 3)] =
      ("", some (.errorString "ignoring unknown var key='enabled' type='true'")) ∧
    typeName (Value.bool true) = some "bool" ∧
    Terraform.stringsContains "ignoring unknown var key='enabled' type='true'" "bool" = false ∧
    Terraform.stringsContains "ignoring unknown var key='enabled' type='true'" "enabled" =
      true := by
  refine ⟨rfl, rfl, ?_, ?_⟩ <;> decide

/-- C9: for a single entry `{k: m}` with `m` a string-to-string map (its keys
distinct), the text is the line `k = {`, one line `  mk = "m[mk]"` per key in
ascending byte-wise order, each key once, and the line `}`; for a single entry
`{k: l}` with `l` a list of strings it is `k = [`, the items in double quotes
in list order joined by `", "`, and `]`. -/
theorem MapToTerraformTfvars_map_and_list (k : String) (m : List (String × String))
    (l : List String) (hm : (m.map Prod.fst).Nodup) :
    (∃ keys : List String,
      keys.Perm (m.map Prod.fst) ∧ keys.Nodup ∧
      keys.Sorted (fun a b => stringLE a b = true) ∧
      MapToTerraformTfvars [(k, .mapStringString m)] =
        (k ++ " = \x7b\n" ++
          String.join (keys.map (fun mk => "  " ++ mk ++ " = \"" ++ (m.lookup mk).getD "" ++ "\"\n"))
          ++ "\x7d\n", none)) ∧
    MapToTerraformTfvars [(k, .stringSlice l)] =
      (k ++ " = [" ++ ", ".intercalate (l.map (fun x => "\"" ++ x ++ "\"")) ++ "]\n", none) := by
  refine ⟨⟨sortStrings (m.map Prod.fst), List.perm_insertionSort _ _, ?_,
    sortStrings_sorted _, ?_⟩, ?_⟩
  · exact (List.perm_insertionSort _ _).nodup_iff.mpr hm
  · have hline : mapLine m =
        fun mk => "  " ++ mk ++ " = \"" ++ (m.lookup mk).getD "" ++ "\"\n" := by
      funext mk
      simp [mapLine, mapIndex]
    simp only [MapToTerraformTfvars, writeEntries, foldl_append_lines, hline]
    simp
  · simp [MapToTerraformTfvars, writeEntries]

theorem MapToTerraformTfvars_map_and_list_witness :
    (∃ keys : List String,
      keys.Perm ([("b", "1"), ("a", "2")].map Prod.fst) ∧ keys.Nodup ∧
      keys.Sorted (fun a b => stringLE a b = true) ∧
      MapToTerraformTfvars [("tags", .mapStringString [("b", "1"), ("a", "2")])] =
        ("tags" ++ " = \x7b\n" ++
          String.join (keys.map (fun mk =>
            "  " ++ mk ++ " = \"" ++ ([("b", "1"), ("a", "2")].lookup mk).getD "" ++ "\"\n"))
          ++ "\x7d\n", none)) ∧
    MapToTerraformTfvars [("tags", .stringSlice ["x", "y"])] =
      ("tags" ++ " = [" ++ ", ".intercalate (["x", "y"].map (fun x => "\"" ++ x ++ "\"")) ++
        "]\n", none) :=
  MapToTerraformTfvars_map_and_list "tags" [("b", "1"), ("a", "2")] ["x", "y"] (by decide)

/-- C10 evaluated where it fails: the map `{"a": "x", "b": "y"}`, ranged over
in its two possible orders, gives two different texts. -/
theorem MapToTerraformTfvars_depends_on_range_order :
    List.Perm [("a", Value.string "x"), ("b", Value.string "y")]
      [("b", Value.string "y"), ("a", Value.string "x")] ∧
    MapToTerraformTfvars [("a", Value.string "x"), ("b", Value.string "y")] =
      ("a = \"x\"\nb = \"y\"\n", none) ∧
    MapToTerraformTfvars [("b", Value.string "y"), ("a", Value.string "x")] =
      ("b = \"y\"\na = \"x\"\n", none) ∧
    MapToTerraformTfvars [("a", Value.string "x"), ("b", Value.string "y")] ≠
      MapToTerraformTfvars [("b", Value.string "y"), ("a", Value.string "x")] := by
  refine ⟨List.Perm.swap _ _ _, rfl, rfl, ?_⟩
  decide

end Tfvars

/-! # Reading back what the emitter wrote -/

namespace Hcl

open Tfvars

theorem takeWhile_append_stop (p : Char → Bool) (l : List Char) (c : Char) (r : List Char)
    (hl : ∀ x ∈ l, p x = true) (hc : p c = false) : (l ++ c :: r).takeWhile p = l := by
  induction l with
  | nil => simp [List.takeWhile, hc]
  | cons x l ih =>
    simp [List.takeWhile_cons, hl x (List.mem_cons_self _ _),
      ih (fun y hy => hl y (List.mem_cons_of_mem _ hy))]

theorem dropWhile_append_stop (p : Char → Bool) (l : List Char) (c : Char) (r : List Char)
    (hl : ∀ x ∈ l, p x = true) (hc : p c = false) : (l ++ c :: r).dropWhile p = c :: r := by
  induction l with
  | nil => simp [List.dropWhile, hc]
  | cons x l ih =>
    simp [List.dropWhile_cons, hl x (List.mem_cons_self _ _),
      ih (fun y hy => hl y (List.mem_cons_of_mem _ hy))]

theorem scanString_plain (body : List Char) (tail : List Char)
    (h : plainText body = true) : scanString (body ++ '"' :: tail) = some (body, tail) := by
  induction body with
  | nil => rw [List.nil_append, scanString.eq_def]; simp
  | cons c rest ih =>
    simp only [plainText, Bool.and_eq_true, bne_iff_ne, ne_eq, Bool.not_eq_true',
      Bool.and_eq_false_imp, beq_iff_eq] at h
    obtain ⟨⟨⟨⟨⟨h1, h2⟩, h3⟩, h4⟩, h6⟩, h5⟩ := h
    have hhead : ¬ (c = '$' ∧ (rest ++ '"' :: tail).head? = some '\x7b') := by
      rintro ⟨hc, hh⟩
      have h4c := h4 hc
      cases rest with
      | nil => simp at hh
      | cons d rest2 =>
        simp only [List.cons_append, List.head?_cons, Option.some.injEq] at hh
        simp [hh] at h4c
    rw [List.cons_append, scanString.eq_def]
    simp only [h1, h2, h3, h6, Bool.false_eq_true, if_false, hhead, ih h5]

theorem parseQuoted_plain (body : String) (tail : List Char)
    (h : plainText body.data = true) :
    parseQuoted ('"' :: (body.data ++ '"' :: tail)) = some (body, tail) := by
  simp [parseQuoted, scanString_plain body.data tail h]

theorem isIdentPart_of_isLetter (c : Char) (h : isLetter c = true) : isIdentPart c = true := by
  simp only [isLetter, Bool.or_eq_true, beq_iff_eq] at h
  simp only [isIdentPart, Char.isAlphanum, Bool.or_eq_true, beq_iff_eq]
  rcases h with h | h
  · exact Or.inl (Or.inl (Or.inl (Or.inl h)))
  · exact Or.inl (Or.inl (Or.inr h))

theorem scanIdentifier_ident (k : String) (c : Char) (tail : List Char)
    (hk : isIdentifier k = true) (hc : isIdentPart c = false) :
    scanIdentifier (k.data ++ c :: tail) = some (k, c :: tail) := by
  unfold isIdentifier at hk
  cases hd : k.data with
  | nil => simp [hd] at hk
  | cons a rest =>
    rw [hd] at hk
    simp only [Bool.and_eq_true, List.all_eq_true, bne_iff_ne, ne_eq] at hk
    obtain ⟨⟨⟨hlet, hrest⟩, htrue⟩, hfalse⟩ := hk
    have hall : ∀ x ∈ a :: rest, isIdentPart x = true := by
      intro x hx
      rcases List.mem_cons.mp hx with rfl | hx
      · exact isIdentPart_of_isLetter _ hlet
      · exact hrest x hx
    have ht := takeWhile_append_stop isIdentPart (a :: rest) c tail hall hc
    have hdr := dropWhile_append_stop isIdentPart (a :: rest) c tail hall hc
    simp only [List.cons_append] at ht hdr
    have hk2 : String.mk (a :: rest) = k := by rw [← hd]
    simp only [scanIdentifier, List.cons_append, hlet, if_true, ht, hdr, hk2, htrue, hfalse,
      or_self, if_false]

theorem digitChar_facts : ∀ d, d < 10 →
    (Nat.digitChar d).toNat - 48 = d ∧ (Nat.digitChar d).isDigit = true ∧
      (0 < d → Nat.digitChar d ≠ '0') := by
  decide

theorem toDigitsCore_digits : ∀ (fuel n : Nat) (ds : List Char), n < fuel →
    ∃ c rest, Nat.toDigitsCore 10 fuel n ds = (c :: rest) ++ ds ∧
      (∀ x ∈ c :: rest, x.isDigit = true) ∧ decimalValue (c :: rest) = n ∧
      (0 < n → c ≠ '0') ∧ (n = 0 → rest = []) := by
  intro fuel
  induction fuel with
  | zero => intro n ds h; omega
  | succ fuel ih =>
    intro n ds h
    have hd := digitChar_facts (n % 10) (Nat.mod_lt _ (by decide))
    rw [Nat.toDigitsCore]
    by_cases h0 : n / 10 = 0
    · rw [if_pos h0]
      have hn : n % 10 = n := Nat.mod_eq_of_lt (by omega)
      refine ⟨Nat.digitChar (n % 10), [], rfl, ?_, ?_, ?_, fun _ => rfl⟩
      · intro x hx
        rw [List.mem_singleton] at hx
        rw [hx]; exact hd.2.1
      · simp only [decimalValue, List.foldl_cons, List.foldl_nil, Nat.zero_mul, Nat.zero_add]
        rw [hd.1, hn]
      · intro hpos
        exact hd.2.2 (by omega)
    · rw [if_neg h0]
      obtain ⟨c, rest, heq, hdig, hval, hne, _⟩ :=
        ih (n / 10) (Nat.digitChar (n % 10) :: ds) (by omega)
      refine ⟨c, rest ++ [Nat.digitChar (n % 10)], by rw [heq]; simp, ?_, ?_, ?_, ?_⟩
      · intro x hx
        rw [← List.cons_append, List.mem_append, List.mem_singleton] at hx
        rcases hx with hx | hx
        · exact hdig x hx
        · rw [hx]; exact hd.2.1
      · have hv : decimalValue ((c :: rest) ++ [Nat.digitChar (n % 10)]) =
            decimalValue (c :: rest) * 10 + ((Nat.digitChar (n % 10)).toNat - 48) := by
          simp [decimalValue, List.foldl_append]
        rw [← List.cons_append, hv, hval, hd.1]
        omega
      · intro _
        exact hne (by omega)
      · intro hn
        omega

theorem scanDigits_repr (n : Nat) (c : Char) (tail : List Char) (hc : c.isDigit = false) :
    scanDigits ((Nat.repr n).data ++ c :: tail) = some (n, c :: tail) := by
  obtain ⟨d, rest, heq, hdig, hval, hne, hz⟩ := toDigitsCore_digits (n + 1) n [] (by omega)
  have hdata : (Nat.repr n).data = d :: rest := by
    simp only [Nat.repr, Nat.toDigits, List.asString]
    rw [heq]; simp
  have ht := takeWhile_append_stop Char.isDigit (d :: rest) c tail hdig hc
  have hdr := dropWhile_append_stop Char.isDigit (d :: rest) c tail hdig hc
  rw [hdata]
  unfold scanDigits
  rw [ht, hdr]
  cases rest with
  | nil => simp [hval]
  | cons e ds =>
    have hpos : 0 < n := by
      rcases Nat.eq_zero_or_pos n with h | h
      · exact absurd (hz h) (by simp)
      · exact h
    simp [hne hpos, hval]

theorem repr_head_isDigit (n : Nat) :
    ∃ d rest, (Nat.repr n).data = d :: rest ∧ d.isDigit = true := by
  obtain ⟨d, rest, heq, hdig, _⟩ := toDigitsCore_digits (n + 1) n [] (by omega)
  refine ⟨d, rest, ?_, hdig d (List.mem_cons_self _ _)⟩
  simp only [Nat.repr, Nat.toDigits, List.asString]
  rw [heq]; simp

theorem scanNumber_fmtInt (v : Int) (c : Char) (tail : List Char) (hc : c.isDigit = false) :
    scanNumber ((fmtInt v).data ++ c :: tail) = some (v, c :: tail) := by
  cases v with
  | ofNat m =>
    obtain ⟨d, rest, hdata, hd⟩ := repr_head_isDigit m
    have hs := scanDigits_repr m c tail hc
    have hfmt : (fmtInt (Int.ofNat m)).data = (Nat.repr m).data := rfl
    rw [hfmt]
    rw [hdata] at hs ⊢
    have hminus : d ≠ '-' := by
      rintro rfl
      simp [Char.isDigit] at hd
    simp only [scanNumber, List.cons_append, hminus, if_false]
    simp only [List.cons_append] at hs
    rw [hs]
    rfl
  | negSucc m =>
    have hs := scanDigits_repr (m + 1) c tail hc
    have hfmt : (fmtInt (Int.negSucc m)).data = '-' :: (Nat.repr (m + 1)).data := rfl
    rw [hfmt]
    simp only [scanNumber, List.cons_append, if_true, hs]
    rfl

theorem intercalate_go_acc (sep : String) (l : List String) :
    ∀ acc : String, String.intercalate.go acc sep l = acc ++ String.intercalate.go "" sep l := by
  induction l with
  | nil => intro acc; simp [String.intercalate.go]
  | cons a rest ih =>
    intro acc
    rw [String.intercalate.go, String.intercalate.go, ih (acc ++ sep ++ a), ih ("" ++ sep ++ a)]
    simp [String.append_assoc]

theorem intercalate_cons_cons (sep a b : String) (r : List String) :
    sep.intercalate (a :: b :: r) = a ++ sep ++ sep.intercalate (b :: r) := by
  simp only [String.intercalate, String.intercalate.go]
  rw [intercalate_go_acc sep r (a ++ sep ++ b), intercalate_go_acc sep r b]
  simp [String.append_assoc]

theorem letter_facts (c : Char) (h : isLetter c = true) :
    isSpace c = false ∧ isBlank c = false ∧ c ≠ '\x7d' ∧ c ≠ ']' := by
  refine ⟨?_, ?_, ?_, ?_⟩
  · cases hs : isSpace c with
    | false => rfl
    | true =>
      simp only [isSpace, Bool.or_eq_true, beq_iff_eq] at hs
      rcases hs with ((rfl | rfl) | rfl) | rfl <;> revert h <;> decide
  · cases hs : isBlank c with
    | false => rfl
    | true =>
      simp only [isBlank, Bool.or_eq_true, beq_iff_eq] at hs
      rcases hs with rfl | rfl <;> revert h <;> decide
  · rintro rfl; revert h; decide
  · rintro rfl; revert h; decide

theorem parseListItems_space (fuel : Nat) (c : Char) (cs : List Char) (hc : isSpace c = true) :
    parseListItems fuel (c :: cs) = parseListItems fuel cs := by
  cases fuel with
  | zero => simp [parseListItems]
  | succ fuel => simp [parseListItems, skipSpaces, List.dropWhile_cons, hc]

theorem parseObjectItems_space (fuel : Nat) (c : Char) (cs : List Char)
    (hc : isSpace c = true) :
    parseObjectItems fuel (c :: cs) = parseObjectItems fuel cs := by
  cases fuel with
  | zero => simp [parseObjectItems]
  | succ fuel => simp [parseObjectItems, skipSpaces, List.dropWhile_cons, hc]

theorem parseListItems_emitted (l : List String) :
    ∀ (fuel : Nat) (tail : List Char), (∀ x ∈ l, plainText x.data = true) → l.length < fuel →
      parseListItems fuel
        ((", ".intercalate (l.map (fun x => "\"" ++ x ++ "\""))).data ++ ']' :: tail) =
        some (l, tail) := by
  induction l with
  | nil =>
    intro fuel tail _ hf
    obtain ⟨fuel, rfl⟩ : ∃ f, fuel = f + 1 := ⟨fuel - 1, by simp at hf; omega⟩
    simp [String.intercalate, parseListItems, skipSpaces, List.dropWhile_cons, isSpace]
  | cons x rest ih =>
    intro fuel tail hp hf
    obtain ⟨fuel, rfl⟩ : ∃ f, fuel = f + 1 := ⟨fuel - 1, by simp at hf; omega⟩
    have hx := hp x (List.mem_cons_self _ _)
    cases rest with
    | nil =>
      have hq := parseQuoted_plain x (']' :: tail) hx
      simp only [List.map_cons, List.map_nil, String.intercalate, String.intercalate.go,
        String.data_append, List.append_assoc, List.singleton_append, List.cons_append,
        List.nil_append]
      rw [parseListItems]
      simp [skipSpaces, List.dropWhile_cons, isSpace, hq]
    | cons y r =>
      have hq := parseQuoted_plain x
        (',' :: ' ' :: ((", ".intercalate ((y :: r).map (fun x => "\"" ++ x ++ "\""))).data ++
          ']' :: tail)) hx
      have hrec := ih fuel tail (fun z hz => hp z (List.mem_cons_of_mem _ hz))
        (by simp at hf ⊢; omega)
      have hmap : ", ".intercalate ((x :: y :: r).map (fun x => "\"" ++ x ++ "\"")) =
          ", ".intercalate (("\"" ++ x ++ "\"") :: ("\"" ++ y ++ "\"") ::
            r.map (fun x => "\"" ++ x ++ "\"")) := rfl
      have hfold : ", ".intercalate (("\"" ++ y ++ "\"") :: r.map (fun x => "\"" ++ x ++ "\"")) =
          ", ".intercalate ((y :: r).map (fun x => "\"" ++ x ++ "\"")) := rfl
      rw [hmap, intercalate_cons_cons ", " _ ("\"" ++ y ++ "\"")
        (r.map (fun x => "\"" ++ x ++ "\"")), hfold]
      simp only [String.data_append, List.append_assoc, List.singleton_append,
        List.cons_append, List.nil_append]
      generalize (", ".intercalate ((y :: r).map (fun x => "\"" ++ x ++ "\""))).data = more
        at hq hrec ⊢
      rw [parseListItems]
      simp [skipSpaces, List.dropWhile_cons, isSpace, hq,
        parseListItems_space fuel ' ' _ (by decide), hrec]

theorem identifier_head (k : String) (hk : isIdentifier k = true) :
    ∃ c rest, k.data = c :: rest ∧ isLetter c = true := by
  unfold isIdentifier at hk
  cases hd : k.data with
  | nil => simp [hd] at hk
  | cons c rest =>
    rw [hd] at hk
    simp only [Bool.and_eq_true] at hk
    exact ⟨c, rest, rfl, hk.1.1.1⟩

theorem parseObjectItems_emitted (v : List (String × String)) (keys : List String) :
    ∀ (fuel : Nat) (tail : List Char),
      (∀ k ∈ keys, isIdentifier k = true ∧ plainText (mapIndex v k).data = true) →
      keys.length < fuel →
      parseObjectItems fuel ((String.join (keys.map (mapLine v))).data ++ '\x7d' :: tail) =
        some (keys.map (fun k => (k, mapIndex v k)), tail) := by
  induction keys with
  | nil =>
    intro fuel tail _ hf
    obtain ⟨fuel, rfl⟩ : ∃ f, fuel = f + 1 := ⟨fuel - 1, by simp at hf; omega⟩
    simp [String.join, parseObjectItems, skipSpaces, List.dropWhile_cons, isSpace]
  | cons k ks ih =>
    intro fuel tail hp hf
    obtain ⟨fuel, rfl⟩ : ∃ f, fuel = f + 1 := ⟨fuel - 1, by simp at hf; omega⟩
    obtain ⟨hk, hv⟩ := hp k (List.mem_cons_self _ _)
    have hrec := ih fuel tail (fun z hz => hp z (List.mem_cons_of_mem _ hz))
      (by simp at hf ⊢; omega)
    obtain ⟨c, krest, hkd, hc⟩ := identifier_head k hk
    obtain ⟨hsp, _, hbrace, _⟩ := letter_facts c hc
    rw [List.map_cons, Tfvars.join_cons]
    simp only [mapLine, String.data_append, List.append_assoc, List.singleton_append,
      List.cons_append, List.nil_append]
    generalize (String.join (ks.map (mapLine v))).data = more at hrec ⊢
    have hsi := scanIdentifier_ident k ' '
      ('=' :: ' ' :: '"' :: ((mapIndex v k).data ++ '"' :: '\n' :: (more ++ '\x7d' :: tail)))
      hk (by decide)
    have hq := parseQuoted_plain (mapIndex v k) ('\n' :: (more ++ '\x7d' :: tail)) hv
    have hstep : parseObjectItems (fuel + 1)
        (k.data ++ ' ' :: '=' :: ' ' :: '"' ::
          ((mapIndex v k).data ++ '"' :: '\n' :: (more ++ '\x7d' :: tail))) =
        some ((k, mapIndex v k) :: ks.map (fun k => (k, mapIndex v k)), tail) := by
      rw [parseObjectItems]
      rw [hkd] at hsi ⊢
      simp only [List.cons_append] at hsi ⊢
      simp [skipSpaces, skipBlanks, List.dropWhile_cons, hsp, hbrace, hsi, isBlank, hq,
        parseObjectItems_space fuel '\n' _ (by decide), hrec]
    simp only [List.map_cons]
    rw [parseObjectItems_space (fuel + 1) ' ' _ (by decide),
      parseObjectItems_space (fuel + 1) ' ' _ (by decide)]
    exact hstep

theorem parseEntries_single (fuel : Nat) (k : String) (c : Char) (vrest : List Char)
    (w : Value) (hk : isIdentifier k = true) (hc : isBlank c = false)
    (hval : parseValue (fuel + 1) (c :: (vrest ++ ['\n'])) = some (w, ['\n'])) :
    parseEntries (fuel + 2) (k.data ++ ' ' :: '=' :: ' ' :: c :: (vrest ++ ['\n'])) =
      some [(k, w)] := by
  obtain ⟨a, krest, hkd, ha⟩ := identifier_head k hk
  obtain ⟨hsp, _, _, _⟩ := letter_facts a ha
  have hsi := scanIdentifier_ident k ' ' ('=' :: ' ' :: c :: (vrest ++ ['\n'])) hk (by decide)
  have hend : parseEntries (fuel + 1) ['\n'] = some [] := by
    simp [parseEntries, skipSpaces, List.dropWhile_cons, isSpace]
  rw [parseEntries]
  rw [hkd] at hsi ⊢
  simp only [List.cons_append] at hsi ⊢
  simp [skipSpaces, skipBlanks, List.dropWhile_cons, hsp, hsi, isBlank]
  have hc2 : ¬ (c = ' ' ∨ c = '\t') := by
    simpa [isBlank] using hc
  simp [hc2, hval, hend]

theorem lookup_of_nodup (v : List (String × String)) (h : (v.map Prod.fst).Nodup) :
    ∀ e ∈ v, v.lookup e.1 = some e.2 := by
  induction v with
  | nil => intro e he; simp at he
  | cons x rest ih =>
    intro e he
    simp only [List.map_cons, List.nodup_cons] at h
    rcases List.mem_cons.mp he with rfl | he2
    · simp [List.lookup]
    · have hne : e.1 ≠ x.1 := by
        intro heq
        exact h.1 (heq ▸ List.mem_map_of_mem Prod.fst he2)
      obtain ⟨x1, x2⟩ := x
      simp only [List.lookup]
      have hb : (e.1 == x1) = false := by simpa using hne
      rw [hb]
      exact ih h.2 e he2

theorem sorted_entries_perm (v : List (String × String)) (h : (v.map Prod.fst).Nodup) :
    ((sortStrings (v.map Prod.fst)).map (fun k => (k, mapIndex v k))).Perm v := by
  have hp : (sortStrings (v.map Prod.fst)).Perm (v.map Prod.fst) :=
    List.perm_insertionSort _ _
  refine (hp.map _).trans ?_
  rw [List.map_map]
  have hid : ∀ e ∈ v, ((fun k => (k, mapIndex v k)) ∘ Prod.fst) e = e := by
    intro e he
    simp [mapIndex, lookup_of_nodup v h e he]
  rw [List.map_congr_left hid]
  simp

theorem length_intercalate_quoted (l : List String) :
    l.length ≤ (", ".intercalate (l.map (fun x => "\"" ++ x ++ "\""))).length := by
  induction l with
  | nil => simp
  | cons x rest ih =>
    cases rest with
    | nil =>
      have hq : ("\"" : String).length = 1 := rfl
      simp only [List.map_cons, List.map_nil, String.intercalate, String.intercalate.go,
        String.length_append, hq, List.length_singleton]
      omega
    | cons y r =>
      have hmap : ", ".intercalate ((x :: y :: r).map (fun x => "\"" ++ x ++ "\"")) =
          ", ".intercalate (("\"" ++ x ++ "\"") :: ("\"" ++ y ++ "\"") ::
            r.map (fun x => "\"" ++ x ++ "\"")) := rfl
      have hfold : ", ".intercalate (("\"" ++ y ++ "\"") :: r.map (fun x => "\"" ++ x ++ "\"")) =
          ", ".intercalate ((y :: r).map (fun x => "\"" ++ x ++ "\"")) := rfl
      have hq : ("\"" : String).length = 1 := rfl
      rw [hmap, intercalate_cons_cons, hfold]
      simp only [String.length_append, List.length_cons, hq] at ih ⊢
      omega

theorem length_join_lines (v : List (String × String)) (keys : List String) :
    keys.length ≤ (String.join (keys.map (mapLine v))).length := by
  induction keys with
  | nil => simp
  | cons k ks ih =>
    rw [List.map_cons, Tfvars.join_cons]
    simp only [String.length_append, List.length_cons, mapLine]
    have h1 : ("  " : String).length = 2 := rfl
    omega

theorem parseTfvars_single (text k : String) (c : Char) (vrest : List Char) (w : Value)
    (hk : isIdentifier k = true) (hc : isBlank c = false)
    (hdata : text.data = k.data ++ ' ' :: '=' :: ' ' :: c :: (vrest ++ ['\n']))
    (hval : parseValue text.length (c :: (vrest ++ ['\n'])) = some (w, ['\n'])) :
    parseTfvars text = some [(k, w)] := by
  have hlen : text.length = (text.length - 1) + 1 := by
    have h1 : text.length = text.data.length := rfl
    rw [hdata] at h1
    simp at h1
    omega
  have h := parseEntries_single (text.length - 1) k c vrest w hk hc (by rw [← hlen]; exact hval)
  unfold parseTfvars
  rw [hdata]
  have h2 : text.length + 1 = text.length - 1 + 2 := by omega
  rw [h2]
  exact h

theorem roundtrip_string (k s : String) (hk : isIdentifier k = true)
    (hs : plainText s.data = true) :
    parseTfvars ("" ++ (k ++ " = \"" ++ s ++ "\"\n")) = some [(k, .string s)] := by
  apply parseTfvars_single _ k '"' (s.data ++ ['"']) _ hk (by decide)
  · simp [String.data_append]
  · have hq := parseQuoted_plain s ['\n'] hs
    simp [parseValue, hq]

theorem fmtInt_head (v : Int) :
    ∃ c rest, (fmtInt v).data = c :: rest ∧ (c.isDigit = true ∨ c = '-') := by
  cases v with
  | ofNat m =>
    obtain ⟨d, rest, hdata, hd⟩ := repr_head_isDigit m
    exact ⟨d, rest, hdata, Or.inl hd⟩
  | negSucc m => exact ⟨'-', (Nat.repr (m + 1)).data, rfl, Or.inr rfl⟩

theorem roundtrip_int (k : String) (v : Int) (hk : isIdentifier k = true) :
    parseTfvars ("" ++ (k ++ " = " ++ fmtInt v ++ "\n")) = some [(k, .int v)] := by
  obtain ⟨c, rest, hdata, hc⟩ := fmtInt_head v
  have hfacts : isBlank c = false ∧ c ≠ '"' ∧ c ≠ '[' ∧ c ≠ '\x7b' := by
    rcases hc with hc | rfl
    · refine ⟨?_, ?_, ?_, ?_⟩
      · cases hb : isBlank c with
        | false => rfl
        | true =>
          simp only [isBlank, Bool.or_eq_true, beq_iff_eq] at hb
          rcases hb with rfl | rfl <;> revert hc <;> decide
      · rintro rfl; revert hc; decide
      · rintro rfl; revert hc; decide
      · rintro rfl; revert hc; decide
    · decide
  obtain ⟨hb, h1, h2, h3⟩ := hfacts
  apply parseTfvars_single _ k c rest _ hk hb
  · simp [String.data_append, hdata]
  · have hs := scanNumber_fmtInt v '\n' [] (by decide)
    rw [hdata] at hs
    simp only [List.cons_append] at hs
    simp [parseValue, h1, h2, h3, hs]

theorem roundtrip_list (k : String) (l : List String) (hk : isIdentifier k = true)
    (hl : ∀ x ∈ l, plainText x.data = true) :
    parseTfvars ("" ++ (k ++ " = [" ++ ", ".intercalate (l.map (fun x => "\"" ++ x ++ "\"")) ++
      "]\n")) = some [(k, .stringSlice l)] := by
  have hlen := length_intercalate_quoted l
  generalize hinter : ", ".intercalate (l.map (fun x => "\"" ++ x ++ "\"")) = inter at hlen
  have hitems : ∀ fuel tail, l.length < fuel →
      parseListItems fuel (inter.data ++ ']' :: tail) = some (l, tail) := by
    intro fuel tail hf
    rw [← hinter]
    exact parseListItems_emitted l fuel tail hl hf
  apply parseTfvars_single _ k '[' (inter.data ++ [']']) _ hk (by decide)
  · simp [String.data_append]
  · have h1 : (" = [" : String).length = 4 := rfl
    simp [parseValue]
    rw [hitems _ ['\n'] (by omega)]

theorem roundtrip_map (k : String) (v : List (String × String)) (hk : isIdentifier k = true)
    (hv : ∀ e ∈ v, isIdentifier e.1 = true ∧ plainText e.2.data = true)
    (hn : (v.map Prod.fst).Nodup) :
    parseTfvars (((sortStrings (v.map Prod.fst)).foldl (fun b mk => b ++ mapLine v mk)
        ("" ++ (k ++ " = \x7b\n"))) ++ "\x7d\n") =
      some [(k, .mapStringString ((sortStrings (v.map Prod.fst)).map
        (fun mk => (mk, mapIndex v mk))))] := by
  have hkeys : ∀ mk ∈ sortStrings (v.map Prod.fst),
      isIdentifier mk = true ∧ plainText (mapIndex v mk).data = true := by
    intro mk hmk
    have hmem : mk ∈ v.map Prod.fst :=
      (List.perm_insertionSort _ _).mem_iff.mp hmk
    obtain ⟨e, he, rfl⟩ := List.mem_map.mp hmem
    have hlook := lookup_of_nodup v hn e he
    simp only [mapIndex, hlook, Option.getD_some]
    exact hv e he
  rw [Tfvars.foldl_append_lines]
  have hlen := length_join_lines v (sortStrings (v.map Prod.fst))
  generalize hkl : sortStrings (v.map Prod.fst) = keys at hkeys hlen ⊢
  have hitems : ∀ fuel tail, keys.length < fuel →
      parseObjectItems fuel ((String.join (keys.map (mapLine v))).data ++ '\x7d' :: tail) =
        some (keys.map (fun mk => (mk, mapIndex v mk)), tail) :=
    fun fuel tail hf => parseObjectItems_emitted v keys fuel tail hkeys hf
  generalize String.join (keys.map (mapLine v)) = lines at hlen hitems ⊢
  apply parseTfvars_single _ k '\x7b' ('\n' :: (lines.data ++ ['\x7d'])) _ hk (by decide)
  · simp [String.data_append]
  · have h1 : (" = \x7b\n" : String).length = 5 := rfl
    simp [parseValue, parseObjectItems_space _ '\n' _ (by decide)]
    rw [hitems _ ['\n'] (by omega)]

/-- C7, as stated, fails: the one-item list whose item is `a", "b` is written
as the very text of the two-item list `a`, `b`, and reading that text gives
the two-item list, not the list that was written. -/
theorem tfvars_roundtrip_fails_on_quote :
    MapToTerraformTfvars [("k", .stringSlice ["a\", \"b"])] = ("k = [\"a\", \"b\"]\n", none) ∧
    MapToTerraformTfvars [("k", .stringSlice ["a", "b"])] = ("k = [\"a\", \"b\"]\n", none) ∧
    parseTfvars "k = [\"a\", \"b\"]\n" = some [("k", .stringSlice ["a", "b"])] ∧
    parseTfvars (MapToTerraformTfvars [("k", .stringSlice ["a\", \"b"])]).1 ≠
      some [("k", .stringSlice ["a\", \"b"])] := by
  refine ⟨rfl, rfl, rfl, ?_⟩
  decide

/-- What the reader refuses, as HCL does: the keys `true` and `false`, and
the characters U+0000 and U+E123 inside a quoted string. -/
theorem parseTfvars_refuses :
    (MapToTerraformTfvars [("true", .string "x")]).1 = "true = \"x\"\n" ∧
    parseTfvars "true = \"x\"\n" = none ∧
    parseTfvars "false = 1\n" = none ∧
    parseTfvars "k = \x7b\n  true = \"x\"\n\x7d\n" = none ∧
    parseTfvars (String.mk ("k = \"a".data ++ [Char.ofNat 0] ++ "b\"\n".data)) = none ∧
    parseTfvars (String.mk ("k = \"a".data ++ [Char.ofNat 0xE123] ++ "b\"\n".data)) = none ∧
    parseTfvars "truer = \"x\"\n" = some [("truer", .string "x")] := by
  refine ⟨rfl, ?_, ?_, ?_, ?_, ?_, ?_⟩ <;> decide

/-- C7, amended: for every key that is an identifier other than `true` and
`false`, and every value of a supported kind whose strings are plain (no
double quote, backslash, line end, `$` before an opening brace, U+0000 or
U+E123) and whose map keys are such identifiers, reading the emitted text by
the HCL rules gives back exactly one pair, with the same key and the same
value: the same string, number or list, a map with the same entries, and for
an IP network its canonical text as a string. -/
theorem tfvars_roundtrip_plain (k : String) (v : Value) (hk : isIdentifier k = true)
    (hv : readable v = true) :
    ∃ text w, MapToTerraformTfvars [(k, v)] = (text, none) ∧
      parseTfvars text = some [(k, w)] ∧ sameValue v w := by
  cases v with
  | mapStringString m =>
    simp only [readable, Bool.and_eq_true, List.all_eq_true, decide_eq_true_eq] at hv
    exact ⟨_, _, rfl, roundtrip_map k m hk hv.1 hv.2,
      _, rfl, sorted_entries_perm m hv.2⟩
  | stringSlice l =>
    simp only [readable, List.all_eq_true] at hv
    exact ⟨_, _, rfl, roundtrip_list k l hk hv, rfl⟩
  | string s => exact ⟨_, _, rfl, roundtrip_string k s hk hv, rfl⟩
  | int n => exact ⟨_, _, rfl, roundtrip_int k n hk, rfl⟩
  | ipNet str => exact ⟨_, _, rfl, roundtrip_string k str hk hv, rfl⟩
  | bool b => simp [readable] at hv
  | other g => simp [readable] at hv

theorem tfvars_roundtrip_plain_witness :
    isIdentifier "tags" = true ∧
    readable (.mapStringString [("b", "x y"), ("a", "10.0.0.0/8")]) = true ∧
    ∃ text w,
      MapToTerraformTfvars [("tags", .mapStringString [("b", "x y"), ("a", "10.0.0.0/8")])] =
        (text, none) ∧
      parseTfvars text = some [("tags", w)] ∧
      sameValue (.mapStringString [("b", "x y"), ("a", "10.0.0.0/8")]) w :=
  ⟨by decide, by decide,
    tfvars_roundtrip_plain "tags" (.mapStringString [("b", "x y"), ("a", "10.0.0.0/8")])
      (by decide) (by decide)⟩

end Hcl

/-! # Properties of the control RPC method -/

namespace Rpc

theorem checks_cons_verify (err : Option GoError) (t : List Event) :
    checks (.verify err :: t) = checks t + 1 := by
  simp [checks]

theorem checks_fail_step (err : GoError) (t : List Event) :
    checks (.sleep 1 :: .warn err.Error :: .verify (some err) :: t) = checks t + 1 := by
  simp [checks]

theorem sleeps_fail_step (err : GoError) (t : List Event) :
    sleeps (.sleep 1 :: .warn err.Error :: .verify (some err) :: t) = sleeps t + 1 := by
  simp [sleeps]

theorem sleeps_cons_verify (err : Option GoError) (t : List Event) :
    sleeps (.verify err :: t) = sleeps t := by
  simp [sleeps]

theorem retryLoop_all_fail (env : Env) :
    ∀ (left made : Nat) (err : Option GoError) (t : List Event),
      (∀ k, made ≤ k → k < made + left → (env.VerifyBastionAvailable k).isSome = true) →
      checks (retryLoop env left made err t).2 = checks t + left ∧
      sleeps (retryLoop env left made err t).2 = sleeps t + left ∧
      (0 < left →
        (retryLoop env left made err t).1 = env.VerifyBastionAvailable (made + left - 1)) := by
  intro left
  induction left with
  | zero => intro made err t _; simp [retryLoop]
  | succ left ih =>
    intro made err t h
    have h0 := h made (Nat.le_refl _) (by omega)
    cases hv : env.VerifyBastionAvailable made with
    | none => simp [hv] at h0
    | some e =>
      have hrec := ih (made + 1) (some e)
        (.sleep 1 :: .warn e.Error :: .verify (some e) :: t)
        (fun k hk1 hk2 => h k (by omega) (by omega))
      rw [retryLoop]
      simp only [hv]
      rw [checks_fail_step, sleeps_fail_step] at hrec
      refine ⟨by omega, by omega, fun _ => ?_⟩
      rcases Nat.eq_zero_or_pos left with hl | hl
      · subst hl
        simp [retryLoop, hv]
      · rw [hrec.2.2 hl]
        congr 1
        omega

theorem retryLoop_success (env : Env) :
    ∀ (n left made : Nat) (err : Option GoError) (t : List Event),
      n < left →
      (∀ k, made ≤ k → k < made + n → (env.VerifyBastionAvailable k).isSome = true) →
      env.VerifyBastionAvailable (made + n) = none →
      (retryLoop env left made err t).1 = none ∧
      checks (retryLoop env left made err t).2 = checks t + n + 1 ∧
      sleeps (retryLoop env left made err t).2 = sleeps t + n := by
  intro n
  induction n with
  | zero =>
    intro left made err t hl _ hok
    obtain ⟨left, rfl⟩ : ∃ l, left = l + 1 := ⟨left - 1, by omega⟩
    rw [retryLoop]
    simp only [Nat.add_zero] at hok
    simp [hok, checks_cons_verify, sleeps_cons_verify]
  | succ n ih =>
    intro left made err t hl hfail hok
    obtain ⟨left, rfl⟩ : ∃ l, left = l + 1 := ⟨left - 1, by omega⟩
    have h0 := hfail made (Nat.le_refl _) (by omega)
    cases hv : env.VerifyBastionAvailable made with
    | none => simp [hv] at h0
    | some e =>
      have hrec := ih left (made + 1) (some e)
        (.sleep 1 :: .warn e.Error :: .verify (some e) :: t) (by omega)
        (fun k hk1 hk2 => hfail k (by omega) (by omega))
        (by rw [show made + 1 + n = made + (n + 1) from by omega]; exact hok)
      rw [retryLoop]
      simp only [hv]
      rw [checks_fail_step, sleeps_fail_step] at hrec
      exact ⟨hrec.1, by omega, by omega⟩

/-- C11: while the cluster's state is "destroy", the call answers "unknown"
with a nil error, makes no availability check and does not sleep. -/
theorem BastionInstanceStatus_destroy (env : Env) (args : BastionInstanceStatusArgs)
    (result : BastionInstanceStatusReply) (h : env.GetState = StateDestroy) :
    (BastionInstanceStatus env args result).1 = none ∧
    (BastionInstanceStatus env args result).2.1.Status = "unknown" ∧
    checks (BastionInstanceStatus env args result).2.2 = 0 ∧
    sleeps (BastionInstanceStatus env args result).2.2 = 0 := by
  simp [BastionInstanceStatus, h, checks, sleeps]

theorem BastionInstanceStatus_destroy_witness :
    (BastionInstanceStatus destroyingEnv ⟨"root", "bastion"⟩ ⟨""⟩).1 = none ∧
    (BastionInstanceStatus destroyingEnv ⟨"root", "bastion"⟩ ⟨""⟩).2.1.Status = "unknown" ∧
    checks (BastionInstanceStatus destroyingEnv ⟨"root", "bastion"⟩ ⟨""⟩).2.2 = 0 ∧
    sleeps (BastionInstanceStatus destroyingEnv ⟨"root", "bastion"⟩ ⟨""⟩).2.2 = 0 :=
  BastionInstanceStatus_destroy destroyingEnv ⟨"root", "bastion"⟩ ⟨""⟩ rfl

/-- C12: while the state is not "destroy", for `N < Retries`, when the first
`N` availability checks fail and the next one succeeds, the call answers
"ready" with a nil error after exactly `N + 1` checks (and `N` sleeps). -/
theorem BastionInstanceStatus_ready (env : Env) (args : BastionInstanceStatusArgs)
    (result : BastionInstanceStatusReply) (N : Nat) (h : env.GetState ≠ StateDestroy)
    (hN : (N : Int) < env.Retries)
    (hfail : ∀ k, k < N → (env.VerifyBastionAvailable k).isSome = true)
    (hok : env.VerifyBastionAvailable N = none) :
    (BastionInstanceStatus env args result).1 = none ∧
    (BastionInstanceStatus env args result).2.1.Status = "ready" ∧
    checks (BastionInstanceStatus env args result).2.2 = N + 1 ∧
    sleeps (BastionInstanceStatus env args result).2.2 = N := by
  have hl : N < env.Retries.toNat := by omega
  have hloop := retryLoop_success env N env.Retries.toNat 0 none
    [.debug "received rpc bastion status"] hl
    (fun k _ hk => hfail k (by omega)) (by simpa using hok)
  unfold BastionInstanceStatus
  rw [if_neg h]
  split
  · rename_i heq
    rw [heq] at hloop
    simp at hloop
  · rename_i heq
    rw [heq] at hloop
    refine ⟨rfl, rfl, ?_, ?_⟩
    · simpa [checks] using hloop.2.1
    · simpa [sleeps] using hloop.2.2

theorem BastionInstanceStatus_ready_witness :
    (BastionInstanceStatus thirdTimeEnv ⟨"root", "bastion"⟩ ⟨""⟩).1 = none ∧
    (BastionInstanceStatus thirdTimeEnv ⟨"root", "bastion"⟩ ⟨""⟩).2.1.Status = "ready" ∧
    checks (BastionInstanceStatus thirdTimeEnv ⟨"root", "bastion"⟩ ⟨""⟩).2.2 = 2 + 1 ∧
    sleeps (BastionInstanceStatus thirdTimeEnv ⟨"root", "bastion"⟩ ⟨""⟩).2.2 = 2 :=
  BastionInstanceStatus_ready thirdTimeEnv ⟨"root", "bastion"⟩ ⟨""⟩ 2 (by decide) (by decide)
    (by decide) rfl

/-- C13: while the state is not "destroy" and `Retries >= 1`, when every
availability check fails, exactly `Retries` checks are made, the returned error
is "bastion instance is not ready: " followed by the error of the last check,
and the reply struct is left as the caller passed it. -/
theorem BastionInstanceStatus_not_ready (env : Env) (args : BastionInstanceStatusArgs)
    (result : BastionInstanceStatusReply) (h : env.GetState ≠ StateDestroy)
    (hR : 1 ≤ env.Retries)
    (hfail : ∀ k : Nat, (k : Int) < env.Retries → (env.VerifyBastionAvailable k).isSome = true) :
    ∃ last, env.VerifyBastionAvailable (env.Retries.toNat - 1) = some last ∧
      (BastionInstanceStatus env args result).1 =
        some (.errorString ("bastion instance is not ready: " ++ last.Error)) ∧
      (BastionInstanceStatus env args result).2.1 = result ∧
      checks (BastionInstanceStatus env args result).2.2 = env.Retries.toNat ∧
      sleeps (BastionInstanceStatus env args result).2.2 = env.Retries.toNat := by
  have hpos : 0 < env.Retries.toNat := by omega
  have hloop := retryLoop_all_fail env env.Retries.toNat 0 none
    [.debug "received rpc bastion status"] (fun k _ hk => hfail k (by omega))
  have hlast := hfail (env.Retries.toNat - 1) (by omega)
  cases hv : env.VerifyBastionAvailable (env.Retries.toNat - 1) with
  | none => simp [hv] at hlast
  | some last =>
    refine ⟨last, rfl, ?_⟩
    have h1 := hloop.2.2 hpos
    simp only [Nat.zero_add, hv] at h1
    unfold BastionInstanceStatus
    rw [if_neg h]
    split
    · rename_i err t heq
      rw [heq] at hloop h1
      simp only [Option.some.injEq] at h1
      subst h1
      refine ⟨rfl, rfl, ?_, ?_⟩
      · simpa [checks] using hloop.1
      · simpa [sleeps] using hloop.2.1
    · rename_i heq
      rw [heq] at h1
      simp at h1

theorem BastionInstanceStatus_not_ready_witness :
    ∃ last, neverEnv.VerifyBastionAvailable (neverEnv.Retries.toNat - 1) = some last ∧
      (BastionInstanceStatus neverEnv ⟨"root", "bastion"⟩ ⟨""⟩).1 =
        some (.errorString ("bastion instance is not ready: " ++ last.Error)) ∧
      (BastionInstanceStatus neverEnv ⟨"root", "bastion"⟩ ⟨""⟩).2.1 = ⟨""⟩ ∧
      checks (BastionInstanceStatus neverEnv ⟨"root", "bastion"⟩ ⟨""⟩).2.2 =
        neverEnv.Retries.toNat ∧
      sleeps (BastionInstanceStatus neverEnv ⟨"root", "bastion"⟩ ⟨""⟩).2.2 =
        neverEnv.Retries.toNat :=
  BastionInstanceStatus_not_ready neverEnv ⟨"root", "bastion"⟩ ⟨""⟩ (by decide) (by decide)
    (fun _ _ => rfl)

end Rpc

/-! # Properties of the tunnel manager -/

namespace Ssh

theorem startDaemon_fields (env : StartEnv) (t : Tunnel) :
    (startDaemon env t).2.stopCh = t.stopCh ∧ (startDaemon env t).2.doneCh = t.doneCh ∧
    (startDaemon env t).2.stopCloses = t.stopCloses ∧
    (startDaemon env t).2.doneCloses = t.doneCloses ∧
    (startDaemon env t).2.panicked = t.panicked := by
  unfold startDaemon
  split
  · simp
  · split <;> simp

theorem Start_fields (env : StartEnv) (t0 : Tunnel) :
    (Start env t0).2.stopCh = .open ∧ (Start env t0).2.doneCh = .open ∧
    (Start env t0).2.stopCloses = 0 ∧ (Start env t0).2.doneCloses = 0 ∧
    (Start env t0).2.panicked = t0.panicked := by
  unfold Start
  simp only
  split
  · simp
  · split
    · have hd := startDaemon_fields env
        { t0 with stopCh := .open, doneCh := .open, stopCloses := 0, doneCloses := 0 }
      split
      · rename_i heq
        rw [heq] at hd
        simpa using hd
      · rename_i heq
        rw [heq] at hd
        simpa using hd
    · split <;> simp

theorem Start_ok (env : StartEnv) (t0 t : Tunnel) (h : Start env t0 = (none, t)) :
    t.stopCh = .open ∧ t.doneCh = .open ∧ t.stopCloses = 0 ∧ t.doneCloses = 0 ∧
      t.panicked = t0.panicked := by
  have hf := Start_fields env t0
  rw [h] at hf
  exact hf

theorem afterSteps_start (t : Tunnel) (h1 : t.stopCh = .open) (h2 : t.doneCh = .open)
    (h3 : t.stopCloses = 0) (h4 : t.doneCloses = 0) : afterSteps t false false false = t := by
  cases t
  simp only [afterSteps] at *
  simp [h1, h2, h3, h4]

theorem step_afterSteps (t : Tunnel) (hp : t.panicked = false) (c k d : Bool) (s : Step) :
    step (afterSteps t c k d) s =
      afterSteps t (c || s.cleans) (k || s.kills) (d || s.closesDone) := by
  cases s <;> cases c <;> cases k <;> cases d <;>
    simp [step, afterSteps, cleanup, closeStop, closeDone, killDaemon, hp, Step.cleans,
      Step.kills, Step.closesDone, Function.comp_def]

theorem run_afterSteps (t : Tunnel) (hp : t.panicked = false) (steps : List Step) :
    ∀ c k d : Bool,
      run (afterSteps t c k d) steps =
        afterSteps t (c || steps.any Step.cleans) (k || steps.any Step.kills)
          (d || steps.any Step.closesDone) := by
  induction steps with
  | nil => intro c k d; simp [run]
  | cons s rest ih =>
    intro c k d
    have h := ih (c || s.cleans) (k || s.kills) (d || s.closesDone)
    simp only [run, List.foldl_cons] at h ⊢
    rw [step_afterSteps t hp, h]
    simp [Bool.or_assoc]

theorem Stop_eq_afterSteps (t : Tunnel) (hp : t.panicked = false) (h1 : t.stopCh = .open)
    (h2 : t.doneCh = .open) (h3 : t.stopCloses = 0) (h4 : t.doneCloses = 0) :
    Stop t = afterSteps t true true false := by
  have h := run_afterSteps t hp [Step.stopCleanup, Step.stopKill] false false false
  rw [afterSteps_start t h1 h2 h3 h4] at h
  simpa [run, step, Stop, Step.cleans, Step.kills, Step.closesDone] using h

/-- C14: on a tunnel that `Start` has started, every schedule of teardown
steps (the two halves of `Stop` calls and the reaper's `cleanup` and closing of
the done channel, in any order and number) that holds a whole `Stop` closes the
stop channel exactly once and the done channel at most once, never panics on a
close, and leaves the channel, the connections, the listener and the daemon as
a single `Stop` leaves them; a second `Stop` right after a first changes
nothing. -/
theorem Stop_idempotent (env : StartEnv) (t0 t : Tunnel) (steps : List Step)
    (hstart : Start env t0 = (none, t)) (hp : t0.panicked = false)
    (hc : Step.stopCleanup ∈ steps) (hk : Step.stopKill ∈ steps) :
    (run t steps).stopCloses = 1 ∧ (run t steps).doneCloses ≤ 1 ∧
    (run t steps).panicked = false ∧
    (run t steps).stopCh = (Stop t).stopCh ∧
    (run t steps).remoteConns = (Stop t).remoteConns ∧
    (run t steps).listener = (Stop t).listener ∧
    (run t steps).daemon = (Stop t).daemon ∧
    Stop (Stop t) = Stop t := by
  obtain ⟨h1, h2, h3, h4, h5⟩ := Start_ok env t0 t hstart
  have hpt : t.panicked = false := by rw [h5, hp]
  have hrun := run_afterSteps t hpt steps false false false
  rw [afterSteps_start t h1 h2 h3 h4] at hrun
  have hcl : steps.any Step.cleans = true :=
    List.any_eq_true.mpr ⟨_, hc, rfl⟩
  have hki : steps.any Step.kills = true :=
    List.any_eq_true.mpr ⟨_, hk, rfl⟩
  have hstop := Stop_eq_afterSteps t hpt h1 h2 h3 h4
  have htwice : Stop (Stop t) = Stop t := by
    have h2s := run_afterSteps t hpt [Step.stopCleanup, Step.stopKill] true true false
    rw [hstop]
    simpa [run, step, Stop, Step.cleans, Step.kills, Step.closesDone] using h2s
  rw [hrun, hstop, hcl, hki]
  refine ⟨by simp [afterSteps], ?_, by simp [afterSteps, hpt], by simp [afterSteps],
    by simp [afterSteps], by simp [afterSteps], by simp [afterSteps], ?_⟩
  · cases steps.any Step.closesDone <;> simp [afterSteps]
  · rw [← hstop]
    exact htwice

theorem Stop_idempotent_witness :
    Start goodStart (newTunnel "10.0.0.5" "22" "2222" false) =
        (none, (Start goodStart (newTunnel "10.0.0.5" "22" "2222" false)).2) ∧
    ((run (Start goodStart (newTunnel "10.0.0.5" "22" "2222" false)).2
        [.stopCleanup, .reaperCleanup, .stopKill, .reaperDone, .stopCleanup, .stopKill]).stopCloses
        = 1 ∧
      (run (Start goodStart (newTunnel "10.0.0.5" "22" "2222" false)).2
        [.stopCleanup, .reaperCleanup, .stopKill, .reaperDone, .stopCleanup, .stopKill]).doneCloses
        ≤ 1 ∧
      (run (Start goodStart (newTunnel "10.0.0.5" "22" "2222" false)).2
        [.stopCleanup, .reaperCleanup, .stopKill, .reaperDone, .stopCleanup, .stopKill]).panicked
        = false ∧
      (run (Start goodStart (newTunnel "10.0.0.5" "22" "2222" false)).2
        [.stopCleanup, .reaperCleanup, .stopKill, .reaperDone, .stopCleanup, .stopKill]).stopCh
        = (Stop (Start goodStart (newTunnel "10.0.0.5" "22" "2222" false)).2).stopCh ∧
      (run (Start goodStart (newTunnel "10.0.0.5" "22" "2222" false)).2
        [.stopCleanup, .reaperCleanup, .stopKill, .reaperDone, .stopCleanup, .stopKill]).remoteConns
        = (Stop (Start goodStart (newTunnel "10.0.0.5" "22" "2222" false)).2).remoteConns ∧
      (run (Start goodStart (newTunnel "10.0.0.5" "22" "2222" false)).2
        [.stopCleanup, .reaperCleanup, .stopKill, .reaperDone, .stopCleanup, .stopKill]).listener
        = (Stop (Start goodStart (newTunnel "10.0.0.5" "22" "2222" false)).2).listener ∧
      (run (Start goodStart (newTunnel "10.0.0.5" "22" "2222" false)).2
        [.stopCleanup, .reaperCleanup, .stopKill, .reaperDone, .stopCleanup, .stopKill]).daemon
        = (Stop (Start goodStart (newTunnel "10.0.0.5" "22" "2222" false)).2).daemon ∧
      Stop (Stop (Start goodStart (newTunnel "10.0.0.5" "22" "2222" false)).2) =
        Stop (Start goodStart (newTunnel "10.0.0.5" "22" "2222" false)).2) :=
  ⟨rfl, Stop_idempotent goodStart (newTunnel "10.0.0.5" "22" "2222" false) _
    [.stopCleanup, .reaperCleanup, .stopKill, .reaperDone, .stopCleanup, .stopKill]
    rfl rfl (by decide) (by decide)⟩

theorem handleLoop_untouched (env : HandleEnv) :
    ∀ (fuel errCount : Nat) (t : Tunnel) (tr : List Event) (r : Tunnel × Nat × List Event),
      handleLoop env fuel errCount t tr = some r →
      r.1.doneCh = t.doneCh ∧ r.1.stopCh = t.stopCh ∧ r.1.listener = t.listener ∧
        r.1.doneCloses = t.doneCloses ∧ r.1.stopCloses = t.stopCloses := by
  intro fuel
  induction fuel with
  | zero => intro errCount t tr r h; simp [handleLoop] at h
  | succ fuel ih =>
    intro errCount t tr r h
    rw [handleLoop] at h
    split at h
    · simp only at h
      split at h
      · simp only [Option.some.injEq] at h
        subst h
        simp
      · split at h
        · simp only [Option.some.injEq] at h
          subst h
          simp
        · exact ih _ _ _ _ h
    · simp only at h
      split at h
      · split at h
        · simp only [Option.some.injEq] at h
          subst h
          simp
        · have := ih _ _ _ _ h
          simpa using this
      · have := ih _ _ _ _ h
        simpa using this

theorem dials_cons_dial (err : Option GoError) (tr : List Event) :
    dials (.dial err :: tr) = dials tr + 1 := by
  simp [dials]

theorem dials_cons_sleep (n : Nat) (tr : List Event) :
    dials (.sleep n :: tr) = dials tr := by
  simp [dials]

theorem naps_cons_dial (err : Option GoError) (tr : List Event) :
    naps (.dial err :: tr) = naps tr := by
  simp [naps]

theorem naps_cons_sleep (n : Nat) (tr : List Event) :
    naps (.sleep n :: tr) = naps tr + 1 := by
  simp [naps]

theorem handleLoop_ten_failures (env : HandleEnv) (t : Tunnel) (hopen : t.stopCh ≠ .closed)
    (hfail : ∀ tr, dials tr < 10 → (env.dial tr).isSome = true)
    (hstop : ∀ tr, env.stopFires tr = false) :
    ∀ (n errCount fuel : Nat) (tr : List Event),
      errCount + n + 1 = 10 → n < fuel → dials tr = errCount →
      ∃ tr2, handleLoop env fuel errCount t tr = some (t, 10, tr2) ∧
        dials tr2 = 10 ∧ naps tr2 = naps tr + n ∧
        ∀ e ∈ tr2, (∃ msg, e = Event.warn msg) → e ∈ tr := by
  have hsee : ∀ tr, stopSeen env t tr = false := by
    intro tr
    simp [stopSeen, hopen, hstop]
  intro n
  induction n with
  | zero =>
    intro errCount fuel tr he hf hd
    obtain ⟨fuel, rfl⟩ : ∃ f, fuel = f + 1 := ⟨fuel - 1, by omega⟩
    have hdial := hfail tr (by omega)
    cases hv : env.dial tr with
    | none => simp [hv] at hdial
    | some err =>
      refine ⟨Event.dial (some err) :: tr, ?_, ?_, ?_, ?_⟩
      · rw [handleLoop]
        simp only [hv, hsee, Bool.false_eq_true, if_false]
        have h10 : errCount + 1 = 10 := by omega
        simp [h10]
      · rw [dials_cons_dial]; omega
      · rw [naps_cons_dial]; rfl
      · intro e he2 hw
        rcases List.mem_cons.mp he2 with rfl | he2
        · obtain ⟨msg, hmsg⟩ := hw
          cases hmsg
        · exact he2
  | succ n ih =>
    intro errCount fuel tr he hf hd
    obtain ⟨fuel, rfl⟩ : ∃ f, fuel = f + 1 := ⟨fuel - 1, by omega⟩
    have hdial := hfail tr (by omega)
    cases hv : env.dial tr with
    | none => simp [hv] at hdial
    | some err =>
      obtain ⟨tr2, hrun, hd2, hn2, hw2⟩ := ih (errCount + 1) fuel
        (.sleep 3 :: .dial (some err) :: tr) (by omega) (by omega)
        (by rw [dials_cons_sleep, dials_cons_dial]; omega)
      refine ⟨tr2, ?_, hd2, ?_, ?_⟩
      · rw [handleLoop]
        simp only [hv, hsee, Bool.false_eq_true, if_false]
        have h10 : ¬ (errCount + 1 = 10) := by omega
        simp only [h10, if_false]
        exact hrun
      · rw [hn2, naps_cons_sleep, naps_cons_dial]; omega
      · intro e he2 hw
        have := hw2 e he2 hw
        rcases List.mem_cons.mp this with rfl | h3
        · obtain ⟨msg, hmsg⟩ := hw
          cases hmsg
        · rcases List.mem_cons.mp h3 with rfl | h4
          · obtain ⟨msg, hmsg⟩ := hw
            cases hmsg
          · exact h4

/-- C15, as stated, fails: on a started interactive tunnel whose destination
refuses every dial, the accept loop returns after the tenth dial and the
channel `Done()` returns is still open. -/
theorem handle_stops_without_done :
    ∃ tr, handle refusedEnv 10 (Start goodStart (newTunnel "10.0.0.5" "22" "2222" false)).2 =
        some ((Start goodStart (newTunnel "10.0.0.5" "22" "2222" false)).2, 10, tr) ∧
      dials tr = 10 ∧
      Done (Start goodStart (newTunnel "10.0.0.5" "22" "2222" false)).2 = .open ∧
      (Start goodStart (newTunnel "10.0.0.5" "22" "2222" false)).2.listener = some false := by
  refine ⟨_, rfl, ?_, rfl, rfl⟩
  decide

/-- C15, amended: when the first ten dials of the accept loop fail (and the
stop signal is not seen), the loop returns at the tenth failure, after ten
dials and nine sleeps of 3 seconds, silently: it logs no warning, records no
error, and leaves the tunnel as it was, the done channel not fired and the
listener not closed.  The loop never touches the done channel, however it
ends: only the reaper closes it. -/
theorem handle_ten_failures_silent (env : HandleEnv) (t : Tunnel) (fuel : Nat)
    (hopen : t.stopCh ≠ .closed) (hfuel : 10 ≤ fuel)
    (hfail : ∀ tr, dials tr < 10 → (env.dial tr).isSome = true)
    (hstop : ∀ tr, env.stopFires tr = false) :
    (∃ tr, handle env fuel t = some (t, 10, tr) ∧ dials tr = 10 ∧ naps tr = 9 ∧
      ∀ e ∈ tr, ∀ msg, e ≠ Event.warn msg) ∧
    ∀ (env2 : HandleEnv) (fuel2 : Nat) (r : Tunnel × Nat × List Event),
      handle env2 fuel2 t = some r → Done r.1 = Done t := by
  refine ⟨?_, ?_⟩
  · obtain ⟨tr, hrun, hd, hn, hw⟩ := handleLoop_ten_failures env t hopen hfail hstop 9 0 fuel
      [.reaperStarted] (by omega) (by omega) (by decide)
    refine ⟨tr, hrun, hd, ?_, ?_⟩
    · rw [hn]; decide
    · intro e he msg hmsg
      have := hw e he ⟨msg, hmsg⟩
      rw [hmsg] at this
      simp at this
  · intro env2 fuel2 r h
    exact (handleLoop_untouched env2 fuel2 0 t [.reaperStarted] r h).1

theorem handle_ten_failures_silent_witness :
    (∃ tr, handle refusedEnv 12 (Start goodStart (newTunnel "10.0.0.5" "22" "2222" false)).2 =
        some ((Start goodStart (newTunnel "10.0.0.5" "22" "2222" false)).2, 10, tr) ∧
      dials tr = 10 ∧ naps tr = 9 ∧ ∀ e ∈ tr, ∀ msg, e ≠ Event.warn msg) ∧
    ∀ (env2 : HandleEnv) (fuel2 : Nat) (r : Tunnel × Nat × List Event),
      handle env2 fuel2 (Start goodStart (newTunnel "10.0.0.5" "22" "2222" false)).2 = some r →
        Done r.1 = Done (Start goodStart (newTunnel "10.0.0.5" "22" "2222" false)).2 :=
  handle_ten_failures_silent refusedEnv
    (Start goodStart (newTunnel "10.0.0.5" "22" "2222" false)).2 12 (by decide) (by decide)
    (fun _ _ => rfl) (fun _ => rfl)

theorem failedDials_cons_failed (err : GoError) (tr : List Event) :
    failedDials (.dial (some err) :: tr) = failedDials tr + 1 := by
  simp [failedDials]

theorem failedDials_cons_other (e : Event) (tr : List Event)
    (h : ∀ err, e ≠ .dial (some err)) : failedDials (e :: tr) = failedDials tr := by
  cases e with
  | dial x =>
    cases x with
    | none => simp [failedDials]
    | some err => exact absurd rfl (h err)
  | _ => simp [failedDials]

theorem goodDials_cons_good (tr : List Event) :
    goodDials (.dial none :: tr) = goodDials tr + 1 := by
  simp [goodDials]

theorem goodDials_cons_other (e : Event) (tr : List Event) (h : e ≠ .dial none) :
    goodDials (e :: tr) = goodDials tr := by
  cases e with
  | dial x =>
    cases x with
    | none => exact absurd rfl h
    | some err => simp [goodDials]
  | _ => simp [goodDials]

theorem naps_cons_other (e : Event) (tr : List Event) (h : ∀ n, e ≠ .sleep n) :
    naps (e :: tr) = naps tr := by
  cases e with
  | sleep n => exact absurd rfl (h n)
  | _ => simp [naps]

/-- While nobody stops the tunnel, a run of the accept loop that returns has
counted every failed dial since the loop started, whatever happened in
between. -/
theorem handleLoop_cumulative (env : HandleEnv) (hstop : ∀ tr, env.stopFires tr = false) :
    ∀ (fuel errCount : Nat) (t : Tunnel) (tr : List Event) (r : Tunnel × Nat × List Event),
      t.stopCh ≠ .closed → errCount < 10 → failedDials tr = errCount → naps tr = errCount →
      (∀ n, Event.sleep n ∈ tr → n = 3) →
      handleLoop env fuel errCount t tr = some r →
      r.2.1 = 10 ∧ failedDials r.2.2 = 10 ∧ naps r.2.2 = 9 ∧
        (∀ n, Event.sleep n ∈ r.2.2 → n = 3) ∧
        ∃ err rest, r.2.2 = Event.dial (some err) :: rest := by
  intro fuel
  induction fuel with
  | zero => intro errCount t tr r _ _ _ _ _ h; simp [handleLoop] at h
  | succ fuel ih =>
    intro errCount t tr r hopen hlt hf hn h3 h
    have hsee : ∀ (t2 : Tunnel) (tr2 : List Event), t2.stopCh = t.stopCh →
        stopSeen env t2 tr2 = false := by
      intro t2 tr2 h2
      simp [stopSeen, h2, hopen, hstop]
    rw [handleLoop] at h
    cases hv : env.dial tr with
    | some err =>
      simp only [hv, hsee t _ rfl, Bool.false_eq_true, if_false] at h
      by_cases h10 : errCount + 1 = 10
      · simp only [h10, if_true, Option.some.injEq] at h
        subst h
        refine ⟨rfl, ?_, ?_, ?_, ⟨err, tr, rfl⟩⟩
        · simp only [failedDials_cons_failed]; omega
        · simp only [naps_cons_dial]; omega
        · intro n hmem
          rcases List.mem_cons.mp hmem with hx | hx
          · cases hx
          · exact h3 n hx
      · simp only [h10, if_false] at h
        refine ih (errCount + 1) t _ r hopen (by omega) ?_ ?_ ?_ h
        · rw [failedDials_cons_other _ _ (by intro e; simp), failedDials_cons_failed]; omega
        · rw [naps_cons_sleep, naps_cons_dial]; omega
        · intro n hmem
          rcases List.mem_cons.mp hmem with hx | hx
          · cases hx; rfl
          · rcases List.mem_cons.mp hx with hy | hy
            · cases hy
            · exact h3 n hy
    | none =>
      simp only [hv] at h
      cases ha : env.accept (Event.dial none :: tr) with
      | some aerr =>
        simp only [ha] at h
        simp only [stopSeen, hstop, Bool.or_false, decide_eq_true_eq, hopen, if_false] at h
        refine ih errCount _ _ r ?_ hlt ?_ ?_ ?_ h
        · exact hopen
        · rw [failedDials_cons_other _ _ (by intro e; simp),
            failedDials_cons_other _ _ (by intro e; simp),
            failedDials_cons_other _ _ (by intro e; simp)]
          exact hf
        · rw [naps_cons_other _ _ (by intro n; simp), naps_cons_other _ _ (by intro n; simp),
            naps_cons_dial]
          exact hn
        · intro n hmem
          simp only [List.mem_cons, reduceCtorEq, false_or] at hmem
          exact h3 n hmem
      | none =>
        simp only [ha] at h
        refine ih errCount _ _ r ?_ hlt ?_ ?_ ?_ h
        · exact hopen
        · rw [failedDials_cons_other _ _ (by intro e; simp),
            failedDials_cons_other _ _ (by intro e; simp),
            failedDials_cons_other _ _ (by intro e; simp)]
          exact hf
        · rw [naps_cons_other _ _ (by intro n; simp), naps_cons_other _ _ (by intro n; simp),
            naps_cons_dial]
          exact hn
        · intro n hmem
          simp only [List.mem_cons, reduceCtorEq, false_or] at hmem
          exact h3 n hmem

/-- While nobody stops the tunnel and the destination takes at most `S` dials,
the accept loop returns within `S + 10` rounds. -/
theorem handleLoop_returns (env : HandleEnv) (hstop : ∀ tr, env.stopFires tr = false)
    (S : Nat) (hS : ∀ tr, S ≤ goodDials tr → (env.dial tr).isSome = true) :
    ∀ (fuel errCount : Nat) (t : Tunnel) (tr : List Event),
      t.stopCh ≠ .closed → errCount < 10 →
      (S - goodDials tr) + (10 - errCount) ≤ fuel →
      (handleLoop env fuel errCount t tr).isSome = true := by
  intro fuel
  induction fuel with
  | zero => intro errCount t tr _ hlt hm; omega
  | succ fuel ih =>
    intro errCount t tr hopen hlt hm
    have hsee : ∀ (t2 : Tunnel) (tr2 : List Event), t2.stopCh = t.stopCh →
        stopSeen env t2 tr2 = false := by
      intro t2 tr2 h2
      simp [stopSeen, h2, hopen, hstop]
    rw [handleLoop]
    cases hv : env.dial tr with
    | some err =>
      simp only [hsee t _ rfl, Bool.false_eq_true, if_false]
      by_cases h10 : errCount + 1 = 10
      · simp [h10]
      · simp only [h10, if_false]
        refine ih (errCount + 1) t _ hopen (by omega) ?_
        rw [goodDials_cons_other _ _ (by simp), goodDials_cons_other _ _ (by simp)]
        omega
    | none =>
      have hg : goodDials tr < S := by
        by_contra hge
        have := hS tr (by omega)
        simp [hv] at this
      simp only
      cases ha : env.accept (Event.dial none :: tr) with
      | some aerr =>
        simp only [stopSeen, hstop, Bool.or_false, decide_eq_true_eq, hopen, if_false]
        refine ih errCount _ _ ?_ hlt ?_
        · exact hopen
        rw [goodDials_cons_other _ _ (by simp), goodDials_cons_other _ _ (by simp),
          goodDials_cons_good]
        omega
      | none =>
        simp only
        refine ih errCount _ _ ?_ hlt ?_
        · exact hopen
        rw [goodDials_cons_other _ _ (by simp), goodDials_cons_other _ _ (by simp),
          goodDials_cons_good]
        omega

/-- C26: while the stop signal does not fire, every run of the accept loop
that returns does so at a failed dial that brings the number of failed dials
since the loop started to 10, with one sleep of 3 seconds after each of the
nine failures before it, whatever successful dials and accepts lie in
between; and the loop does return, within `S + 10` rounds, when the
destination takes at most `S` dials. -/
theorem handle_counts_all_failed_dials (env : HandleEnv) (t : Tunnel)
    (hopen : t.stopCh ≠ .closed) (hstop : ∀ tr, env.stopFires tr = false) :
    (∀ (fuel : Nat) (r : Tunnel × Nat × List Event), handle env fuel t = some r →
      r.2.1 = 10 ∧ failedDials r.2.2 = 10 ∧ naps r.2.2 = 9 ∧
        (∀ n, Event.sleep n ∈ r.2.2 → n = 3) ∧
        ∃ err rest, r.2.2 = Event.dial (some err) :: rest) ∧
    (∀ (S fuel : Nat), (∀ tr, S ≤ goodDials tr → (env.dial tr).isSome = true) →
      S + 10 ≤ fuel → (handle env fuel t).isSome = true) := by
  refine ⟨?_, ?_⟩
  · intro fuel r h
    exact handleLoop_cumulative env hstop fuel 0 t [.reaperStarted] r hopen (by omega)
      (by decide) (by decide) (by intro n hmem; simp at hmem) h
  · intro S fuel hS hfuel
    refine handleLoop_returns env hstop S hS fuel 0 t [.reaperStarted] hopen (by omega) ?_
    omega

theorem handle_counts_all_failed_dials_witness :
    (∃ r, handle flakyEnv 13 (Start goodStart (newTunnel "10.0.0.5" "22" "2222" false)).2 =
        some r ∧ r.2.1 = 10 ∧ failedDials r.2.2 = 10 ∧ goodDials r.2.2 = 3 ∧ dials r.2.2 = 13 ∧
        naps r.2.2 = 9) ∧
    (handle flakyEnv 12 (Start goodStart (newTunnel "10.0.0.5" "22" "2222" false)).2).isSome =
      false ∧
    ((∀ (fuel : Nat) (r : Tunnel × Nat × List Event),
        handle flakyEnv fuel (Start goodStart (newTunnel "10.0.0.5" "22" "2222" false)).2 =
          some r →
        r.2.1 = 10 ∧ failedDials r.2.2 = 10 ∧ naps r.2.2 = 9 ∧
          (∀ n, Event.sleep n ∈ r.2.2 → n = 3) ∧
          ∃ err rest, r.2.2 = Event.dial (some err) :: rest) ∧
      (∀ (S fuel : Nat), (∀ tr, S ≤ goodDials tr → (flakyEnv.dial tr).isSome = true) →
        S + 10 ≤ fuel →
        (handle flakyEnv fuel
          (Start goodStart (newTunnel "10.0.0.5" "22" "2222" false)).2).isSome = true)) :=
  ⟨⟨_, rfl, by decide, by decide, by decide, by decide, by decide⟩, by decide,
   handle_counts_all_failed_dials flakyEnv
     (Start goodStart (newTunnel "10.0.0.5" "22" "2222" false)).2 (by decide) (fun _ => rfl)⟩

theorem Stop_safe_of_made (t : Tunnel) (hp : t.panicked = false) (hs : t.stopCh ≠ .nil) :
    (Stop t).panicked = false ∧ (Stop t).stopCh ≠ .nil := by
  cases hc : t.stopCh <;> simp_all [Stop, killDaemon, cleanup, closeStop]

theorem calls_safe_of_made (cs : List Call) :
    ∀ t : Tunnel, t.panicked = false → t.stopCh ≠ .nil → (calls t cs).panicked = false := by
  induction cs with
  | nil => intro t hp _; exact hp
  | cons c rest ih =>
    intro t hp hs
    cases c with
    | start env =>
      have hf := Start_fields env t
      simp only [calls, hp, Bool.false_eq_true, if_false]
      exact ih _ (by rw [hf.2.2.2.2, hp]) (by rw [hf.1]; simp)
    | stop =>
      have hst := Stop_safe_of_made t hp hs
      simp only [calls]
      exact ih _ hst.1 hst.2

/-- The sibling path: once `Start` has run, even when it failed, no sequence
of further `Start` and `Stop` calls panics, since `Start` makes the stop
channel before anything else. -/
theorem Stop_after_Start_safe (dest destPort localPort : String) (daemonize : Bool)
    (env : StartEnv) (cs : List Call) :
    (calls (newTunnel dest destPort localPort daemonize) (.start env :: cs)).panicked = false := by
  have hf := Start_fields env (newTunnel dest destPort localPort daemonize)
  simp only [calls]
  have hp : (newTunnel dest destPort localPort daemonize).panicked = false := rfl
  simp only [hp, Bool.false_eq_true, if_false]
  exact calls_safe_of_made cs _ (by rw [hf.2.2.2.2]; rfl) (by rw [hf.1]; simp)

/-- C27 evaluated where it fails: the constructor makes the done channel and
leaves the stop channel nil, so a `Stop` before any `Start` reaches
`close(t.stopCh)` on a nil channel and panics; after a `Start` that failed,
`Stop` is safe. -/
theorem Stop_before_Start_panics :
    (newTunnel "10.0.0.5" "22" "2222" false).stopCh = .nil ∧
    (newTunnel "10.0.0.5" "22" "2222" false).doneCh = .open ∧
    (Stop (newTunnel "10.0.0.5" "22" "2222" false)).panicked = true ∧
    (calls (newTunnel "10.0.0.5" "22" "2222" false) [.stop]).panicked = true ∧
    (Start badStart (newTunnel "10.0.0.5" "22" "2222" false)).1 =
      some (.foreign "ssh: handshake failed") ∧
    (calls (newTunnel "10.0.0.5" "22" "2222" false) [.start badStart, .stop]).panicked = false :=
  ⟨rfl, rfl, rfl, rfl, rfl, rfl⟩

end Ssh

/-! # Properties of the init token -/

namespace Kubernetes

/-- C25: once `InitToken()` has handed out the token, `ensureCreated` looks it
up.  A lookup without error returns nil; a lookup error whose message lacks
`Code: 403.` or lacks `bad token` is logged and returned as it is; a lookup
error whose message holds both leads to one `CreateOrphan` call for the token,
whose error is the result.  So among the events of the call there is a
`CreateOrphan` exactly when the lookup failed with a message that holds both
texts. -/
theorem ensureCreated_bad_token_policy (env : Env) (i i1 : InitToken) (tr tr1 : List Event)
    (token : String) (h : InitToken.InitToken env i tr = (.ok token, i1, tr1)) :
    (∃ new, (ensureCreated env i tr).2.2 = new ++ tr1 ∧
      ((∃ e ∈ new, e.isCreateOrphan = true) ↔
        ∃ err, env.lookup tr1 token = .error err ∧
          Terraform.stringsContains err.Error "Code: 403." = true ∧
          Terraform.stringsContains err.Error "bad token" = true)) ∧
    (∀ sec, env.lookup tr1 token = .ok sec →
      ensureCreated env i tr = (none, i1, Event.lookup token :: tr1)) ∧
    (∀ err, env.lookup tr1 token = .error err →
      ¬ (Terraform.stringsContains err.Error "Code: 403." = true ∧
          Terraform.stringsContains err.Error "bad token" = true) →
      ensureCreated env i tr =
        (some err, i1,
          Event.logError ("GOT ERROR HERE!\n" ++ err.Error ++ "\n") ::
            Event.lookup token :: tr1)) ∧
    (∀ err, env.lookup tr1 token = .error err →
      Terraform.stringsContains err.Error "Code: 403." = true →
      Terraform.stringsContains err.Error "bad token" = true →
      ensureCreated env i tr =
        (env.createOrphan (Event.lookup token :: tr1) (orphanRequest i1 token), i1,
          Event.createOrphan (orphanRequest i1 token) :: Event.lookup token :: tr1)) := by
  have hok : ∀ sec, env.lookup tr1 token = .ok sec →
      ensureCreated env i tr = (none, i1, Event.lookup token :: tr1) := by
    intro sec hl
    simp [ensureCreated, h, hl]
  have hother : ∀ err, env.lookup tr1 token = .error err →
      ¬ (Terraform.stringsContains err.Error "Code: 403." = true ∧
          Terraform.stringsContains err.Error "bad token" = true) →
      ensureCreated env i tr =
        (some err, i1,
          Event.logError ("GOT ERROR HERE!\n" ++ err.Error ++ "\n") ::
            Event.lookup token :: tr1) := by
    intro err hl hn
    have hcond : (!Terraform.stringsContains err.Error "Code: 403." ||
        !Terraform.stringsContains err.Error "bad token") = true := by
      cases h1 : Terraform.stringsContains err.Error "Code: 403." <;>
        cases h2 : Terraform.stringsContains err.Error "bad token" <;> simp_all
    simp only [ensureCreated, h, hl, hcond, if_true]
  have hbad : ∀ err, env.lookup tr1 token = .error err →
      Terraform.stringsContains err.Error "Code: 403." = true →
      Terraform.stringsContains err.Error "bad token" = true →
      ensureCreated env i tr =
        (env.createOrphan (Event.lookup token :: tr1) (orphanRequest i1 token), i1,
          Event.createOrphan (orphanRequest i1 token) :: Event.lookup token :: tr1) := by
    intro err hl h1 h2
    simp [ensureCreated, h, hl, h1, h2]
  refine ⟨?_, hok, hother, hbad⟩
  cases hl : env.lookup tr1 token with
  | ok sec =>
    refine ⟨[Event.lookup token], by rw [hok sec hl]; rfl, ?_⟩
    constructor
    · rintro ⟨e, he, hc⟩
      simp only [List.mem_singleton] at he
      subst he
      simp [Event.isCreateOrphan] at hc
    · rintro ⟨err, he, -⟩
      cases he
  | error err =>
    by_cases hb : Terraform.stringsContains err.Error "Code: 403." = true ∧
        Terraform.stringsContains err.Error "bad token" = true
    · refine ⟨[Event.createOrphan (orphanRequest i1 token), Event.lookup token],
        by rw [hbad err hl hb.1 hb.2]; rfl, ?_⟩
      constructor
      · intro _
        exact ⟨err, rfl, hb.1, hb.2⟩
      · intro _
        exact ⟨_, List.mem_cons_self _ _, rfl⟩
    · refine ⟨[Event.logError ("GOT ERROR HERE!\n" ++ err.Error ++ "\n"), Event.lookup token],
        by rw [hother err hl hb]; rfl, ?_⟩
      constructor
      · rintro ⟨e, he, hc⟩
        simp only [List.mem_cons, List.mem_singleton, List.not_mem_nil, or_false] at he
        rcases he with rfl | rfl <;> simp [Event.isCreateOrphan] at hc
      · rintro ⟨err2, he, h1, h2⟩
        simp only [Except.error.injEq] at he
        subst he
        exact absurd ⟨h1, h2⟩ hb

theorem ensureCreated_bad_token_policy_witness :
    ensureCreated
        (lookupEnv (.foreign "Error making API request.\n\nCode: 403. Errors:\n\n* bad token"))
        demoToken [] =
      (none, { demoToken with token := some "tok-1" },
        [Event.createOrphan
           { ID := "tok-1", DisplayName := "c1/pki/secrets/init_token_worker",
             TTL := "31536000", Period := "31536000",
             Policies := ["default", "c1/worker-creator"] },
         Event.lookup "tok-1",
         Event.backendInitToken "c1-worker" "worker" ["c1/worker-creator"] ""]) ∧
    ensureCreated (lookupEnv (.foreign "Code: 403. Errors:\n\n* permission denied"))
        demoToken [] =
      (some (.foreign "Code: 403. Errors:\n\n* permission denied"),
        { demoToken with token := some "tok-1" },
        [Event.logError "GOT ERROR HERE!\nCode: 403. Errors:\n\n* permission denied\n",
         Event.lookup "tok-1",
         Event.backendInitToken "c1-worker" "worker" ["c1/worker-creator"] ""]) ∧
    ensureCreated (roleEnv (.ok none)) demoToken [] =
      (none, { demoToken with token := some "tok-1" },
        [Event.lookup "tok-1",
         Event.backendInitToken "c1-worker" "worker" ["c1/worker-creator"] ""]) :=
  ⟨(ensureCreated_bad_token_policy
      (lookupEnv (.foreign "Error making API request.\n\nCode: 403. Errors:\n\n* bad token"))
      demoToken _ [] _ "tok-1" rfl).2.2.2 _ rfl (by decide) (by decide),
   (ensureCreated_bad_token_policy
      (lookupEnv (.foreign "Code: 403. Errors:\n\n* permission denied"))
      demoToken _ [] _ "tok-1" rfl).2.2.1 _ rfl (by decide),
   (ensureCreated_bad_token_policy (roleEnv (.ok none)) demoToken _ [] _ "tok-1" rfl).2.1 _ rfl⟩

/-- The float64 test `ttl.Hours() < 24*365` around one year: a duration of one
to three nanoseconds under 8760 hours has `Hours()` rounded up to 8760, so the
test fails for it as it does from 8760 hours on; four nanoseconds under, and
below, the test holds. -/
theorem lessThanYear_boundary :
    lessThanYear (31536000000000000 - 4) = true ∧
    lessThanYear (31536000000000000 - 3) = false ∧
    lessThanYear (31536000000000000 - 2) = false ∧
    lessThanYear (31536000000000000 - 1) = false ∧
    lessThanYear 31536000000000000 = false ∧
    lessThanYear (2 * 31536000000000000) = false ∧
    lessThanYear 0 = true ∧
    lessThanYear (-1) = true ∧
    Hours 5400000000000 = (3 * 2 ^ 51, 2 ^ 52) :=
  ⟨rfl, rfl, rfl, rfl, rfl, rfl, rfl, rfl, rfl⟩

/-- When the read of the token role fails, `readTokenRole` returns a nil
secret with the wrapped error. -/
theorem readTokenRole_error (env : Env) (i : InitToken) (tr : List Event) (err : GoError)
    (h : env.read tr (i.Path env) = .error err) :
    readTokenRole env i tr =
      ((none, some (.errorString
        ("error read token role " ++ i.Path env ++ ": " ++ err.Error))),
        Event.read (i.Path env) :: tr) := by
  simp [readTokenRole, h]

/-- Whenever the first step of `EnsureDryRun` lets it go on and the secret that
`readTokenRole` returns is nil, with or without an error, `EnsureDryRun`
reads `secret.Data` of the nil secret. -/
theorem EnsureDryRun_nil_secret (env : Env) (i i1 : InitToken) (tr tr1 tr2 : List Event)
    (err : Option GoError)
    (h1 : ensureDryRunExpDate env i tr = ((false, none), i1, tr1))
    (h2 : readTokenRole env i1 tr1 = ((none, err), tr2)) :
    EnsureDryRun env i tr = (.nilDereference, i1, tr2) := by
  cases err <;> simp [EnsureDryRun, h1, h2, secretData]

/-- The sibling path: with a secret that is not nil, `EnsureDryRun` returns a
`(bool, error)` pair. -/
theorem EnsureDryRun_with_secret (env : Env) (i i1 : InitToken) (tr tr1 tr2 : List Event)
    (err : Option GoError) (secret : Secret)
    (h1 : ensureDryRunExpDate env i tr = ((false, none), i1, tr1))
    (h2 : readTokenRole env i1 tr1 = ((some secret, err), tr2)) :
    ∃ b e, (EnsureDryRun env i tr).1 = .returned (b, e) := by
  have hrest : ∀ result tr3, ∃ b e, (dryRunRest env i1 result tr3).1 = .returned (b, e) := by
    intro result tr3
    unfold dryRunRest
    simp only
    repeat' split
    all_goals exact ⟨_, _, rfl⟩
  cases err with
  | some e =>
    simp only [EnsureDryRun, h1, h2, secretData]
    split
    · exact ⟨_, _, rfl⟩
    · exact hrest _ _
  | none =>
    simp only [EnsureDryRun, h1, h2, secretData]
    split
    · exact ⟨_, _, rfl⟩
    · split
      · exact ⟨_, _, rfl⟩
      · exact hrest _ _

/-- C28 evaluated where it fails: the token is valid for two years, so the
first step lets `EnsureDryRun` go on.  When the read of the token role fails,
`readTokenRole` returns a nil secret and an error, `EnsureDryRun` collects the
error and then evaluates `secret.Data`; when the read succeeds with no secret
stored, it evaluates `len(secret.Data)`.  Both are nil pointer dereferences,
so no `(bool, error)` is returned. -/
theorem EnsureDryRun_dereferences_nil_secret :
    (ensureDryRunExpDate (roleEnv (.error (.foreign "connection refused"))) demoToken []).1 =
      (false, none) ∧
    (readTokenRole (roleEnv (.error (.foreign "connection refused")))
        { demoToken with token := some "tok-1" } []).1 =
      (none, some (.errorString
        "error read token role auth/token/roles/c1-worker: connection refused")) ∧
    EnsureDryRun (roleEnv (.error (.foreign "connection refused"))) demoToken [] =
      (.nilDereference, { demoToken with token := some "tok-1" },
        [Event.read "auth/token/roles/c1-worker", Event.lookup "tok-1",
         Event.backendInitToken "c1-worker" "worker" ["c1/worker-creator"] ""]) ∧
    EnsureDryRun (roleEnv (.ok none)) demoToken [] =
      (.nilDereference, { demoToken with token := some "tok-1" },
        [Event.read "auth/token/roles/c1-worker", Event.lookup "tok-1",
         Event.backendInitToken "c1-worker" "worker" ["c1/worker-creator"] ""]) ∧
    (EnsureDryRun (roleEnv (.ok (some { Data := [("period", "31536000")], TokenTTL := .ok 0 })))
        demoToken []).1 = .returned (false, none) :=
  ⟨rfl, rfl, rfl, rfl, rfl⟩

end Kubernetes

/-! # Properties of the encryption-provider key -/

namespace Amazon

/-- Whenever `ensureEncryptionProviderKMS` returns nil, one of two things has
happened: the alias was found, and the key's ARN went to `remoteStateKMS`
with `encryptionProviderKMS` left as it was; or the alias was not found, the
key and its alias were created, and the new key's ARN went to
`encryptionProviderKMS` with `remoteStateKMS` left as it was. -/
theorem ensureEncryptionProviderKMS_ok (env : Env) (a a2 : Amazon) (tr tr2 : List Event)
    (h : ensureEncryptionProviderKMS env a tr = (none, a2, tr2)) :
    (∃ k, env.DescribeKey tr (EncryptionProviderKMSName a) = .ok k ∧
      a2 = { a with remoteStateKMS := k.Arn }) ∨
    (∃ (code text : String) (k : KeyMetadata),
      env.DescribeKey tr (EncryptionProviderKMSName a) = .error (.aws code text) ∧
      Terraform.stringsContains code "NotFound" = true ∧
      a2 = { a with encryptionProviderKMS := k.Arn }) := by
  unfold ensureEncryptionProviderKMS at h
  cases hk : env.KMS tr with
  | some e => simp [hk] at h
  | none =>
    simp only [hk] at h
    cases hd : env.DescribeKey tr (EncryptionProviderKMSName a) with
    | ok k =>
      simp only [hd, Prod.mk.injEq, true_and] at h
      exact Or.inl ⟨k, rfl, h.1.symm⟩
    | error e =>
      cases e with
      | other err => simp [hd] at h
      | aws code text =>
        simp only [hd] at h
        by_cases hnf : Terraform.stringsContains code "NotFound" = true
        · simp only [hnf, if_true] at h
          right
          unfold initEncrytionProviderKMS at h
          cases hk2 : env.KMS (Event.describeKey (EncryptionProviderKMSName a) :: tr) with
          | some e => simp [hk2] at h
          | none =>
            simp only [hk2] at h
            cases hc : env.CreateKey (Event.describeKey (EncryptionProviderKMSName a) :: tr)
                ("KMS key for Tarmak provider's '" ++ a.name ++ "' encryption provider")
                [("provider", a.name)] with
            | error e => simp [hc] at h
            | ok k =>
              simp only [hc] at h
              cases hal : env.CreateAlias
                  (Event.createKey
                    ("KMS key for Tarmak provider's '" ++ a.name ++ "' encryption provider")
                    [("provider", a.name)] ::
                    Event.describeKey (EncryptionProviderKMSName a) :: tr)
                  k.KeyId (EncryptionProviderKMSName a) with
              | some e => simp [hal] at h
              | none =>
                simp only [hal, Prod.mk.injEq, true_and] at h
                exact ⟨code, text, k, rfl, hnf, h.1.symm⟩
        · simp [hnf] at h

/-- C29 evaluated where it fails: the alias of the encryption-provider key
exists, `DescribeKey` gives the key's ARN, and `ensureEncryptionProviderKMS`
returns nil with that ARN written over `remoteStateKMS`, while
`encryptionProviderKMS` is still empty.  In the sibling path, where the key
is created, the ARN goes to `encryptionProviderKMS` and `remoteStateKMS` is
kept. -/
theorem ensureEncryptionProviderKMS_overwrites_remoteStateKMS :
    demoAmazon.remoteStateKMS = "arn:aws:kms:eu-west-1:1:key/remote-state" ∧
    demoAmazon.encryptionProviderKMS = "" ∧
    ensureEncryptionProviderKMS aliasEnv demoAmazon [] =
      (none,
       { name := "aws", environmentName := "dev", encryptionProviderKMS := "",
         remoteStateKMS := "arn:aws:kms:eu-west-1:1:key/enc" },
       [Event.describeKey "alias/tarmak/dev/encryption-provider"]) ∧
    ensureEncryptionProviderKMS noAliasEnv demoAmazon [] =
      (none,
       { name := "aws", environmentName := "dev",
         encryptionProviderKMS := "arn:aws:kms:eu-west-1:1:key/enc",
         remoteStateKMS := "arn:aws:kms:eu-west-1:1:key/remote-state" },
       [Event.createAlias "enc" "alias/tarmak/dev/encryption-provider",
        Event.createKey "KMS key for Tarmak provider's 'aws' encryption provider"
          [("provider", "aws")],
        Event.describeKey "alias/tarmak/dev/encryption-provider"]) :=
  ⟨rfl, rfl, rfl, rfl⟩

end Amazon

end Tarmak
